import Mathlib

/-!
UhidServer: the input translation engine of the virtual HID device.

A shallow embedding of `src/lib/platform/UhidServer.cpp` and of the virtual
backend of `src/lib/client/InputBackendFactory.cpp`.

* `UInt8` fields are natural numbers; every value the code stores in one is
  below 256 (`UhidServer.bytesOk`).
* `SInt32` arguments are integers; where the code narrows to `SInt8`/`uint8_t`
  the narrowing is written out (`toS8`, `toU8`), and the one subtraction that
  can leave the `SInt32` range wraps (`wrap32`).
* A loop whose number of iterations depends on its arguments takes a bound
  `fuel` on the iterations and returns `none` when the bound is reached.
* `KeyID`, `KeyModifierMask` and `ButtonID` values are natural numbers.
* The named constants of `barrier/key_types.h` and `barrier/mouse_types.h`
  are declared outside `UhidServer.cpp`, so every function that mentions one
  takes them as the parameter `K : KeyTypes`.
* The kernel side of `/dev/uhid` is the pair `written` (the records handed to
  `write`, oldest first) and `writeRet` (what the n-th call of `write`
  returns).
-/

namespace Uhid

/-! ## Constants of the missing headers -/

/-- The named constants of `barrier/key_types.h` and `barrier/mouse_types.h`
that `UhidServer.cpp` refers to. Their values are declared outside this file,
so they are a parameter of the embedding. -/
structure KeyTypes where
  KeyModifierShift : Nat
  KeyModifierControl : Nat
  KeyModifierAlt : Nat
  KeyModifierMeta : Nat
  KeyModifierSuper : Nat
  KeyModifierAltGr : Nat
  kKeyReturn : Nat
  kKeyKP_Enter : Nat
  kKeyEscape : Nat
  kKeyBackSpace : Nat
  kKeyTab : Nat
  kKeyLeftTab : Nat
  kKeyDelete : Nat
  kKeyInsert : Nat
  kKeyHome : Nat
  kKeyEnd : Nat
  kKeyPageUp : Nat
  kKeyPageDown : Nat
  kKeyRight : Nat
  kKeyLeft : Nat
  kKeyDown : Nat
  kKeyUp : Nat
  kKeyNumLock : Nat
  kKeyKP_Divide : Nat
  kKeyKP_Multiply : Nat
  kKeyKP_Subtract : Nat
  kKeyKP_Add : Nat
  kKeyKP_Decimal : Nat
  kKeyKP_Delete : Nat
  kKeyKP_0 : Nat
  kKeyKP_Insert : Nat
  kKeyKP_1 : Nat
  kKeyKP_End : Nat
  kKeyKP_2 : Nat
  kKeyKP_Down : Nat
  kKeyKP_3 : Nat
  kKeyKP_PageDown : Nat
  kKeyKP_4 : Nat
  kKeyKP_Left : Nat
  kKeyKP_5 : Nat
  kKeyKP_Begin : Nat
  kKeyKP_6 : Nat
  kKeyKP_Right : Nat
  kKeyKP_7 : Nat
  kKeyKP_Home : Nat
  kKeyKP_8 : Nat
  kKeyKP_Up : Nat
  kKeyKP_9 : Nat
  kKeyKP_PageUp : Nat
  kKeyCapsLock : Nat
  kKeyPrint : Nat
  kKeyScrollLock : Nat
  kKeyPause : Nat
  kKeyMenu : Nat
  kKeyShift_L : Nat
  kKeyShift_R : Nat
  kKeyControl_L : Nat
  kKeyControl_R : Nat
  kKeyAlt_L : Nat
  kKeyAlt_R : Nat
  kKeyAltGr : Nat
  kKeyMeta_L : Nat
  kKeySuper_L : Nat
  kKeyMeta_R : Nat
  kKeySuper_R : Nat
  kKeyF1 : Nat
  kKeyF12 : Nat
  kKeyF13 : Nat
  kKeyF24 : Nat
  kButtonLeft : Nat
  kButtonMiddle : Nat
  kButtonRight : Nat
  kButtonExtra0 : Nat
  kButtonExtra1 : Nat

/-- The values the constants have in the upstream Barrier headers. Used only
to run the concrete scenarios; every general theorem holds for all values. -/
def barrierKeyTypes : KeyTypes where
  KeyModifierShift := 0x0001
  KeyModifierControl := 0x0002
  KeyModifierAlt := 0x0004
  KeyModifierMeta := 0x0008
  KeyModifierSuper := 0x0010
  KeyModifierAltGr := 0x0020
  kKeyReturn := 0xEF0D
  kKeyKP_Enter := 0xEF8D
  kKeyEscape := 0xEF1B
  kKeyBackSpace := 0xEF08
  kKeyTab := 0xEF09
  kKeyLeftTab := 0xEE20
  kKeyDelete := 0xEFFF
  kKeyInsert := 0xEF63
  kKeyHome := 0xEF50
  kKeyEnd := 0xEF57
  kKeyPageUp := 0xEF55
  kKeyPageDown := 0xEF56
  kKeyRight := 0xEF53
  kKeyLeft := 0xEF51
  kKeyDown := 0xEF54
  kKeyUp := 0xEF52
  kKeyNumLock := 0xEF7F
  kKeyKP_Divide := 0xEFAF
  kKeyKP_Multiply := 0xEFAA
  kKeyKP_Subtract := 0xEFAD
  kKeyKP_Add := 0xEFAB
  kKeyKP_Decimal := 0xEFAE
  kKeyKP_Delete := 0xEF9F
  kKeyKP_0 := 0xEFB0
  kKeyKP_Insert := 0xEF9E
  kKeyKP_1 := 0xEFB1
  kKeyKP_End := 0xEF9C
  kKeyKP_2 := 0xEFB2
  kKeyKP_Down := 0xEF99
  kKeyKP_3 := 0xEFB3
  kKeyKP_PageDown := 0xEF9B
  kKeyKP_4 := 0xEFB4
  kKeyKP_Left := 0xEF96
  kKeyKP_5 := 0xEFB5
  kKeyKP_Begin := 0xEF9D
  kKeyKP_6 := 0xEFB6
  kKeyKP_Right := 0xEF98
  kKeyKP_7 := 0xEFB7
  kKeyKP_Home := 0xEF95
  kKeyKP_8 := 0xEFB8
  kKeyKP_Up := 0xEF97
  kKeyKP_9 := 0xEFB9
  kKeyKP_PageUp := 0xEF9A
  kKeyCapsLock := 0xEFE5
  kKeyPrint := 0xEF61
  kKeyScrollLock := 0xEF14
  kKeyPause := 0xEF13
  kKeyMenu := 0xEF67
  kKeyShift_L := 0xEFE1
  kKeyShift_R := 0xEFE2
  kKeyControl_L := 0xEFE3
  kKeyControl_R := 0xEFE4
  kKeyAlt_L := 0xEFE9
  kKeyAlt_R := 0xEFEA
  kKeyAltGr := 0xEF7E
  kKeyMeta_L := 0xEFE7
  kKeySuper_L := 0xEFEB
  kKeyMeta_R := 0xEFE8
  kKeySuper_R := 0xEFEC
  kKeyF1 := 0xEFBE
  kKeyF12 := 0xEFC9
  kKeyF13 := 0xEFCA
  kKeyF24 := 0xEFD5
  kButtonLeft := 1
  kButtonMiddle := 2
  kButtonRight := 3
  kButtonExtra0 := 4
  kButtonExtra1 := 5

/-! ## Key mapping -/

/-- Number of key slots of a keyboard report (`kKeyboardSlots`). -/
def kKeyboardSlots : Nat := 6

/-- Result of the key mapping (`struct KeyMapResult`). -/
structure KeyMapResult where
  usage : Nat
  requiredModifiers : Nat
  modifierBit : Nat
  isModifier : Bool
  deriving DecidableEq, Repr

/-- Modifier byte derived from an abstract modifier mask
(`modifier_from_mask`). -/
def modifier_from_mask (K : KeyTypes) (mask : Nat) : Nat :=
  let mods := 0
  let mods := if mask &&& K.KeyModifierControl ≠ 0 then mods ||| 0x01 else mods
  let mods := if mask &&& K.KeyModifierShift ≠ 0 then mods ||| 0x02 else mods
  let mods := if mask &&& K.KeyModifierAlt ≠ 0 then mods ||| 0x04 else mods
  let mods :=
    if mask &&& K.KeyModifierMeta ≠ 0 ∨ mask &&& K.KeyModifierSuper ≠ 0 then mods ||| 0x08
    else mods
  let mods := if mask &&& K.KeyModifierAltGr ≠ 0 then mods ||| 0x40 else mods
  mods

/-- The `switch (c)` of `map_ascii`, for the characters the range tests before
it let through. -/
def map_ascii_switch (out : KeyMapResult) (c : Nat) : KeyMapResult :=
  match c with
  | 0x21 => { out with usage := 0x1e, requiredModifiers := 0x02 }  -- '!'
  | 0x40 => { out with usage := 0x1f, requiredModifiers := 0x02 }  -- '@'
  | 0x23 => { out with usage := 0x20, requiredModifiers := 0x02 }  -- '#'
  | 0x24 => { out with usage := 0x21, requiredModifiers := 0x02 }  -- '$'
  | 0x25 => { out with usage := 0x22, requiredModifiers := 0x02 }  -- '%'
  | 0x5e => { out with usage := 0x23, requiredModifiers := 0x02 }  -- '^'
  | 0x26 => { out with usage := 0x24, requiredModifiers := 0x02 }  -- '&'
  | 0x2a => { out with usage := 0x25, requiredModifiers := 0x02 }  -- '*'
  | 0x28 => { out with usage := 0x26, requiredModifiers := 0x02 }  -- '('
  | 0x29 => { out with usage := 0x27, requiredModifiers := 0x02 }  -- ')'
  | 0x2d => { out with usage := 0x2d }                             -- '-'
  | 0x5f => { out with usage := 0x2d, requiredModifiers := 0x02 }  -- '_'
  | 0x3d => { out with usage := 0x2e }                             -- '='
  | 0x2b => { out with usage := 0x2e, requiredModifiers := 0x02 }  -- '+'
  | 0x5b => { out with usage := 0x2f }                             -- '['
  | 0x7b => { out with usage := 0x2f, requiredModifiers := 0x02 }  -- '{'
  | 0x5d => { out with usage := 0x30 }                             -- ']'
  | 0x7d => { out with usage := 0x30, requiredModifiers := 0x02 }  -- '}'
  | 0x5c => { out with usage := 0x31 }                             -- backslash
  | 0x7c => { out with usage := 0x31, requiredModifiers := 0x02 }  -- '|'
  | 0x3b => { out with usage := 0x33 }                             -- ';'
  | 0x3a => { out with usage := 0x33, requiredModifiers := 0x02 }  -- ':'
  | 0x27 => { out with usage := 0x34 }                             -- apostrophe
  | 0x22 => { out with usage := 0x34, requiredModifiers := 0x02 }  -- '"'
  | 0x60 => { out with usage := 0x35 }                             -- backtick
  | 0x7e => { out with usage := 0x35, requiredModifiers := 0x02 }  -- '~'
  | 0x2c => { out with usage := 0x36 }                             -- ','
  | 0x3c => { out with usage := 0x36, requiredModifiers := 0x02 }  -- '<'
  | 0x2e => { out with usage := 0x37 }                             -- '.'
  | 0x3e => { out with usage := 0x37, requiredModifiers := 0x02 }  -- '>'
  | 0x2f => { out with usage := 0x38 }                             -- '/'
  | 0x3f => { out with usage := 0x38, requiredModifiers := 0x02 }  -- '?'
  | 0x20 => { out with usage := 0x2c }                             -- ' '
  | _ => out

/-- Mapping of the ASCII subset (`map_ascii`). The character `c` is the key
identifier itself, which is at most `0x7f` past the first test. -/
def map_ascii (id : Nat) : KeyMapResult :=
  let out : KeyMapResult := ⟨0, 0, 0, false⟩
  if id > 0x7f then out
  else
    let c := id
    if 0x61 ≤ c ∧ c ≤ 0x7a then { out with usage := (0x04 + (c - 0x61)) % 256 }
    else if 0x41 ≤ c ∧ c ≤ 0x5a then
      { out with usage := (0x04 + (c - 0x41)) % 256, requiredModifiers := 0x02 }
    else if 0x31 ≤ c ∧ c ≤ 0x39 then { out with usage := (0x1e + (c - 0x31)) % 256 }
    else if c = 0x30 then { out with usage := 0x27 }
    else map_ascii_switch out c

/-- The `switch (id)` of `map_key` over the named keys, case by case in the
order of the source. -/
def map_key_switch (K : KeyTypes) (out : KeyMapResult) (id : Nat) : KeyMapResult :=
  if id = K.kKeyReturn ∨ id = K.kKeyKP_Enter then { out with usage := 0x28 }
  else if id = K.kKeyEscape then { out with usage := 0x29 }
  else if id = K.kKeyBackSpace then { out with usage := 0x2a }
  else if id = K.kKeyTab ∨ id = K.kKeyLeftTab then { out with usage := 0x2b }
  else if id = K.kKeyDelete then { out with usage := 0x4c }
  else if id = K.kKeyInsert then { out with usage := 0x49 }
  else if id = K.kKeyHome then { out with usage := 0x4a }
  else if id = K.kKeyEnd then { out with usage := 0x4d }
  else if id = K.kKeyPageUp then { out with usage := 0x4b }
  else if id = K.kKeyPageDown then { out with usage := 0x4e }
  else if id = K.kKeyRight then { out with usage := 0x4f }
  else if id = K.kKeyLeft then { out with usage := 0x50 }
  else if id = K.kKeyDown then { out with usage := 0x51 }
  else if id = K.kKeyUp then { out with usage := 0x52 }
  else if id = K.kKeyNumLock then { out with usage := 0x53 }
  else if id = K.kKeyKP_Divide then { out with usage := 0x54 }
  else if id = K.kKeyKP_Multiply then { out with usage := 0x55 }
  else if id = K.kKeyKP_Subtract then { out with usage := 0x56 }
  else if id = K.kKeyKP_Add then { out with usage := 0x57 }
  else if id = K.kKeyKP_Decimal ∨ id = K.kKeyKP_Delete then { out with usage := 0x63 }
  else if id = K.kKeyKP_0 ∨ id = K.kKeyKP_Insert then { out with usage := 0x62 }
  else if id = K.kKeyKP_1 ∨ id = K.kKeyKP_End then { out with usage := 0x59 }
  else if id = K.kKeyKP_2 ∨ id = K.kKeyKP_Down then { out with usage := 0x5a }
  else if id = K.kKeyKP_3 ∨ id = K.kKeyKP_PageDown then { out with usage := 0x5b }
  else if id = K.kKeyKP_4 ∨ id = K.kKeyKP_Left then { out with usage := 0x5c }
  else if id = K.kKeyKP_5 ∨ id = K.kKeyKP_Begin then { out with usage := 0x5d }
  else if id = K.kKeyKP_6 ∨ id = K.kKeyKP_Right then { out with usage := 0x5e }
  else if id = K.kKeyKP_7 ∨ id = K.kKeyKP_Home then { out with usage := 0x5f }
  else if id = K.kKeyKP_8 ∨ id = K.kKeyKP_Up then { out with usage := 0x60 }
  else if id = K.kKeyKP_9 ∨ id = K.kKeyKP_PageUp then { out with usage := 0x61 }
  else if id = K.kKeyCapsLock then { out with usage := 0x39 }
  else if id = K.kKeyPrint then { out with usage := 0x46 }
  else if id = K.kKeyScrollLock then { out with usage := 0x47 }
  else if id = K.kKeyPause then { out with usage := 0x48 }
  else if id = K.kKeyMenu then { out with usage := 0x65 }
  else if id = K.kKeyShift_L then { out with isModifier := true, modifierBit := 0x02 }
  else if id = K.kKeyShift_R then { out with isModifier := true, modifierBit := 0x20 }
  else if id = K.kKeyControl_L then { out with isModifier := true, modifierBit := 0x01 }
  else if id = K.kKeyControl_R then { out with isModifier := true, modifierBit := 0x10 }
  else if id = K.kKeyAlt_L then { out with isModifier := true, modifierBit := 0x04 }
  else if id = K.kKeyAlt_R ∨ id = K.kKeyAltGr then
    { out with isModifier := true, modifierBit := 0x40 }
  else if id = K.kKeyMeta_L ∨ id = K.kKeySuper_L then
    { out with isModifier := true, modifierBit := 0x08 }
  else if id = K.kKeyMeta_R ∨ id = K.kKeySuper_R then
    { out with isModifier := true, modifierBit := 0x80 }
  else out

/-- Mapping of a key identifier (`map_key`): the ASCII mapping first, then the
named keys, then the two function-key ranges. -/
def map_key (K : KeyTypes) (id : Nat) : KeyMapResult :=
  let out := map_ascii id
  if out.usage ≠ 0 ∨ out.isModifier = true then out
  else
    let out := map_key_switch K out id
    if out.usage = 0 ∧ id ≥ K.kKeyF1 ∧ id ≤ K.kKeyF12 then
      { out with usage := (0x3a + (id - K.kKeyF1)) % 256 }
    else if out.usage = 0 ∧ id ≥ K.kKeyF13 ∧ id ≤ K.kKeyF24 then
      { out with usage := (0x68 + (id - K.kKeyF13)) % 256 }
    else out

/-- Shape (a) of a mapping, a non-modifier key: a usage in [0x04, 0x73], no
modifier bit, required modifiers none or left shift. -/
def KeyMapResult.isPlainShape (key : KeyMapResult) : Prop :=
  key.isModifier = false ∧ 0x04 ≤ key.usage ∧ key.usage ≤ 0x73 ∧ key.modifierBit = 0 ∧
    (key.requiredModifiers = 0x00 ∨ key.requiredModifiers = 0x02)

/-- Shape (b) of a mapping, a modifier key: no usage, no required modifiers,
and a modifier bit that is a single bit of the byte. -/
def KeyMapResult.isModifierShape (key : KeyMapResult) : Prop :=
  key.isModifier = true ∧ key.usage = 0 ∧ key.requiredModifiers = 0 ∧
    key.modifierBit ∈ [0x01, 0x02, 0x04, 0x08, 0x10, 0x20, 0x40, 0x80]

/-- Shape (c) of a mapping, an unmapped key. -/
def KeyMapResult.isUnmappedShape (key : KeyMapResult) : Prop :=
  key = ⟨0, 0, 0, false⟩

instance (key : KeyMapResult) : Decidable key.isPlainShape :=
  inferInstanceAs (Decidable (_ ∧ _))

instance (key : KeyMapResult) : Decidable key.isModifierShape :=
  inferInstanceAs (Decidable (_ ∧ _))

instance (key : KeyMapResult) : Decidable key.isUnmappedShape :=
  inferInstanceAs (Decidable (key = ⟨0, 0, 0, false⟩))

/-- What the `switch` of `map_key` makes of the empty mapping: nothing, a
non-modifier key without required modifiers, or a modifier key. -/
def KeyMapResult.isSwitchShape (out : KeyMapResult) : Prop :=
  out = ⟨0, 0, 0, false⟩ ∨ (out.isPlainShape ∧ out.requiredModifiers = 0) ∨ out.isModifierShape

instance (out : KeyMapResult) : Decidable out.isSwitchShape :=
  inferInstanceAs (Decidable (_ ∨ _))

/-- The modifier key identifiers of `map_key`, in the order of its cases. -/
def KeyTypes.modifierKeys (K : KeyTypes) : List Nat :=
  [K.kKeyShift_L, K.kKeyShift_R, K.kKeyControl_L, K.kKeyControl_R, K.kKeyAlt_L, K.kKeyAlt_R,
    K.kKeyAltGr, K.kKeyMeta_L, K.kKeySuper_L, K.kKeyMeta_R, K.kKeySuper_R]

/-- What the mapping needs of the function-key constants: F1..F12 and F13..F24
are twelve consecutive identifiers each (as the ranges `0x3a + (id - kKeyF1)`
and `0x68 + (id - kKeyF13)` of the source presuppose), and no modifier key
identifier lies in either range. -/
def KeyTypes.functionKeysOk (K : KeyTypes) : Prop :=
  K.kKeyF12 = K.kKeyF1 + 11 ∧ K.kKeyF24 = K.kKeyF13 + 11 ∧
    ∀ c ∈ K.modifierKeys,
      ¬ (K.kKeyF1 ≤ c ∧ c ≤ K.kKeyF12) ∧ ¬ (K.kKeyF13 ≤ c ∧ c ≤ K.kKeyF24)

instance (K : KeyTypes) : Decidable K.functionKeysOk :=
  inferInstanceAs (Decidable (_ ∧ _))

/-! ## The `switch` of `map_key` as a table -/

/-- The cases of the `switch (id)` of `map_key`, in the order of the source:
the labels of a case and what the case makes of the empty mapping. -/
def switchCases (K : KeyTypes) : List (List Nat × KeyMapResult) :=
  [([K.kKeyReturn, K.kKeyKP_Enter], ⟨0x28, 0, 0, false⟩),
   ([K.kKeyEscape], ⟨0x29, 0, 0, false⟩),
   ([K.kKeyBackSpace], ⟨0x2a, 0, 0, false⟩),
   ([K.kKeyTab, K.kKeyLeftTab], ⟨0x2b, 0, 0, false⟩),
   ([K.kKeyDelete], ⟨0x4c, 0, 0, false⟩),
   ([K.kKeyInsert], ⟨0x49, 0, 0, false⟩),
   ([K.kKeyHome], ⟨0x4a, 0, 0, false⟩),
   ([K.kKeyEnd], ⟨0x4d, 0, 0, false⟩),
   ([K.kKeyPageUp], ⟨0x4b, 0, 0, false⟩),
   ([K.kKeyPageDown], ⟨0x4e, 0, 0, false⟩),
   ([K.kKeyRight], ⟨0x4f, 0, 0, false⟩),
   ([K.kKeyLeft], ⟨0x50, 0, 0, false⟩),
   ([K.kKeyDown], ⟨0x51, 0, 0, false⟩),
   ([K.kKeyUp], ⟨0x52, 0, 0, false⟩),
   ([K.kKeyNumLock], ⟨0x53, 0, 0, false⟩),
   ([K.kKeyKP_Divide], ⟨0x54, 0, 0, false⟩),
   ([K.kKeyKP_Multiply], ⟨0x55, 0, 0, false⟩),
   ([K.kKeyKP_Subtract], ⟨0x56, 0, 0, false⟩),
   ([K.kKeyKP_Add], ⟨0x57, 0, 0, false⟩),
   ([K.kKeyKP_Decimal, K.kKeyKP_Delete], ⟨0x63, 0, 0, false⟩),
   ([K.kKeyKP_0, K.kKeyKP_Insert], ⟨0x62, 0, 0, false⟩),
   ([K.kKeyKP_1, K.kKeyKP_End], ⟨0x59, 0, 0, false⟩),
   ([K.kKeyKP_2, K.kKeyKP_Down], ⟨0x5a, 0, 0, false⟩),
   ([K.kKeyKP_3, K.kKeyKP_PageDown], ⟨0x5b, 0, 0, false⟩),
   ([K.kKeyKP_4, K.kKeyKP_Left], ⟨0x5c, 0, 0, false⟩),
   ([K.kKeyKP_5, K.kKeyKP_Begin], ⟨0x5d, 0, 0, false⟩),
   ([K.kKeyKP_6, K.kKeyKP_Right], ⟨0x5e, 0, 0, false⟩),
   ([K.kKeyKP_7, K.kKeyKP_Home], ⟨0x5f, 0, 0, false⟩),
   ([K.kKeyKP_8, K.kKeyKP_Up], ⟨0x60, 0, 0, false⟩),
   ([K.kKeyKP_9, K.kKeyKP_PageUp], ⟨0x61, 0, 0, false⟩),
   ([K.kKeyCapsLock], ⟨0x39, 0, 0, false⟩),
   ([K.kKeyPrint], ⟨0x46, 0, 0, false⟩),
   ([K.kKeyScrollLock], ⟨0x47, 0, 0, false⟩),
   ([K.kKeyPause], ⟨0x48, 0, 0, false⟩),
   ([K.kKeyMenu], ⟨0x65, 0, 0, false⟩),
   ([K.kKeyShift_L], ⟨0, 0, 0x02, true⟩),
   ([K.kKeyShift_R], ⟨0, 0, 0x20, true⟩),
   ([K.kKeyControl_L], ⟨0, 0, 0x01, true⟩),
   ([K.kKeyControl_R], ⟨0, 0, 0x10, true⟩),
   ([K.kKeyAlt_L], ⟨0, 0, 0x04, true⟩),
   ([K.kKeyAlt_R, K.kKeyAltGr], ⟨0, 0, 0x40, true⟩),
   ([K.kKeyMeta_L, K.kKeySuper_L], ⟨0, 0, 0x08, true⟩),
   ([K.kKeyMeta_R, K.kKeySuper_R], ⟨0, 0, 0x80, true⟩)]

/-- The lists of a list, one after the other. -/
def listJoin : List (List Nat) → List Nat
  | [] => []
  | l :: ls => l ++ listJoin ls

/-- All case labels of the `switch`, in order. -/
def switchLabels (K : KeyTypes) : List Nat :=
  listJoin ((switchCases K).map (fun e => e.1))

/-- The first case with the label `id`, the empty mapping when there is
none. -/
def lookupCase : List (List Nat × KeyMapResult) → Nat → KeyMapResult
  | [], _ => ⟨0, 0, 0, false⟩
  | e :: rest, id => if id ∈ e.1 then e.2 else lookupCase rest id

/-- What the mapping of the named keys needs of the key constants: the case
labels of the `switch` are pairwise distinct (as the labels of a `switch` must
be), none of them is an ASCII code or lies in a function-key range, and the
function keys F1..F12 and F13..F24 are twelve consecutive identifiers each,
above the ASCII codes, the first range below the second. -/
def KeyTypes.namedKeysOk (K : KeyTypes) : Prop :=
  (switchLabels K).Nodup ∧
  (∀ c ∈ switchLabels K, 0x7f < c ∧
    ¬ (K.kKeyF1 ≤ c ∧ c ≤ K.kKeyF12) ∧ ¬ (K.kKeyF13 ≤ c ∧ c ≤ K.kKeyF24)) ∧
  0x7f < K.kKeyF1 ∧ K.kKeyF12 = K.kKeyF1 + 11 ∧ K.kKeyF12 < K.kKeyF13 ∧
  K.kKeyF24 = K.kKeyF13 + 11

instance (K : KeyTypes) : Decidable K.namedKeysOk :=
  inferInstanceAs (Decidable (_ ∧ _))

/-- The five button identifiers the engine knows are pairwise distinct. -/
def KeyTypes.buttonsDistinct (K : KeyTypes) : Prop :=
  [K.kButtonLeft, K.kButtonRight, K.kButtonMiddle, K.kButtonExtra0, K.kButtonExtra1].Nodup

instance (K : KeyTypes) : Decidable K.buttonsDistinct :=
  inferInstanceAs (Decidable (List.Nodup _))

/-! ## The US layout, for the shifted characters -/

/-- An upper-case letter, 'A' to 'Z'. -/
def isUpperCase (c : Nat) : Prop := 0x41 ≤ c ∧ c ≤ 0x5a

instance (c : Nat) : Decidable (isUpperCase c) :=
  inferInstanceAs (Decidable (_ ∧ _))

/-- A printable ASCII character, 0x20 to 0x7e. -/
def isPrintable (c : Nat) : Prop := 0x20 ≤ c ∧ c ≤ 0x7e

instance (c : Nat) : Decidable (isPrintable c) :=
  inferInstanceAs (Decidable (_ ∧ _))

/-- The shifted symbols, in the order the specification lists them:
`! @ # $ % ^ & * ( ) _ + { } | : " ~ < > ?`. -/
def shiftedSymbols : List Nat :=
  [0x21, 0x40, 0x23, 0x24, 0x25, 0x5e, 0x26, 0x2a, 0x28, 0x29, 0x5f, 0x2b, 0x7b, 0x7d, 0x7c,
   0x3a, 0x22, 0x7e, 0x3c, 0x3e, 0x3f]

/-- The character on the same key of the US layout without shift: the
lower-case letter of an upper-case letter, and for the shifted symbols
`!`/`1`, `@`/`2`, `#`/`3`, `$`/`4`, `%`/`5`, `^`/`6`, `&`/`7`, `*`/`8`, `(`/`9`, `)`/`0`,
`_`/`-`, `+`/`=`, left and right brace/bracket, `|`/backslash, `:`/`;`,
`"`/apostrophe, `~`/backtick, `<`/`,`, `>`/`.`, `?`/`/`; any other character is
its own base. -/
def usBaseChar (c : Nat) : Nat :=
  if isUpperCase c then c + 0x20
  else
    match c with
    | 0x21 => 0x31
    | 0x40 => 0x32
    | 0x23 => 0x33
    | 0x24 => 0x34
    | 0x25 => 0x35
    | 0x5e => 0x36
    | 0x26 => 0x37
    | 0x2a => 0x38
    | 0x28 => 0x39
    | 0x29 => 0x30
    | 0x5f => 0x2d
    | 0x2b => 0x3d
    | 0x7b => 0x5b
    | 0x7d => 0x5d
    | 0x7c => 0x5c
    | 0x3a => 0x3b
    | 0x22 => 0x27
    | 0x7e => 0x60
    | 0x3c => 0x2c
    | 0x3e => 0x2e
    | 0x3f => 0x2f
    | _ => c

/-! ## State of the engine and of the kernel channel -/

/-- A record written to `/dev/uhid` (`struct uhid_event`), by its type tag.
A `create2` record carries the bytes of its name field in front of the
terminating NUL (`u.create2.name`); an `input2` record carries the report
bytes (`u.input2.data` up to `u.input2.size`). -/
inductive UhidEvent where
  | create2 (name : List Nat)
  | destroy
  | input2 (data : List Nat)
  deriving DecidableEq, Repr

/-- The fields of `class UhidServer`, followed by the kernel side of the
channel: `written` lists the records handed to `write`, oldest first, and
`writeRet n` is the value the call number `n` of `write` returns. -/
structure UhidServer where
  m_running : Bool
  m_uhidFd : Int
  m_hasLastAbsolute : Bool
  m_lastAbsX : Int
  m_lastAbsY : Int
  m_mouseButtons : Nat
  m_keyboardModifiers : Nat
  m_keyboardKeys : Fin 6 → Nat
  written : List UhidEvent
  writeRet : Nat → Int

/-- The `UInt8` fields hold bytes. -/
def UhidServer.bytesOk (s : UhidServer) : Prop :=
  s.m_mouseButtons < 256 ∧ s.m_keyboardModifiers < 256 ∧ ∀ i, s.m_keyboardKeys i < 256

/-- Every call of `write` from this state on returns a non-negative count. -/
def UhidServer.writesSucceed (s : UhidServer) : Prop :=
  ∀ n, 0 ≤ s.writeRet n

/-- Narrowing to `uint8_t`. -/
def toU8 (v : Int) : Nat := (v % 256).toNat

/-- Narrowing to `SInt8` (two's complement). -/
def toS8 (v : Int) : Int := (v + 128) % 256 - 128

/-- The value of a report byte read as a signed 8-bit number. -/
def fromU8 (b : Nat) : Int := if b < 128 then (b : Int) else (b : Int) - 256

/-- Writing one record (`uhid_write`): the record goes to the kernel, the
result is `-1` when `write` returned a negative value and `0` otherwise. -/
def uhid_write (s : UhidServer) (ev : UhidEvent) : Int × UhidServer :=
  let ret := s.writeRet s.written.length
  (if ret < 0 then -1 else 0, { s with written := s.written ++ [ev] })

/-- The nine report bytes `sendKeyboardReport` fills in: all zero, then the
report id, the modifier byte, and the slots from index 3 on. -/
def keyboardReport (s : UhidServer) : List Nat :=
  let report := List.replicate 9 0
  let report := report.set 0 0x02
  let report := report.set 1 s.m_keyboardModifiers
  (List.finRange 6).foldl (fun r i => r.set (3 + i.val) (s.m_keyboardKeys i)) report

/-- Emission of the keyboard state (`UhidServer::sendKeyboardReport`). -/
def sendKeyboardReport (s : UhidServer) : Bool × UhidServer :=
  if !s.m_running then (false, s)
  else
    let r := uhid_write s (.input2 (keyboardReport s))
    (r.1 == 0, r.2)

/-- Emission of a mouse report (`UhidServer::sendMouseReport`); the four
arguments are `SInt8` values. -/
def sendMouseReport (s : UhidServer) (dx dy wheel pan : Int) : Bool × UhidServer :=
  if !s.m_running then (false, s)
  else
    let report := [0x01, s.m_mouseButtons, toU8 dx, toU8 dy, toU8 wheel, toU8 pan]
    let r := uhid_write s (.input2 report)
    (r.1 == 0, r.2)

/-- Reset of the input state (`UhidServer::clearInputState`). -/
def clearInputState (s : UhidServer) : UhidServer :=
  let s := { s with
    m_hasLastAbsolute := false, m_lastAbsX := 0, m_lastAbsY := 0,
    m_mouseButtons := 0, m_keyboardModifiers := 0, m_keyboardKeys := fun _ => 0 }
  if s.m_running then
    let s := (sendKeyboardReport s).2
    (sendMouseReport s 0 0 0 0).2
  else s

/-! ## Mouse operations -/

/-- The bit of a button identifier in the button byte, `0` for an identifier
the engine does not know (first part of `updateMouseButtons`). -/
def buttonBit (K : KeyTypes) (id : Nat) : Nat :=
  if id = K.kButtonLeft then 0x01
  else if id = K.kButtonRight then 0x02
  else if id = K.kButtonMiddle then 0x04
  else if id = K.kButtonExtra0 then 0x08
  else if id = K.kButtonExtra1 then 0x10
  else 0

/-- Press or release of a mouse button (`UhidServer::updateMouseButtons`).
Both operands of `|=` and `&=` are bytes, so the stores do not truncate. -/
def updateMouseButtons (K : KeyTypes) (s : UhidServer) (id : Nat) (pressed : Bool) :
    Bool × UhidServer :=
  let bit := buttonBit K id
  if bit = 0 then (true, s)
  else
    let s :=
      if pressed then { s with m_mouseButtons := s.m_mouseButtons ||| bit }
      else { s with m_mouseButtons := s.m_mouseButtons &&& toU8 (-1 - (bit : Int)) }
    sendMouseReport s 0 0 0 0

/-- Button press (`UhidServer::mouseDown`). -/
def mouseDown (K : KeyTypes) (s : UhidServer) (id : Nat) : Bool × UhidServer :=
  if !s.m_running then (false, s) else updateMouseButtons K s id true

/-- Button release (`UhidServer::mouseUp`). -/
def mouseUp (K : KeyTypes) (s : UhidServer) (id : Nat) : Bool × UhidServer :=
  if !s.m_running then (false, s) else updateMouseButtons K s id false

/-- The `while` loop of `sendRelativeMotion`, run for at most `fuel`
iterations; `none` when the fuel is used up before the loop ends. The
subtraction never leaves the `SInt32` range: each step has the sign of its
delta and is no larger in absolute value. -/
def sendRelativeMotionLoop : Nat → UhidServer → Int → Int → Option (Bool × UhidServer)
  | 0, _, _, _ => none
  | fuel + 1, s, dx, dy =>
    if dx ≠ 0 ∨ dy ≠ 0 then
      let stepX : Int := max (-127) (min 127 dx)
      let stepY : Int := max (-127) (min 127 dy)
      let r := sendMouseReport s (toS8 stepX) (toS8 stepY) 0 0
      if !r.1 then some (false, r.2)
      else sendRelativeMotionLoop fuel r.2 (dx - stepX) (dy - stepY)
    else some (true, s)

/-- Chunked relative motion (`UhidServer::sendRelativeMotion`). -/
def sendRelativeMotion (fuel : Nat) (s : UhidServer) (dx dy : Int) :
    Option (Bool × UhidServer) :=
  if !s.m_running then some (false, s) else sendRelativeMotionLoop fuel s dx dy

/-- The ceiling of `n / 127` for a natural number `n`, in the words of the
specification `ceil(|d| / 127)`. -/
def ceilDiv127 (n : Nat) : Nat := (n + 126) / 127

/-- The number of reports of a relative move in the words of the
specification: `max(ceil(|dx| / 127), ceil(|dy| / 127))`. -/
def reportCountSpec (dx dy : Int) : Nat :=
  max (ceilDiv127 dx.natAbs) (ceilDiv127 dy.natAbs)

/-- Relative move (`UhidServer::mouseRelativeMove`). -/
def mouseRelativeMove (fuel : Nat) (s : UhidServer) (dx dy : Int) :
    Option (Bool × UhidServer) :=
  if !s.m_running then some (false, s) else sendRelativeMotion fuel s dx dy

/-- The number of wheel (or pan) steps `sendWheelMotion` derives from a
delta: the quotient by 120 truncated towards zero, and the sign of the delta
when that quotient is zero. -/
def wheelStepsOf (delta : Int) : Int :=
  let steps : Int := 0
  if delta ≠ 0 then
    let steps := delta.tdiv 120
    if steps = 0 then (if delta > 0 then 1 else -1) else steps
  else steps

/-- The step count in the words of the specification: `W(0) = 0`, and for
`d != 0` the quotient `d / 120` truncated towards zero, replaced by the sign
of `d` when that quotient is zero. -/
def wheelStepsSpec (d : Int) : Int :=
  if d = 0 then 0 else if d.tdiv 120 = 0 then Int.sign d else d.tdiv 120

/-- The `while` loop of `sendWheelMotion`, run for at most `fuel` iterations;
`none` when the fuel is used up before the loop ends. -/
def sendWheelMotionLoop : Nat → UhidServer → Int → Int → Option (Bool × UhidServer)
  | 0, _, _, _ => none
  | fuel + 1, s, wheelSteps, panSteps =>
    if wheelSteps ≠ 0 ∨ panSteps ≠ 0 then
      let stepWheel : Int := max (-127) (min 127 wheelSteps)
      let stepPan : Int := max (-127) (min 127 panSteps)
      let r := sendMouseReport s 0 0 (toS8 stepWheel) (toS8 stepPan)
      if !r.1 then some (false, r.2)
      else sendWheelMotionLoop fuel r.2 (wheelSteps - stepWheel) (panSteps - stepPan)
    else some (true, s)

/-- Chunked wheel motion (`UhidServer::sendWheelMotion`). -/
def sendWheelMotion (fuel : Nat) (s : UhidServer) (xDelta yDelta : Int) :
    Option (Bool × UhidServer) :=
  if !s.m_running then some (false, s)
  else
    let wheelSteps := wheelStepsOf yDelta
    let panSteps := wheelStepsOf xDelta
    sendWheelMotionLoop fuel s wheelSteps panSteps

/-- Wheel scroll (`UhidServer::mouseWheel`). -/
def mouseWheel (fuel : Nat) (s : UhidServer) (xDelta yDelta : Int) :
    Option (Bool × UhidServer) :=
  sendWheelMotion fuel s xDelta yDelta

/-- Two's complement wrap to `SInt32`, for the one subtraction of the engine
that can leave the range (`x - m_lastAbsX`). -/
def wrap32 (v : Int) : Int := (v + 2147483648) % 4294967296 - 2147483648

/-- Absolute move (`UhidServer::mouseMoveAbsolute`): the first sample after a
reset is stored, later ones are sent as the delta to the stored point. -/
def mouseMoveAbsolute (fuel : Nat) (s : UhidServer) (x y : Int) :
    Option (Bool × UhidServer) :=
  if !s.m_running then some (false, s)
  else if !s.m_hasLastAbsolute then
    some (true, { s with m_lastAbsX := x, m_lastAbsY := y, m_hasLastAbsolute := true })
  else
    let dx := wrap32 (x - s.m_lastAbsX)
    let dy := wrap32 (y - s.m_lastAbsY)
    let s := { s with m_lastAbsX := x, m_lastAbsY := y }
    sendRelativeMotion fuel s dx dy

/-! ## Keyboard operations -/

/-- Key press (`UhidServer::keyDown`). -/
def keyDown (K : KeyTypes) (s : UhidServer) (id mask : Nat) : Bool × UhidServer :=
  if !s.m_running then (false, s)
  else
    let key := map_key K id
    let s := { s with m_keyboardModifiers := modifier_from_mask K mask }
    if key.isModifier then
      sendKeyboardReport { s with m_keyboardModifiers := s.m_keyboardModifiers ||| key.modifierBit }
    else if key.usage = 0 then (true, s)
    else
      let s := { s with m_keyboardModifiers := s.m_keyboardModifiers ||| key.requiredModifiers }
      if (List.finRange 6).any (fun i => s.m_keyboardKeys i == key.usage) then
        sendKeyboardReport s
      else
        match (List.finRange 6).find? (fun i => s.m_keyboardKeys i == 0) with
        | some i =>
          sendKeyboardReport { s with m_keyboardKeys := Function.update s.m_keyboardKeys i key.usage }
        | none =>
          sendKeyboardReport
            { s with m_keyboardKeys := Function.update s.m_keyboardKeys (5 : Fin 6) key.usage }

/-- Key release (`UhidServer::keyUp`). -/
def keyUp (K : KeyTypes) (s : UhidServer) (id mask : Nat) : Bool × UhidServer :=
  if !s.m_running then (false, s)
  else
    let key := map_key K id
    let s := { s with m_keyboardModifiers := modifier_from_mask K mask }
    if key.isModifier then
      sendKeyboardReport
        { s with m_keyboardModifiers := s.m_keyboardModifiers &&& toU8 (-1 - (key.modifierBit : Int)) }
    else if key.usage = 0 then (true, s)
    else
      let keys := (List.finRange 6).foldl
        (fun ks i => if ks i = key.usage then Function.update ks i 0 else ks) s.m_keyboardKeys
      sendKeyboardReport { s with m_keyboardKeys := keys }

/-- The `for` loop of `keyRepeat`: `n` times a press followed by a release,
the results of both ignored. -/
def keyRepeatLoop (K : KeyTypes) (id mask : Nat) : Nat → UhidServer → UhidServer
  | 0, s => s
  | n + 1, s => keyRepeatLoop K id mask n (keyUp K (keyDown K s id mask).2 id mask).2

/-- Key repeat (`UhidServer::keyRepeat`); `count` is an `SInt32`. -/
def keyRepeat (K : KeyTypes) (s : UhidServer) (id mask : Nat) (count : Int) :
    Bool × UhidServer :=
  if !s.m_running ∨ count ≤ 0 then (false, s)
  else
    let key := map_key K id
    if key.isModifier ∨ key.usage = 0 then (true, s)
    else (true, keyRepeatLoop K id mask count.toNat s)

/-- The absolute moves to the points `ps`, in order, the results of the calls
dropped; `none` when one of them runs out of fuel. -/
def mouseMoveAbsoluteAll (fuel : Nat) : UhidServer → List (Int × Int) → Option UhidServer
  | s, [] => some s
  | s, p :: ps =>
    match mouseMoveAbsolute fuel s p.1 p.2 with
    | none => none
    | some r => mouseMoveAbsoluteAll fuel r.2 ps

/-- Each coordinate of `q` minus the one of `p` is an `SInt32` value. -/
def stepRepresentable (p q : Int × Int) : Prop :=
  (-2147483648 ≤ q.1 - p.1 ∧ q.1 - p.1 ≤ 2147483647) ∧
  (-2147483648 ≤ q.2 - p.2 ∧ q.2 - p.2 ≤ 2147483647)

instance (p q : Int × Int) : Decidable (stepRepresentable p q) :=
  inferInstanceAs (Decidable (_ ∧ _))

/-- The last point of the sequence `p0, p1, ..., pn`. -/
def lastPoint (p0 : Int × Int) : List (Int × Int) → Int × Int
  | [] => p0
  | p :: ps => lastPoint p ps

/-! ## Lifecycle of the session -/

/-- Budget of the start wait in milliseconds (`kStartTimeoutMs`). -/
def kStartTimeoutMs : Int := 3000

/-- What one round of the start wait meets: the outcome of `select` on the
descriptor and, when the descriptor is readable, of the `read` after it. -/
inductive SelectOutcome where
  /-- `select` returned a negative value with `errno == EINTR`. -/
  | eintr
  /-- `select` returned a negative value with another `errno`. -/
  | error
  /-- `select` returned 0: nothing readable before its timeout. -/
  | timeout
  /-- Readable, and `read` delivered an event of type `UHID_START`. -/
  | start
  /-- Readable, and `read` failed or delivered an event of another type. -/
  | other
  deriving DecidableEq, Repr

/-- The `while` loop of `wait_for_start`: `script` lists what the coming rounds
meet, `remainingMs` is the budget left. `none` when the script ends before the
loop does. -/
def wait_for_start_loop : List SelectOutcome → Int → Option Bool
  | [], remainingMs => if remainingMs > 0 then none else some false
  | o :: script, remainingMs =>
    if remainingMs > 0 then
      match o with
      | .eintr => wait_for_start_loop script remainingMs
      | .error => some false
      | .timeout => some false
      | .start => some true
      | .other => wait_for_start_loop script (remainingMs - 50)
    else some false

/-- The start wait (`wait_for_start`). -/
def wait_for_start (script : List SelectOutcome) : Option Bool :=
  wait_for_start_loop script kStartTimeoutMs

/-- What `start` meets outside the session: the return value of `open` on the
device node, and the rounds of the start wait. -/
structure StartEnv where
  openRet : Int
  script : List SelectOutcome

/-- The bytes of an ASCII string literal. -/
def asciiBytes (s : String) : List Nat := s.data.map Char.toNat

/-- The name `uhid_create` puts into the record. A `String` of the source is
a sequence of bytes (`std::string`), here a list of bytes. The name is the
default name when the device name is empty (`deviceName.empty()`), the device
name otherwise; `snprintf` with `"%s"` copies its bytes up to the first NUL
(`c_str()`), and no more than 127 of them into the 128 bytes of the field. -/
def uhid_create_name (deviceName : List Nat) : List Nat :=
  let name := if deviceName.isEmpty then asciiBytes "BarrierVirtual HID" else deviceName
  (name.takeWhile (fun b => b != 0)).take 127

/-- Creation of the device (`uhid_create`): one `CREATE2` record with the
device name. -/
def uhid_create (s : UhidServer) (deviceName : List Nat) : Int × UhidServer :=
  uhid_write s (.create2 (uhid_create_name deviceName))

/-- Destruction of the device (`uhid_destroy`): one `DESTROY` record, the
result of the write dropped. -/
def uhid_destroy (s : UhidServer) : UhidServer :=
  (uhid_write s .destroy).2

/-- A session as its constructor leaves it (`UhidServer::UhidServer`), on a
channel whose writes return `writeRet`. -/
def UhidServer.new (writeRet : Nat → Int) : UhidServer where
  m_running := false
  m_uhidFd := -1
  m_hasLastAbsolute := false
  m_lastAbsX := 0
  m_lastAbsY := 0
  m_mouseButtons := 0
  m_keyboardModifiers := 0
  m_keyboardKeys := fun _ => 0
  written := []
  writeRet := writeRet

/-- Start of the session (`UhidServer::start`); `none` when the start wait has
no outcome within its script. -/
def start (env : StartEnv) (s : UhidServer) (deviceName : List Nat) :
    Option (Bool × UhidServer) :=
  if s.m_running then some (true, s)
  else
    let fd := env.openRet
    if fd < 0 then some (false, s)
    else
      let r := uhid_create s deviceName
      if r.1 < 0 then some (false, r.2)
      else
        match wait_for_start env.script with
        | none => none
        | some false => some (false, uhid_destroy r.2)
        | some true =>
          let s := { r.2 with m_uhidFd := fd, m_running := true }
          some (true, clearInputState s)

/-- Stop of the session (`UhidServer::stop`). -/
def stop (s : UhidServer) : UhidServer :=
  if !s.m_running then s
  else
    let s := clearInputState s
    let s := uhid_destroy s
    { s with m_uhidFd := -1, m_running := false }

/-- The descriptor of a session that is not running is invalid: the
constructor and `stop` store -1, and `start` stores a descriptor only together
with the running flag. -/
def UhidServer.fdOk (s : UhidServer) : Prop :=
  s.m_running = false → s.m_uhidFd = -1

/-! ## The virtual backend (`UhidInputBackend` of `InputBackendFactory.cpp`) -/

/-- Entering the screen (`UhidInputBackend::enter`): reset, then an absolute
move whose result is dropped. -/
def UhidInputBackend.enter (fuel : Nat) (s : UhidServer) (xAbs yAbs : Int) :
    Option UhidServer :=
  let s := clearInputState s
  (mouseMoveAbsolute fuel s xAbs yAbs).map (fun r => r.2)

/-- Leaving the screen (`UhidInputBackend::leave`). -/
def UhidInputBackend.leave (s : UhidServer) : UhidServer :=
  clearInputState s

/-- Absolute move through the backend (`UhidInputBackend::mouseMove`). -/
def UhidInputBackend.mouseMove (fuel : Nat) (s : UhidServer) (xAbs yAbs : Int) :
    Option UhidServer :=
  (mouseMoveAbsolute fuel s xAbs yAbs).map (fun r => r.2)

/-! ## The backend selector (`createInputBackend`) -/

/-- The two backends the selector can return: the screen backend, which
forwards to the on-screen synthesizer, and the virtual backend with its
session. -/
inductive InputBackend where
  | screen
  | uhid (server : UhidServer)

/-- The backend is the virtual one. -/
def InputBackend.isUhid : InputBackend → Bool
  | .screen => false
  | .uhid _ => true

/-- The two options of the configuration the selector reads (`ClientArgs`). -/
structure ClientArgs where
  m_uhidEnabled : Bool
  m_uhidName : List Nat

/-- What the selector returns and what it did on the way: whether it
constructed a virtual backend, whose constructor starts a session, and the
records written to the device node. -/
structure Selected where
  backend : InputBackend
  constructed : Bool
  written : List UhidEvent

/-- The selector (`createInputBackend`). The virtual backend's constructor
makes a new session and starts it; a backend that did not start is destroyed
again, which stops its session. `none` when the start wait has no outcome. -/
def createInputBackend (env : StartEnv) (writeRet : Nat → Int) (args : ClientArgs) :
    Option Selected :=
  if !args.m_uhidEnabled then some ⟨.screen, false, []⟩
  else
    match start env (UhidServer.new writeRet) args.m_uhidName with
    | none => none
    | some r =>
      if r.1 then some ⟨.uhid r.2, true, r.2.written⟩
      else some ⟨.screen, true, (stop r.2).written⟩

/-- The states of a session that its public operations reach from the
constructor. -/
inductive SessionReachable (K : KeyTypes) : UhidServer → Prop
  | new (writeRet : Nat → Int) : SessionReachable K (UhidServer.new writeRet)
  | start (env : StartEnv) (s : UhidServer) (deviceName : List Nat) (r : Bool × UhidServer) :
      SessionReachable K s → start env s deviceName = some r → SessionReachable K r.2
  | stop (s : UhidServer) : SessionReachable K s → SessionReachable K (stop s)
  | clear (s : UhidServer) : SessionReachable K s → SessionReachable K (clearInputState s)
  | keyDown (s : UhidServer) (id mask : Nat) :
      SessionReachable K s → SessionReachable K (keyDown K s id mask).2
  | keyUp (s : UhidServer) (id mask : Nat) :
      SessionReachable K s → SessionReachable K (keyUp K s id mask).2
  | keyRepeat (s : UhidServer) (id mask : Nat) (count : Int) :
      SessionReachable K s → SessionReachable K (keyRepeat K s id mask count).2
  | mouseDown (s : UhidServer) (id : Nat) :
      SessionReachable K s → SessionReachable K (mouseDown K s id).2
  | mouseUp (s : UhidServer) (id : Nat) :
      SessionReachable K s → SessionReachable K (mouseUp K s id).2
  | mouseMoveAbsolute (fuel : Nat) (s : UhidServer) (x y : Int) (r : Bool × UhidServer) :
      SessionReachable K s → mouseMoveAbsolute fuel s x y = some r → SessionReachable K r.2
  | mouseRelativeMove (fuel : Nat) (s : UhidServer) (dx dy : Int) (r : Bool × UhidServer) :
      SessionReachable K s → mouseRelativeMove fuel s dx dy = some r → SessionReachable K r.2
  | mouseWheel (fuel : Nat) (s : UhidServer) (xDelta yDelta : Int) (r : Bool × UhidServer) :
      SessionReachable K s → mouseWheel fuel s xDelta yDelta = some r → SessionReachable K r.2

/-! ## The slot array after a press and after a release -/

/-- The slots after the two loops of `keyDown` for the usage `u`: unchanged
when `u` is in a slot, else `u` in the first empty slot, else `u` in the last
slot. -/
def keyDownSlots (keys : Fin 6 → Nat) (u : Nat) : Fin 6 → Nat :=
  if (List.finRange 6).any (fun i => keys i == u) then keys
  else
    match (List.finRange 6).find? (fun i => keys i == 0) with
    | some i => Function.update keys i u
    | none => Function.update keys (5 : Fin 6) u

/-- The slots after the loop of `keyUp` for the usage `u`: every slot holding
`u` is zero, the others are as before. -/
def keyUpSlots (keys : Fin 6 → Nat) (u : Nat) : Fin 6 → Nat :=
  fun i => if keys i = u then 0 else keys i

/-- The bits a key adds to the mask-derived modifier byte on a press: its own
bit for a modifier key, its required modifiers otherwise. -/
def KeyMapResult.pressBits (key : KeyMapResult) : Nat :=
  if key.isModifier then key.modifierBit else key.requiredModifiers

/-- A key the mapping knows: a modifier, or a key with a usage. -/
def KeyMapResult.mapped (key : KeyMapResult) : Prop :=
  key.isModifier = true ∨ key.usage ≠ 0

/-- A mapped key that is not a modifier. -/
def KeyMapResult.plainKey (key : KeyMapResult) : Prop :=
  key.isModifier = false ∧ key.usage ≠ 0

instance (key : KeyMapResult) : Decidable key.mapped :=
  inferInstanceAs (Decidable (key.isModifier = true ∨ key.usage ≠ 0))

instance (key : KeyMapResult) : Decidable key.plainKey :=
  inferInstanceAs (Decidable (key.isModifier = false ∧ key.usage ≠ 0))

/-! ## Reading reports back -/

/-- A six-byte mouse report: report id 1, then buttons, x, y, wheel, pan. -/
def UhidEvent.isMouseReport : UhidEvent → Prop
  | .input2 [0x01, _, _, _, _, _] => True
  | _ => False

/-- A nine-byte keyboard report: report id 2, modifiers, a zero byte, six
slots. -/
def UhidEvent.isKeyboardReport : UhidEvent → Prop
  | .input2 [0x02, _, 0x00, _, _, _, _, _, _] => True
  | _ => False

/-- Byte `i` of an input report, `0` for another record or past its end. -/
def UhidEvent.byte (ev : UhidEvent) (i : Nat) : Nat :=
  match ev with
  | .input2 d => d.getD i 0
  | _ => 0

/-- The six slot bytes of a keyboard report. -/
def UhidEvent.slotBytes : UhidEvent → List Nat
  | .input2 d => d.drop 3
  | _ => []

/-- The reports of press/release pairs in the order they are written: first
the report of the press, then the report of the release, pair after pair. -/
def unpair : List (UhidEvent × UhidEvent) → List UhidEvent
  | [] => []
  | p :: ps => p.1 :: p.2 :: unpair ps

/-- The x step of a mouse report, as the signed value of byte 2. -/
def UhidEvent.stepX (ev : UhidEvent) : Int := fromU8 (ev.byte 2)

/-- The y step of a mouse report, as the signed value of byte 3. -/
def UhidEvent.stepY (ev : UhidEvent) : Int := fromU8 (ev.byte 3)

/-- The wheel step of a mouse report, as the signed value of byte 4. -/
def UhidEvent.stepWheel (ev : UhidEvent) : Int := fromU8 (ev.byte 4)

/-- The pan step of a mouse report, as the signed value of byte 5. -/
def UhidEvent.stepPan (ev : UhidEvent) : Int := fromU8 (ev.byte 5)

/-! ## The report descriptor -/

/-- The report descriptor of the device (`kHidReportDesc`). -/
def kHidReportDesc : List Nat :=
  [0x05, 0x01, 0x09, 0x02, 0xA1, 0x01, 0x85, 0x01, 0x09, 0x01, 0xA1, 0x00, 0x05, 0x09,
   0x19, 0x01, 0x29, 0x05, 0x15, 0x00, 0x25, 0x01, 0x95, 0x05, 0x75, 0x01, 0x81, 0x02,
   0x95, 0x01, 0x75, 0x03, 0x81, 0x03, 0x05, 0x01, 0x09, 0x30, 0x09, 0x31, 0x09, 0x38,
   0x05, 0x0C, 0x0A, 0x38, 0x02, 0x15, 0x81, 0x25, 0x7F, 0x75, 0x08, 0x95, 0x04, 0x81,
   0x06, 0xC0, 0xC0,
   0x05, 0x01, 0x09, 0x06, 0xA1, 0x01, 0x85, 0x02, 0x05, 0x07, 0x19, 0xE0, 0x29, 0xE7,
   0x15, 0x00, 0x25, 0x01, 0x75, 0x01, 0x95, 0x08, 0x81, 0x02, 0x95, 0x01, 0x75, 0x08,
   0x81, 0x03, 0x95, 0x06, 0x75, 0x08, 0x15, 0x00, 0x25, 0x65, 0x05, 0x07, 0x19, 0x00,
   0x29, 0x65, 0x81, 0x00, 0xC0]

/-- An Input item of a report descriptor with the global items in force where
it stands. -/
structure InputItem where
  reportId : Nat
  reportSize : Nat
  reportCount : Nat
  logicalMaximum : Nat
  flags : Nat
  deriving DecidableEq, Repr

/-- Number of data bytes of a short item, from the two low bits of its first
byte: 0, 1, 2 or 4. -/
def itemDataLength (first : Nat) : Nat :=
  match first % 4 with
  | 0 => 0
  | 1 => 1
  | 2 => 2
  | _ => 4

/-- The value of the data bytes of an item, low byte first. -/
def littleEndian : List Nat → Nat
  | [] => 0
  | b :: bs => b + 256 * littleEndian bs

/-- The Input items of a descriptor in the short-item format of the HID
standard: the first byte of an item holds its tag and type in the six high
bits and the length of its data in the two low bits. Report Size (0x74),
Report Count (0x94), Report ID (0x84) and Logical Maximum (0x24) set the
global state in `cur`, whose `flags` are not used; an Input item (0x80) is
listed with that state and its own data as `flags`; every other item is
skipped. `fuel` bounds the number of items read. -/
def inputItems : Nat → List Nat → InputItem → List InputItem
  | 0, _, _ => []
  | _ + 1, [], _ => []
  | fuel + 1, first :: rest, cur =>
    let value := littleEndian (rest.take (itemDataLength first))
    let rest := rest.drop (itemDataLength first)
    match first / 4 * 4 with
    | 0x74 => inputItems fuel rest { cur with reportSize := value }
    | 0x94 => inputItems fuel rest { cur with reportCount := value }
    | 0x84 => inputItems fuel rest { cur with reportId := value }
    | 0x24 => inputItems fuel rest { cur with logicalMaximum := value }
    | 0x80 => { cur with flags := value } :: inputItems fuel rest cur
    | _ => inputItems fuel rest cur

/-- The Input items of the device's descriptor. -/
def descriptorInputs : List InputItem :=
  inputItems kHidReportDesc.length kHidReportDesc ⟨0, 0, 0, 0, 0⟩

/-- Bits the descriptor declares for the report with the identifier `id`: the
sum of report size times report count over its Input items. -/
def declaredBits (id : Nat) : Nat :=
  ((descriptorInputs.filter (fun it => it.reportId == id)).map
    (fun it => it.reportSize * it.reportCount)).sum

/-! ## Concrete states for the scenarios -/

/-- A running session right after `clearInputState`, nothing written yet and
every write successful. -/
def freshRunning : UhidServer where
  m_running := true
  m_uhidFd := 3
  m_hasLastAbsolute := false
  m_lastAbsX := 0
  m_lastAbsY := 0
  m_mouseButtons := 0
  m_keyboardModifiers := 0
  m_keyboardKeys := fun _ => 0
  written := []
  writeRet := fun _ => 0

/-- The non-zero entries of the slots are pairwise distinct. -/
def slotsDistinct (keys : Fin 6 → Nat) : Prop :=
  ∀ i j, i ≠ j → keys i ≠ 0 → keys i ≠ keys j

/-- The states the keyboard operations reach from a cleared session. -/
inductive KeyboardReachable (K : KeyTypes) : UhidServer → Prop
  | init (s : UhidServer) : KeyboardReachable K (clearInputState s)
  | down (s : UhidServer) (id mask : Nat) :
      KeyboardReachable K s → KeyboardReachable K (keyDown K s id mask).2
  | up (s : UhidServer) (id mask : Nat) :
      KeyboardReachable K s → KeyboardReachable K (keyUp K s id mask).2
  | rep (s : UhidServer) (id mask : Nat) (count : Int) :
      KeyboardReachable K s → KeyboardReachable K (keyRepeat K s id mask count).2
  | clear (s : UhidServer) :
      KeyboardReachable K s → KeyboardReachable K (clearInputState s)

/-- One call on a fixed key: a press or a release, each with its own mask. -/
inductive KeyCall where
  | down (mask : Nat)
  | up (mask : Nat)
  deriving DecidableEq, Repr

/-- The call `c` on the key `id`. -/
def runKeyCall (K : KeyTypes) (id : Nat) (s : UhidServer) : KeyCall → UhidServer
  | .down mask => (keyDown K s id mask).2
  | .up mask => (keyUp K s id mask).2

/-- The calls on the key `id`, in order. -/
def runKeyCalls (K : KeyTypes) (id : Nat) (s : UhidServer) (calls : List KeyCall) :
    UhidServer :=
  calls.foldl (runKeyCall K id) s

/-- Number of keys held after calls on one key from none held: 1 if the last
call was a press, 0 if it was a release or there was no call. -/
def pressedAfter (calls : List KeyCall) : Nat :=
  match calls.getLast? with
  | some (.down _) => 1
  | _ => 0

/-- The fresh session with the key 'a' held: the state after `keyDown('a', 0)`,
slot 0 holding the usage 0x04. -/
def heldA : UhidServer := (keyDown barrierKeyTypes freshRunning 0x61 0).2

/-- The fresh session with the left button held: the state after
`mouseDown(left)`, button byte 0x01. -/
def leftHeld : UhidServer := (mouseDown barrierKeyTypes freshRunning 1).2

/-- The fresh session with the six keys 'a' to 'f' held, in this order. -/
def sixHeld : UhidServer :=
  [0x61, 0x62, 0x63, 0x64, 0x65, 0x66].foldl
    (fun s id => (keyDown barrierKeyTypes s id 0).2) freshRunning

/-- The scenario of the specification on the fresh session:
`keyDown(shiftL, shift); keyDown('!', shift); keyUp('!', shift);
keyUp(shiftL, 0)`. -/
def shiftBangScenario : UhidServer :=
  let K := barrierKeyTypes
  let s := (keyDown K freshRunning K.kKeyShift_L K.KeyModifierShift).2
  let s := (keyDown K s 0x21 K.KeyModifierShift).2
  let s := (keyUp K s 0x21 K.KeyModifierShift).2
  (keyUp K s K.kKeyShift_L 0).2

/-- Between the states `s` and `t` of one operation, a write failed: one of
the calls of `write` numbered from the length of `s.written` up to the length
of `t.written` returned a negative value. -/
def failedWrite (s t : UhidServer) : Prop :=
  ∃ n, s.written.length ≤ n ∧ n < t.written.length ∧ s.writeRet n < 0

/-- A session that is not running, with some input state left in its fields. -/
def stoppedSession : UhidServer :=
  { heldA with m_running := false, m_uhidFd := -1, m_mouseButtons := 1,
               m_hasLastAbsolute := true, m_lastAbsX := 5, m_lastAbsY := 7 }

/-- A running session on which every write fails (`write` returns -1). -/
def failingSession : UhidServer := { freshRunning with writeRet := fun _ => -1 }

/-- A running session on which every write is short: `write` returns 9, the
length of a keyboard report, not the size of the record. -/
def shortWriteSession : UhidServer := { freshRunning with writeRet := fun _ => 9 }

/-- The key slots as a list, slot 0 first. -/
def UhidServer.slots (s : UhidServer) : List Nat := (List.finRange 6).map s.m_keyboardKeys

/-- Number of occupied (non-zero) key slots. -/
def UhidServer.occupied (s : UhidServer) : Nat := (s.slots.filter (fun u => u != 0)).length

/-! # Theorems -/

/-! ## Narrowing lemmas -/

theorem toS8_of_small (v : Int) (h1 : -128 ≤ v) (h2 : v ≤ 127) : toS8 v = v := by
  unfold toS8; omega

theorem fromU8_toU8 (v : Int) (h1 : -128 ≤ v) (h2 : v ≤ 127) : fromU8 (toU8 v) = v := by
  unfold fromU8 toU8
  split <;> omega

theorem toU8_lt (v : Int) : toU8 v < 256 := by
  unfold toU8; omega

/-! ## One report at a time -/

theorem uhid_write_ok (s : UhidServer) (ev : UhidEvent) (h : 0 ≤ s.writeRet s.written.length) :
    uhid_write s ev = (0, { s with written := s.written ++ [ev] }) := by
  simp [uhid_write, not_lt.mpr h]

theorem sendMouseReport_running (s : UhidServer) (dx dy wheel pan : Int)
    (hrun : s.m_running = true) :
    (sendMouseReport s dx dy wheel pan).2 = { s with written := s.written ++
      [.input2 [0x01, s.m_mouseButtons, toU8 dx, toU8 dy, toU8 wheel, toU8 pan]] } := by
  simp [sendMouseReport, hrun, uhid_write]

theorem sendMouseReport_ok (s : UhidServer) (dx dy wheel pan : Int)
    (hrun : s.m_running = true) (hw : s.writesSucceed) :
    sendMouseReport s dx dy wheel pan = (true, { s with written := s.written ++
      [.input2 [0x01, s.m_mouseButtons, toU8 dx, toU8 dy, toU8 wheel, toU8 pan]] }) := by
  simp [sendMouseReport, hrun, uhid_write_ok s _ (hw _)]

/-! ## The relative-motion loop -/

/-- The clamp of the loop stays within a signed byte and moves towards zero. -/
theorem clamp_bounds (d : Int) :
    -127 ≤ max (-127) (min 127 d) ∧ max (-127) (min 127 d) ≤ 127 ∧
    ((d - max (-127) (min 127 d)).natAbs ≤ d.natAbs) ∧
    (d ≠ 0 → (d - max (-127) (min 127 d)).natAbs < d.natAbs) := by
  omega

/-- More fuel does not change a result the loop has reached. -/
theorem sendRelativeMotionLoop_mono (f : Nat) : ∀ (s : UhidServer) (dx dy : Int)
    (r : Bool × UhidServer), sendRelativeMotionLoop f s dx dy = some r →
    ∀ k, sendRelativeMotionLoop (f + k) s dx dy = some r := by
  induction f with
  | zero => intro s dx dy r h; simp [sendRelativeMotionLoop] at h
  | succ f ih =>
    intro s dx dy r h k
    have hk : f + 1 + k = (f + k) + 1 := by omega
    rw [hk]
    simp only [sendRelativeMotionLoop] at h ⊢
    split at h
    · rename_i hc
      rw [if_pos hc]
      split at h
      · rename_i hb
        rw [if_pos hb]; exact h
      · rename_i hb
        rw [if_neg hb]; exact ih _ _ _ _ h k
    · rename_i hc
      rw [if_neg hc]; exact h

/-- Two runs of the loop that both finish agree. -/
theorem sendRelativeMotionLoop_det (f g : Nat) (s : UhidServer) (dx dy : Int)
    (r r' : Bool × UhidServer) (h : sendRelativeMotionLoop f s dx dy = some r)
    (h' : sendRelativeMotionLoop g s dx dy = some r') : r = r' := by
  have a := sendRelativeMotionLoop_mono f s dx dy r h g
  have b := sendRelativeMotionLoop_mono g s dx dy r' h' f
  rw [Nat.add_comm] at b
  rw [a] at b
  exact Option.some.inj b

/-- With enough fuel, a running session and successful writes, the loop ends
with `true`, having appended one mouse report per step; the steps add up to
the deltas and each is within a signed byte. -/
theorem sendRelativeMotionLoop_spec (f : Nat) : ∀ (s : UhidServer) (dx dy : Int),
    s.m_running = true → s.writesSucceed → dx.natAbs + dy.natAbs < f →
    ∃ evs : List UhidEvent,
      sendRelativeMotionLoop f s dx dy = some (true, { s with written := s.written ++ evs }) ∧
      (evs.map UhidEvent.stepX).sum = dx ∧ (evs.map UhidEvent.stepY).sum = dy ∧
      ∀ ev ∈ evs, ev.isMouseReport ∧ ev.byte 1 = s.m_mouseButtons ∧
        -127 ≤ ev.stepX ∧ ev.stepX ≤ 127 ∧ -127 ≤ ev.stepY ∧ ev.stepY ≤ 127 ∧
        ev.byte 2 = toU8 ev.stepX ∧ ev.byte 3 = toU8 ev.stepY ∧
        ev.byte 4 = 0 ∧ ev.byte 5 = 0 := by
  induction f with
  | zero => intro s dx dy _ _ h; omega
  | succ f ih =>
    intro s dx dy hrun hw hf
    by_cases hc : dx ≠ 0 ∨ dy ≠ 0
    · obtain ⟨x1, x2, x3, x4⟩ := clamp_bounds dx
      obtain ⟨y1, y2, y3, y4⟩ := clamp_bounds dy
      have hlt : (dx - max (-127) (min 127 dx)).natAbs + (dy - max (-127) (min 127 dy)).natAbs < f := by
        rcases hc with h | h
        · have := x4 h; omega
        · have := y4 h; omega
      have hs := sendMouseReport_ok s (toS8 (max (-127) (min 127 dx)))
        (toS8 (max (-127) (min 127 dy))) 0 0 hrun hw
      rw [toS8_of_small _ (by omega) (by omega), toS8_of_small _ (by omega) (by omega)] at hs
      obtain ⟨evs, h1, h2, h3, h4⟩ := ih
        { s with written := s.written ++
          [.input2 [0x01, s.m_mouseButtons, toU8 (max (-127) (min 127 dx)),
            toU8 (max (-127) (min 127 dy)), toU8 0, toU8 0]] }
        (dx - max (-127) (min 127 dx)) (dy - max (-127) (min 127 dy)) hrun hw hlt
      refine ⟨UhidEvent.input2 [0x01, s.m_mouseButtons, toU8 (max (-127) (min 127 dx)),
            toU8 (max (-127) (min 127 dy)), toU8 0, toU8 0] :: evs, ?_, ?_, ?_, ?_⟩
      · simp only [sendRelativeMotionLoop]
        rw [if_pos hc, toS8_of_small _ (by omega) (by omega), toS8_of_small _ (by omega) (by omega),
          hs]
        simp only [Bool.not_true, Bool.false_eq_true, if_false]
        rw [h1]
        simp [List.append_assoc]
      · simp only [List.map_cons, List.sum_cons, h2]
        have : (UhidEvent.input2 [0x01, s.m_mouseButtons, toU8 (max (-127) (min 127 dx)),
            toU8 (max (-127) (min 127 dy)), toU8 0, toU8 0]).stepX = max (-127) (min 127 dx) := by
          simp only [UhidEvent.stepX, UhidEvent.byte, List.getD_cons_succ, List.getD_cons_zero]
          exact fromU8_toU8 _ (by omega) (by omega)
        rw [this]; omega
      · simp only [List.map_cons, List.sum_cons, h3]
        have : (UhidEvent.input2 [0x01, s.m_mouseButtons, toU8 (max (-127) (min 127 dx)),
            toU8 (max (-127) (min 127 dy)), toU8 0, toU8 0]).stepY = max (-127) (min 127 dy) := by
          simp only [UhidEvent.stepY, UhidEvent.byte, List.getD_cons_succ, List.getD_cons_zero]
          exact fromU8_toU8 _ (by omega) (by omega)
        rw [this]; omega
      · intro ev hev
        rcases List.mem_cons.mp hev with h | h
        · subst h
          have hx : fromU8 (toU8 (max (-127) (min 127 dx))) = max (-127) (min 127 dx) :=
            fromU8_toU8 _ (by omega) (by omega)
          have hy : fromU8 (toU8 (max (-127) (min 127 dy))) = max (-127) (min 127 dy) :=
            fromU8_toU8 _ (by omega) (by omega)
          refine ⟨trivial, rfl, ?_, ?_, ?_, ?_, ?_, ?_, ?_, ?_⟩ <;>
            simp only [UhidEvent.stepX, UhidEvent.stepY, UhidEvent.byte, List.getD_cons_succ,
              List.getD_cons_zero, hx, hy]
          · exact x1
          · exact x2
          · exact y1
          · exact y2
          · simp [toU8]
          · simp [toU8]
        · exact h4 ev h
    · refine ⟨[], ?_, ?_, ?_, ?_⟩
      · simp only [sendRelativeMotionLoop]
        rw [if_neg hc]; simp
      · simp; omega
      · simp; omega
      · simp

/-- Claim C1. On a running session whose writes all succeed,
`mouseRelativeMove(dx, dy)` with signed 32-bit deltas returns (given enough
loop iterations, and with the same outcome whenever it returns) `true` after
appending a finite list of mouse reports whose x steps add up to `dx`, whose y
steps add up to `dy`, and whose steps all lie in [-127, 127], so that the
signed byte in the report is the step itself. -/
theorem C1_relative_move_steps_sum (s : UhidServer) (dx dy : Int)
    (_hdx : -2147483648 ≤ dx ∧ dx ≤ 2147483647) (_hdy : -2147483648 ≤ dy ∧ dy ≤ 2147483647)
    (hrun : s.m_running = true) (hw : s.writesSucceed) :
    ∃ evs : List UhidEvent,
      (∃ fuel, mouseRelativeMove fuel s dx dy
        = some (true, { s with written := s.written ++ evs })) ∧
      (∀ fuel r, mouseRelativeMove fuel s dx dy = some r →
        r = (true, { s with written := s.written ++ evs })) ∧
      (evs.map UhidEvent.stepX).sum = dx ∧ (evs.map UhidEvent.stepY).sum = dy ∧
      ∀ ev ∈ evs, ev.isMouseReport ∧
        -127 ≤ ev.stepX ∧ ev.stepX ≤ 127 ∧ -127 ≤ ev.stepY ∧ ev.stepY ≤ 127 ∧
        ev.byte 2 = toU8 ev.stepX ∧ ev.byte 3 = toU8 ev.stepY := by
  obtain ⟨evs, h1, h2, h3, h4⟩ :=
    sendRelativeMotionLoop_spec (dx.natAbs + dy.natAbs + 1) s dx dy hrun hw (by omega)
  have hm : ∀ fuel, mouseRelativeMove fuel s dx dy = sendRelativeMotionLoop fuel s dx dy := by
    intro fuel; simp [mouseRelativeMove, sendRelativeMotion, hrun]
  refine ⟨evs, ⟨_, (hm _).trans h1⟩, ?_, h2, h3, ?_⟩
  · intro fuel r hr
    rw [hm] at hr
    exact sendRelativeMotionLoop_det _ _ s dx dy _ _ hr h1
  · intro ev hev
    obtain ⟨a, _, b, c, d, e, f, g, _, _⟩ := h4 ev hev
    exact ⟨a, b, c, d, e, f, g⟩

/-- Witness of claim C1 at the deltas (200, -300) on a fresh running
session. -/
theorem C1_relative_move_steps_sum_witness :
    ((-2147483648 : Int) ≤ 200 ∧ (200 : Int) ≤ 2147483647) ∧
    ((-2147483648 : Int) ≤ -300 ∧ (-300 : Int) ≤ 2147483647) ∧
    freshRunning.m_running = true ∧ freshRunning.writesSucceed ∧
    ∃ evs : List UhidEvent,
      (∃ fuel, mouseRelativeMove fuel freshRunning 200 (-300)
        = some (true, { freshRunning with written := freshRunning.written ++ evs })) ∧
      (∀ fuel r, mouseRelativeMove fuel freshRunning 200 (-300) = some r →
        r = (true, { freshRunning with written := freshRunning.written ++ evs })) ∧
      (evs.map UhidEvent.stepX).sum = 200 ∧ (evs.map UhidEvent.stepY).sum = -300 ∧
      ∀ ev ∈ evs, ev.isMouseReport ∧
        -127 ≤ ev.stepX ∧ ev.stepX ≤ 127 ∧ -127 ≤ ev.stepY ∧ ev.stepY ≤ 127 ∧
        ev.byte 2 = toU8 ev.stepX ∧ ev.byte 3 = toU8 ev.stepY :=
  ⟨by decide, by decide, rfl, fun _ => le_refl _,
    C1_relative_move_steps_sum freshRunning 200 (-300) (by decide) (by decide) rfl
      (fun _ => le_refl _)⟩

/-- The scenario of the specification: `mouseRelativeMove(200, -300)` writes
three reports with the steps (127, -127), (73, -127), (0, -46). -/
theorem relative_move_200_m300 :
    (mouseRelativeMove 4 freshRunning 200 (-300)).map (fun r => (r.1, r.2.written))
      = some (true, [.input2 [1, 0, 127, 129, 0, 0], .input2 [1, 0, 73, 129, 0, 0],
          .input2 [1, 0, 0, 210, 0, 0]]) := by
  decide

/-! ## Keyboard reports -/

/-- The report bytes are the report id, the modifier byte, a zero, and the
six slots. -/
theorem keyboardReport_eq (s : UhidServer) :
    keyboardReport s = [0x02, s.m_keyboardModifiers, 0x00, s.m_keyboardKeys 0,
      s.m_keyboardKeys 1, s.m_keyboardKeys 2, s.m_keyboardKeys 3, s.m_keyboardKeys 4,
      s.m_keyboardKeys 5] := by
  rfl

theorem sendKeyboardReport_running (s : UhidServer) (hrun : s.m_running = true) :
    (sendKeyboardReport s).2
      = { s with written := s.written ++ [.input2 (keyboardReport s)] } := by
  simp [sendKeyboardReport, hrun, uhid_write]

theorem sendKeyboardReport_not_running (s : UhidServer) (hrun : s.m_running = false) :
    sendKeyboardReport s = (false, s) := by
  simp [sendKeyboardReport, hrun]

/-! ## What a press and a release leave behind -/

theorem keyUp_fold_eq (u : Nat) (l : List (Fin 6)) : ∀ (keys : Fin 6 → Nat) (j : Fin 6),
    (l.foldl (fun ks i => if ks i = u then Function.update ks i 0 else ks) keys) j
      = if j ∈ l ∧ keys j = u then 0 else keys j := by
  induction l with
  | nil => intro keys j; simp
  | cons i l ih =>
    intro keys j
    rw [List.foldl_cons, ih]
    by_cases hji : j = i
    · subst hji
      by_cases hu : keys j = u
      · simp [hu]
      · simp [hu]
    · by_cases hu : keys i = u
      · simp [hu, hji, Function.update_noteq hji]
      · simp [hu, hji]

theorem keyUp_loop_eq (keys : Fin 6 → Nat) (u : Nat) :
    (List.finRange 6).foldl (fun ks i => if ks i = u then Function.update ks i 0 else ks) keys
      = keyUpSlots keys u := by
  funext j
  rw [keyUp_fold_eq]
  simp [keyUpSlots, List.mem_finRange]

/-- The state after `keyDown` on a running session. -/
theorem keyDown_running (K : KeyTypes) (s : UhidServer) (id mask : Nat)
    (hrun : s.m_running = true) :
    keyDown K s id mask =
      if (map_key K id).isModifier = true then
        sendKeyboardReport { s with
          m_keyboardModifiers := modifier_from_mask K mask ||| (map_key K id).modifierBit }
      else if (map_key K id).usage = 0 then
        (true, { s with m_keyboardModifiers := modifier_from_mask K mask })
      else
        sendKeyboardReport { s with
          m_keyboardModifiers := modifier_from_mask K mask ||| (map_key K id).requiredModifiers,
          m_keyboardKeys := keyDownSlots s.m_keyboardKeys (map_key K id).usage } := by
  unfold keyDown keyDownSlots
  simp only [hrun, Bool.not_true, Bool.false_eq_true, if_false]
  split
  · rfl
  · split
    · rfl
    · split
      · rfl
      · split <;> rfl

/-- The state after `keyUp` on a running session. -/
theorem keyUp_running (K : KeyTypes) (s : UhidServer) (id mask : Nat)
    (hrun : s.m_running = true) :
    keyUp K s id mask =
      if (map_key K id).isModifier = true then
        sendKeyboardReport { s with
          m_keyboardModifiers :=
            modifier_from_mask K mask &&& toU8 (-1 - ((map_key K id).modifierBit : Int)) }
      else if (map_key K id).usage = 0 then
        (true, { s with m_keyboardModifiers := modifier_from_mask K mask })
      else
        sendKeyboardReport { s with
          m_keyboardModifiers := modifier_from_mask K mask,
          m_keyboardKeys := keyUpSlots s.m_keyboardKeys (map_key K id).usage } := by
  unfold keyUp
  simp only [hrun, Bool.not_true, Bool.false_eq_true, if_false, keyUp_loop_eq]

theorem keyDown_not_running (K : KeyTypes) (s : UhidServer) (id mask : Nat)
    (hrun : s.m_running = false) : keyDown K s id mask = (false, s) := by
  simp [keyDown, hrun]

theorem keyUp_not_running (K : KeyTypes) (s : UhidServer) (id mask : Nat)
    (hrun : s.m_running = false) : keyUp K s id mask = (false, s) := by
  simp [keyUp, hrun]

/-- The second loop of `keyDown` finds the lowest empty slot, if there is
one. -/
theorem find_first_empty (keys : Fin 6 → Nat) :
    match (List.finRange 6).find? (fun i => keys i == 0) with
    | some i => keys i = 0 ∧ ∀ j, j < i → keys j ≠ 0
    | none => ∀ j, keys j ≠ 0 := by
  have h6 : List.finRange 6 = [0, 1, 2, 3, 4, 5] := by rfl
  rw [h6]
  simp only [List.find?_cons, List.find?_nil]
  cases b0 : (keys 0 == 0) <;> cases b1 : (keys 1 == 0) <;> cases b2 : (keys 2 == 0) <;>
    cases b3 : (keys 3 == 0) <;> cases b4 : (keys 4 == 0) <;> cases b5 : (keys 5 == 0) <;>
    simp only [beq_iff_eq, beq_eq_false_iff_ne, ne_eq] at b0 b1 b2 b3 b4 b5 <;>
    (first
      | (refine ⟨by assumption, ?_⟩; intro j hj; fin_cases j <;> simp_all)
      | (intro j; fin_cases j <;> simp_all))

theorem keyDownSlots_present (keys : Fin 6 → Nat) (u : Nat) (h : ∃ i, keys i = u) :
    keyDownSlots keys u = keys := by
  obtain ⟨i, hi⟩ := h
  have : (List.finRange 6).any (fun i => keys i == u) = true :=
    List.any_eq_true.mpr ⟨i, List.mem_finRange i, by simp [hi]⟩
  simp [keyDownSlots, this]

theorem keyDownSlots_absent (keys : Fin 6 → Nat) (u : Nat) (h : ∀ i, keys i ≠ u) :
    (∃ i, keys i = 0 ∧ (∀ j, j < i → keys j ≠ 0) ∧
      keyDownSlots keys u = Function.update keys i u) ∨
    ((∀ j, keys j ≠ 0) ∧ keyDownSlots keys u = Function.update keys (5 : Fin 6) u) := by
  have hany : (List.finRange 6).any (fun i => keys i == u) = false := by
    rw [Bool.eq_false_iff]
    intro hc
    obtain ⟨i, _, hi⟩ := List.any_eq_true.mp hc
    exact h i (by simpa using hi)
  have hf := find_first_empty keys
  unfold keyDownSlots
  rw [hany]
  simp only [Bool.false_eq_true, if_false]
  split at hf
  · rename_i i hi
    exact Or.inl ⟨i, hf.1, hf.2, rfl⟩
  · exact Or.inr ⟨hf, rfl⟩

/-! ## The mask-derived modifier byte -/

theorem mods_chain (p1 p2 p3 p4 p5 : Prop) [Decidable p1] [Decidable p2] [Decidable p3]
    [Decidable p4] [Decidable p5] (m : Nat)
    (hm : m =
      (let mods := 0
       let mods := if p1 then mods ||| 0x01 else mods
       let mods := if p2 then mods ||| 0x02 else mods
       let mods := if p3 then mods ||| 0x04 else mods
       let mods := if p4 then mods ||| 0x08 else mods
       let mods := if p5 then mods ||| 0x40 else mods
       mods)) :
    (m.testBit 0 = true ↔ p1) ∧ (m.testBit 1 = true ↔ p2) ∧ (m.testBit 2 = true ↔ p3) ∧
    (m.testBit 3 = true ↔ p4) ∧ (m.testBit 6 = true ↔ p5) ∧ m &&& 0x4f = m := by
  subst hm
  by_cases h1 : p1 <;> by_cases h2 : p2 <;> by_cases h3 : p3 <;> by_cases h4 : p4 <;>
    by_cases h5 : p5 <;>
    simp only [h1, h2, h3, h4, h5, if_true, if_false, iff_true, iff_false] <;>
    decide

/-- The byte `modifier_from_mask` returns, bit by bit: bit 0 for control, bit 1
for shift, bit 2 for alt, bit 3 for meta or super, bit 6 for alt-graph, and no
bit outside `0x4f`. -/
theorem modifier_from_mask_bits (K : KeyTypes) (mask : Nat) :
    ((modifier_from_mask K mask).testBit 0 = true ↔ mask &&& K.KeyModifierControl ≠ 0) ∧
    ((modifier_from_mask K mask).testBit 1 = true ↔ mask &&& K.KeyModifierShift ≠ 0) ∧
    ((modifier_from_mask K mask).testBit 2 = true ↔ mask &&& K.KeyModifierAlt ≠ 0) ∧
    ((modifier_from_mask K mask).testBit 3 = true ↔
      (mask &&& K.KeyModifierMeta ≠ 0 ∨ mask &&& K.KeyModifierSuper ≠ 0)) ∧
    ((modifier_from_mask K mask).testBit 6 = true ↔ mask &&& K.KeyModifierAltGr ≠ 0) ∧
    (modifier_from_mask K mask) &&& 0x4f = modifier_from_mask K mask :=
  mods_chain _ _ _ _ _ _ rfl

theorem modifier_from_mask_lt (K : KeyTypes) (mask : Nat) : modifier_from_mask K mask < 128 := by
  have h := (modifier_from_mask_bits K mask).2.2.2.2.2
  rw [← h]
  exact lt_of_le_of_lt Nat.and_le_right (by decide)

theorem testBit_4f (i : Nat) (h : (0x4f : Nat).testBit i = true) :
    i = 0 ∨ i = 1 ∨ i = 2 ∨ i = 3 ∨ i = 6 := by
  have hge := Nat.testBit_implies_ge h
  have hi : i < 7 := by
    by_contra hc
    have : 2 ^ 7 ≤ 2 ^ i := Nat.pow_le_pow_right (by decide) (by omega)
    omega
  interval_cases i <;> first | omega | (exfalso; revert h; decide)

/-- What `keyDown` writes for a mapped key on a running session: one keyboard
report of the state it leaves. -/
theorem keyDown_mapped (K : KeyTypes) (s : UhidServer) (id mask : Nat)
    (hrun : s.m_running = true) (hmapped : (map_key K id).mapped) :
    ∃ keys, (keyDown K s id mask).2 = { s with
      m_keyboardModifiers := modifier_from_mask K mask ||| (map_key K id).pressBits,
      m_keyboardKeys := keys,
      written := s.written ++ [.input2 [0x02,
        modifier_from_mask K mask ||| (map_key K id).pressBits, 0x00,
        keys 0, keys 1, keys 2, keys 3, keys 4, keys 5]] } ∧
      keys = if (map_key K id).isModifier = true then s.m_keyboardKeys
        else keyDownSlots s.m_keyboardKeys (map_key K id).usage := by
  rw [keyDown_running K s id mask hrun]
  by_cases hm : (map_key K id).isModifier = true
  · refine ⟨s.m_keyboardKeys, ?_, by simp [hm]⟩
    rw [if_pos hm, sendKeyboardReport_running, keyboardReport_eq]
    · simp [KeyMapResult.pressBits, hm]
    · exact hrun
  · have hu : (map_key K id).usage ≠ 0 := by
      rcases hmapped with h | h
      · exact absurd h hm
      · exact h
    refine ⟨keyDownSlots s.m_keyboardKeys (map_key K id).usage, ?_, by simp [hm]⟩
    rw [if_neg hm, if_neg hu, sendKeyboardReport_running, keyboardReport_eq]
    · simp [KeyMapResult.pressBits, hm]
    · exact hrun

/-- Claim C2. On a running session `keyDown(k, M)` for a mapped key `k` writes
one keyboard report whose modifier byte is `D(M)` OR'd with the bits of `k`
(its required modifiers, or its own bit when `k` is a modifier key); `D(M)`
has bit 0 exactly for control, bit 1 for shift, bit 2 for alt, bit 3 for meta
or super, bit 6 for alt-graph, and no other bit; every bit of `D(M)` is in the
written byte, and the modifier byte stored before the call plays no part. -/
theorem C2_keyDown_modifier_byte (K : KeyTypes) (s : UhidServer) (id mask : Nat)
    (hrun : s.m_running = true) (hmapped : (map_key K id).mapped) :
    (∃ ev, (keyDown K s id mask).2.written = s.written ++ [ev] ∧ ev.isKeyboardReport ∧
      ev.byte 1 = modifier_from_mask K mask ||| (map_key K id).pressBits ∧
      (keyDown K s id mask).2.m_keyboardModifiers = ev.byte 1 ∧
      ∀ i, (modifier_from_mask K mask).testBit i = true → (ev.byte 1).testBit i = true) ∧
    (∀ m, (keyDown K { s with m_keyboardModifiers := m } id mask).2.written
      = (keyDown K s id mask).2.written) ∧
    ((modifier_from_mask K mask).testBit 0 = true ↔ mask &&& K.KeyModifierControl ≠ 0) ∧
    ((modifier_from_mask K mask).testBit 1 = true ↔ mask &&& K.KeyModifierShift ≠ 0) ∧
    ((modifier_from_mask K mask).testBit 2 = true ↔ mask &&& K.KeyModifierAlt ≠ 0) ∧
    ((modifier_from_mask K mask).testBit 3 = true ↔
      (mask &&& K.KeyModifierMeta ≠ 0 ∨ mask &&& K.KeyModifierSuper ≠ 0)) ∧
    ((modifier_from_mask K mask).testBit 6 = true ↔ mask &&& K.KeyModifierAltGr ≠ 0) ∧
    (∀ i, (modifier_from_mask K mask).testBit i = true →
      i = 0 ∨ i = 1 ∨ i = 2 ∨ i = 3 ∨ i = 6) := by
  obtain ⟨b0, b1, b2, b3, b6, bm⟩ := modifier_from_mask_bits K mask
  obtain ⟨keys, hk, _⟩ := keyDown_mapped K s id mask hrun hmapped
  refine ⟨⟨.input2 [0x02, modifier_from_mask K mask ||| (map_key K id).pressBits, 0x00,
      keys 0, keys 1, keys 2, keys 3, keys 4, keys 5], by rw [hk], trivial, rfl, by rw [hk]; rfl,
      ?_⟩, ?_, b0, b1, b2, b3, b6, ?_⟩
  · intro i hi
    simp [UhidEvent.byte, Nat.testBit_or, hi]
  · intro m
    obtain ⟨keys', hk', hkeys'⟩ := keyDown_mapped K { s with m_keyboardModifiers := m } id mask
      hrun hmapped
    rename_i hkeys
    rw [hk, hk']
    simp only at hkeys' ⊢
    rw [hkeys, hkeys']
  · intro i hi
    rw [← bm, Nat.testBit_and] at hi
    exact testBit_4f i (by simpa using (Bool.and_eq_true _ _ ▸ hi).2)

/-- Witness of claim C2: the key 'A' pressed with the control mask on a fresh
running session. -/
theorem C2_keyDown_modifier_byte_witness :
    freshRunning.m_running = true ∧ (map_key barrierKeyTypes 0x41).mapped ∧
    (∃ ev, (keyDown barrierKeyTypes freshRunning 0x41 0x0002).2.written
        = freshRunning.written ++ [ev] ∧ ev.isKeyboardReport ∧
      ev.byte 1 = modifier_from_mask barrierKeyTypes 0x0002 |||
        (map_key barrierKeyTypes 0x41).pressBits ∧
      (keyDown barrierKeyTypes freshRunning 0x41 0x0002).2.m_keyboardModifiers = ev.byte 1 ∧
      ∀ i, (modifier_from_mask barrierKeyTypes 0x0002).testBit i = true →
        (ev.byte 1).testBit i = true) ∧
    (∀ m, (keyDown barrierKeyTypes { freshRunning with m_keyboardModifiers := m } 0x41
        0x0002).2.written
      = (keyDown barrierKeyTypes freshRunning 0x41 0x0002).2.written) ∧
    ((modifier_from_mask barrierKeyTypes 0x0002).testBit 0 = true ↔
      0x0002 &&& barrierKeyTypes.KeyModifierControl ≠ 0) ∧
    ((modifier_from_mask barrierKeyTypes 0x0002).testBit 1 = true ↔
      0x0002 &&& barrierKeyTypes.KeyModifierShift ≠ 0) ∧
    ((modifier_from_mask barrierKeyTypes 0x0002).testBit 2 = true ↔
      0x0002 &&& barrierKeyTypes.KeyModifierAlt ≠ 0) ∧
    ((modifier_from_mask barrierKeyTypes 0x0002).testBit 3 = true ↔
      (0x0002 &&& barrierKeyTypes.KeyModifierMeta ≠ 0 ∨
        0x0002 &&& barrierKeyTypes.KeyModifierSuper ≠ 0)) ∧
    ((modifier_from_mask barrierKeyTypes 0x0002).testBit 6 = true ↔
      0x0002 &&& barrierKeyTypes.KeyModifierAltGr ≠ 0) ∧
    (∀ i, (modifier_from_mask barrierKeyTypes 0x0002).testBit i = true →
      i = 0 ∨ i = 1 ∨ i = 2 ∨ i = 3 ∨ i = 6) :=
  ⟨rfl, Or.inr (by decide),
    C2_keyDown_modifier_byte barrierKeyTypes freshRunning 0x41 0x0002 rfl (Or.inr (by decide))⟩

/-- The scenario behind the witness of C2: 'A' with the control mask writes
the modifier byte 0x03 (control from the mask, shift from the key). -/
theorem keyDown_A_control :
    (keyDown barrierKeyTypes freshRunning 0x41 0x0002).2.written
      = [.input2 [2, 3, 0, 4, 0, 0, 0, 0, 0]] := by
  decide

/-- What `keyUp` writes for a mapped key on a running session: one keyboard
report of the state it leaves. -/
theorem keyUp_mapped (K : KeyTypes) (s : UhidServer) (id mask : Nat)
    (hrun : s.m_running = true) (hmapped : (map_key K id).mapped) :
    ∃ mods keys, (keyUp K s id mask).2 = { s with
      m_keyboardModifiers := mods,
      m_keyboardKeys := keys,
      written := s.written ++ [.input2 [0x02, mods, 0x00,
        keys 0, keys 1, keys 2, keys 3, keys 4, keys 5]] } ∧
      mods = (if (map_key K id).isModifier = true then
          modifier_from_mask K mask &&& toU8 (-1 - ((map_key K id).modifierBit : Int))
        else modifier_from_mask K mask) ∧
      keys = if (map_key K id).isModifier = true then s.m_keyboardKeys
        else keyUpSlots s.m_keyboardKeys (map_key K id).usage := by
  rw [keyUp_running K s id mask hrun]
  by_cases hm : (map_key K id).isModifier = true
  · refine ⟨modifier_from_mask K mask &&& toU8 (-1 - ((map_key K id).modifierBit : Int)),
      s.m_keyboardKeys, ?_, by simp [hm], by simp [hm]⟩
    rw [if_pos hm, sendKeyboardReport_running, keyboardReport_eq]
    exact hrun
  · have hu : (map_key K id).usage ≠ 0 := by
      rcases hmapped with h | h
      · exact absurd h hm
      · exact h
    refine ⟨modifier_from_mask K mask, keyUpSlots s.m_keyboardKeys (map_key K id).usage, ?_,
      by simp [hm], by simp [hm]⟩
    rw [if_neg hm, if_neg hu, sendKeyboardReport_running, keyboardReport_eq]
    exact hrun

/-- A key the mapping does not know: `keyDown` and `keyUp` only store the
mask-derived modifier byte. -/
theorem key_unmapped (K : KeyTypes) (s : UhidServer) (id mask : Nat)
    (hrun : s.m_running = true) (hun : ¬ (map_key K id).mapped) :
    keyDown K s id mask = (true, { s with m_keyboardModifiers := modifier_from_mask K mask }) ∧
    keyUp K s id mask = (true, { s with m_keyboardModifiers := modifier_from_mask K mask }) := by
  have hm : ¬ (map_key K id).isModifier = true := fun h => hun (Or.inl h)
  have hu : (map_key K id).usage = 0 := by
    by_contra h; exact hun (Or.inr h)
  rw [keyDown_running K s id mask hrun, keyUp_running K s id mask hrun]
  simp [hm, hu]

theorem map_key_a (K : KeyTypes) : map_key K 0x61 = ⟨0x04, 0, 0, false⟩ := by rfl

theorem map_key_A (K : KeyTypes) : map_key K 0x41 = ⟨0x04, 0x02, 0, false⟩ := by rfl

theorem modifier_from_mask_zero (K : KeyTypes) : modifier_from_mask K 0 = 0 := by
  simp [modifier_from_mask]

theorem keyDownSlots_empty_4 :
    keyDownSlots (fun _ => 0) 4 = Function.update (fun _ => 0) (0 : Fin 6) 4 := by
  decide

/-- Every keyboard operation writes nothing or one report of the state it
leaves. -/
theorem keyDown_keyUp_written (K : KeyTypes) (s : UhidServer) (id mask : Nat)
    (hrun : s.m_running = true) :
    ((keyDown K s id mask).2.written = s.written ∨
      (keyDown K s id mask).2.written = s.written ++
        [.input2 [0x02, (keyDown K s id mask).2.m_keyboardModifiers, 0x00,
          (keyDown K s id mask).2.m_keyboardKeys 0, (keyDown K s id mask).2.m_keyboardKeys 1,
          (keyDown K s id mask).2.m_keyboardKeys 2, (keyDown K s id mask).2.m_keyboardKeys 3,
          (keyDown K s id mask).2.m_keyboardKeys 4, (keyDown K s id mask).2.m_keyboardKeys 5]]) ∧
    ((keyUp K s id mask).2.written = s.written ∨
      (keyUp K s id mask).2.written = s.written ++
        [.input2 [0x02, (keyUp K s id mask).2.m_keyboardModifiers, 0x00,
          (keyUp K s id mask).2.m_keyboardKeys 0, (keyUp K s id mask).2.m_keyboardKeys 1,
          (keyUp K s id mask).2.m_keyboardKeys 2, (keyUp K s id mask).2.m_keyboardKeys 3,
          (keyUp K s id mask).2.m_keyboardKeys 4, (keyUp K s id mask).2.m_keyboardKeys 5]]) := by
  by_cases hmapped : (map_key K id).mapped
  · obtain ⟨keys, hk, _⟩ := keyDown_mapped K s id mask hrun hmapped
    obtain ⟨mods', keys', hk', _⟩ := keyUp_mapped K s id mask hrun hmapped
    exact ⟨Or.inr (by rw [hk]), Or.inr (by rw [hk'])⟩
  · obtain ⟨h1, h2⟩ := key_unmapped K s id mask hrun hmapped
    exact ⟨Or.inl (by rw [h1]), Or.inl (by rw [h2])⟩

/-- Claim C3. On a running session a keyboard report is the nine bytes
`02, modifier byte, 00, slot0 .. slot5` of the state at the moment it is
written: so for `sendKeyboardReport` itself, and so for whatever `keyDown` and
`keyUp` write. From empty slots `keyDown('a', 0)` writes exactly
`02 00 00 04 00 00 00 00 00` and `keyDown('A', 0)` exactly
`02 02 00 04 00 00 00 00 00`. -/
theorem C3_keyboard_report_layout (K : KeyTypes) (s : UhidServer)
    (hrun : s.m_running = true) :
    (sendKeyboardReport s).2 = { s with written := s.written ++
      [.input2 [0x02, s.m_keyboardModifiers, 0x00, s.m_keyboardKeys 0, s.m_keyboardKeys 1,
        s.m_keyboardKeys 2, s.m_keyboardKeys 3, s.m_keyboardKeys 4, s.m_keyboardKeys 5]] } ∧
    (∀ id mask,
      ((keyDown K s id mask).2.written = s.written ∨
        (keyDown K s id mask).2.written = s.written ++
          [.input2 [0x02, (keyDown K s id mask).2.m_keyboardModifiers, 0x00,
            (keyDown K s id mask).2.m_keyboardKeys 0, (keyDown K s id mask).2.m_keyboardKeys 1,
            (keyDown K s id mask).2.m_keyboardKeys 2, (keyDown K s id mask).2.m_keyboardKeys 3,
            (keyDown K s id mask).2.m_keyboardKeys 4,
            (keyDown K s id mask).2.m_keyboardKeys 5]]) ∧
      ((keyUp K s id mask).2.written = s.written ∨
        (keyUp K s id mask).2.written = s.written ++
          [.input2 [0x02, (keyUp K s id mask).2.m_keyboardModifiers, 0x00,
            (keyUp K s id mask).2.m_keyboardKeys 0, (keyUp K s id mask).2.m_keyboardKeys 1,
            (keyUp K s id mask).2.m_keyboardKeys 2, (keyUp K s id mask).2.m_keyboardKeys 3,
            (keyUp K s id mask).2.m_keyboardKeys 4, (keyUp K s id mask).2.m_keyboardKeys 5]])) ∧
    ((∀ i, s.m_keyboardKeys i = 0) →
      (keyDown K s 0x61 0).2.written = s.written ++ [.input2 [0x02, 0, 0, 0x04, 0, 0, 0, 0, 0]] ∧
      (keyDown K s 0x41 0).2.written
        = s.written ++ [.input2 [0x02, 0x02, 0, 0x04, 0, 0, 0, 0, 0]]) := by
  refine ⟨?_, fun id mask => keyDown_keyUp_written K s id mask hrun, ?_⟩
  · rw [sendKeyboardReport_running s hrun, keyboardReport_eq]
  · intro hz
    have hk : s.m_keyboardKeys = fun _ => 0 := funext hz
    obtain ⟨keys, h1, h1k⟩ := keyDown_mapped K s 0x61 0 hrun (Or.inr (by rw [map_key_a]; decide))
    obtain ⟨keys', h2, h2k⟩ := keyDown_mapped K s 0x41 0 hrun (Or.inr (by rw [map_key_A]; decide))
    rw [map_key_a, hk] at h1k
    rw [map_key_A, hk] at h2k
    simp only [Bool.false_eq_true, if_false, keyDownSlots_empty_4] at h1k h2k
    rw [h1, h2, h1k, h2k, map_key_a, map_key_A, modifier_from_mask_zero]
    exact ⟨rfl, rfl⟩

/-- Witness of claim C3 on a fresh running session. -/
theorem C3_keyboard_report_layout_witness :
    freshRunning.m_running = true ∧
    (sendKeyboardReport freshRunning).2.written = [.input2 [0x02, 0, 0, 0, 0, 0, 0, 0, 0]] ∧
    (keyDown barrierKeyTypes freshRunning 0x61 0).2.written
      = [.input2 [0x02, 0, 0, 0x04, 0, 0, 0, 0, 0]] ∧
    (keyDown barrierKeyTypes freshRunning 0x41 0).2.written
      = [.input2 [0x02, 0x02, 0, 0x04, 0, 0, 0, 0, 0]] :=
  ⟨rfl,
    by rw [(C3_keyboard_report_layout barrierKeyTypes freshRunning rfl).1]; rfl,
    ((C3_keyboard_report_layout barrierKeyTypes freshRunning rfl).2.2 (fun _ => rfl)).1,
    ((C3_keyboard_report_layout barrierKeyTypes freshRunning rfl).2.2 (fun _ => rfl)).2⟩

/-! ## Press followed by release -/

/-- The state after `keyDown` of a mapped non-modifier key. -/
theorem keyDown_plain (K : KeyTypes) (s : UhidServer) (id mask : Nat)
    (hrun : s.m_running = true) (hp : (map_key K id).plainKey) :
    (keyDown K s id mask).2 = { s with
      m_keyboardModifiers := modifier_from_mask K mask ||| (map_key K id).requiredModifiers,
      m_keyboardKeys := keyDownSlots s.m_keyboardKeys (map_key K id).usage,
      written := s.written ++ [.input2 [0x02,
        modifier_from_mask K mask ||| (map_key K id).requiredModifiers, 0x00,
        keyDownSlots s.m_keyboardKeys (map_key K id).usage 0,
        keyDownSlots s.m_keyboardKeys (map_key K id).usage 1,
        keyDownSlots s.m_keyboardKeys (map_key K id).usage 2,
        keyDownSlots s.m_keyboardKeys (map_key K id).usage 3,
        keyDownSlots s.m_keyboardKeys (map_key K id).usage 4,
        keyDownSlots s.m_keyboardKeys (map_key K id).usage 5]] } := by
  obtain ⟨hm, hu⟩ := hp
  rw [keyDown_running K s id mask hrun, hm]
  simp only [Bool.false_eq_true, if_false, if_neg hu]
  rw [sendKeyboardReport_running, keyboardReport_eq]
  exact hrun

/-- The state after `keyUp` of a mapped non-modifier key. -/
theorem keyUp_plain (K : KeyTypes) (s : UhidServer) (id mask : Nat)
    (hrun : s.m_running = true) (hp : (map_key K id).plainKey) :
    (keyUp K s id mask).2 = { s with
      m_keyboardModifiers := modifier_from_mask K mask,
      m_keyboardKeys := keyUpSlots s.m_keyboardKeys (map_key K id).usage,
      written := s.written ++ [.input2 [0x02, modifier_from_mask K mask, 0x00,
        keyUpSlots s.m_keyboardKeys (map_key K id).usage 0,
        keyUpSlots s.m_keyboardKeys (map_key K id).usage 1,
        keyUpSlots s.m_keyboardKeys (map_key K id).usage 2,
        keyUpSlots s.m_keyboardKeys (map_key K id).usage 3,
        keyUpSlots s.m_keyboardKeys (map_key K id).usage 4,
        keyUpSlots s.m_keyboardKeys (map_key K id).usage 5]] } := by
  obtain ⟨hm, hu⟩ := hp
  rw [keyUp_running K s id mask hrun, hm]
  simp only [Bool.false_eq_true, if_false, if_neg hu]
  rw [sendKeyboardReport_running, keyboardReport_eq]
  exact hrun

/-- The keyboard operations leave the running flag alone. -/
theorem keyDown_keyUp_m_running (K : KeyTypes) (s : UhidServer) (id mask : Nat) :
    (keyDown K s id mask).2.m_running = s.m_running ∧
    (keyUp K s id mask).2.m_running = s.m_running := by
  cases hrun : s.m_running
  · rw [keyDown_not_running K s id mask hrun, keyUp_not_running K s id mask hrun]
    exact ⟨hrun, hrun⟩
  · by_cases hmapped : (map_key K id).mapped
    · obtain ⟨keys, hk, _⟩ := keyDown_mapped K s id mask hrun hmapped
      obtain ⟨mods', keys', hk', _⟩ := keyUp_mapped K s id mask hrun hmapped
      rw [hk, hk']; exact ⟨hrun, hrun⟩
    · obtain ⟨h1, h2⟩ := key_unmapped K s id mask hrun hmapped
      rw [h1, h2]; exact ⟨hrun, hrun⟩

/-- A release after a press into a free slot gives the slots back. -/
theorem keyUpSlots_keyDownSlots (keys : Fin 6 → Nat) (u : Nat) (habs : ∀ i, keys i ≠ u)
    (hfree : ∃ i, keys i = 0) : keyUpSlots (keyDownSlots keys u) u = keys := by
  rcases keyDownSlots_absent keys u habs with ⟨i, hi, _, hd⟩ | ⟨hfull, _⟩
  · rw [hd]
    funext j
    by_cases hji : j = i
    · subst hji; simp [keyUpSlots, hi]
    · simp [keyUpSlots, Function.update_noteq hji, habs j]
  · obtain ⟨i, hi⟩ := hfree
    exact absurd hi (hfull i)

/-- The slots after a press and a release of one key on a running session. -/
theorem keyDown_keyUp_slots (K : KeyTypes) (s : UhidServer) (id mask mask2 : Nat)
    (hrun : s.m_running = true) :
    (keyUp K (keyDown K s id mask).2 id mask2).2.m_keyboardKeys =
      if (map_key K id).plainKey then
        keyUpSlots (keyDownSlots s.m_keyboardKeys (map_key K id).usage) (map_key K id).usage
      else s.m_keyboardKeys := by
  have hrun1 : (keyDown K s id mask).2.m_running = true :=
    (keyDown_keyUp_m_running K s id mask).1.trans hrun
  by_cases hp : (map_key K id).plainKey
  · rw [if_pos hp, keyUp_plain K _ id mask2 hrun1 hp, keyDown_plain K s id mask hrun hp]
  · rw [if_neg hp]
    by_cases hmapped : (map_key K id).mapped
    · have hm : (map_key K id).isModifier = true := by
        rcases hmapped with h | h
        · exact h
        · cases hb : (map_key K id).isModifier
          · exact absurd ⟨hb, h⟩ hp
          · rfl
      obtain ⟨mods', keys', hk', _, hkeys'⟩ := keyUp_mapped K _ id mask2 hrun1 hmapped
      obtain ⟨keys, hk, hkeys⟩ := keyDown_mapped K s id mask hrun hmapped
      rw [hk', hkeys', if_pos hm, hk, hkeys, if_pos hm]
    · rw [(key_unmapped K _ id mask2 hrun1 hmapped).2, (key_unmapped K s id mask hrun hmapped).1]

/-- Claim C4, as stated, fails: with 'a' already held (slot 0 = 0x04), a press
and release of 'a' empties slot 0. -/
theorem C4_counterexample :
    ¬ ∀ (K : KeyTypes) (s : UhidServer) (id mask : Nat), s.m_running = true →
      (keyUp K (keyDown K s id mask).2 id mask).2.m_keyboardKeys = s.m_keyboardKeys := by
  intro h
  have h0 := congrFun (h barrierKeyTypes heldA 0x61 0 rfl) 0
  revert h0
  decide

/-- Claim C4, amended. On a running session, `keyDown(k, M)` followed by
`keyUp(k, M)` leaves the six slots as they were whenever `k` is a modifier or
unmapped key, or the usage of `k` is in no slot and some slot is empty. -/
theorem C4_keyDown_keyUp_restores_slots (K : KeyTypes) (s : UhidServer) (id mask : Nat)
    (hrun : s.m_running = true)
    (h : ¬ (map_key K id).plainKey ∨
      ((∀ i, s.m_keyboardKeys i ≠ (map_key K id).usage) ∧ ∃ i, s.m_keyboardKeys i = 0)) :
    (keyUp K (keyDown K s id mask).2 id mask).2.m_keyboardKeys = s.m_keyboardKeys := by
  rw [keyDown_keyUp_slots K s id mask mask hrun]
  by_cases hp : (map_key K id).plainKey
  · rw [if_pos hp]
    rcases h with h | ⟨habs, hfree⟩
    · exact absurd hp h
    · exact keyUpSlots_keyDownSlots _ _ habs hfree
  · rw [if_neg hp]

/-- Witness of the amended claim C4: 'b' pressed and released while 'a' is
held. -/
theorem C4_keyDown_keyUp_restores_slots_witness :
    heldA.m_running = true ∧
    (¬ (map_key barrierKeyTypes 0x62).plainKey ∨
      ((∀ i, heldA.m_keyboardKeys i ≠ (map_key barrierKeyTypes 0x62).usage) ∧
        ∃ i, heldA.m_keyboardKeys i = 0)) ∧
    (keyUp barrierKeyTypes (keyDown barrierKeyTypes heldA 0x62 0).2 0x62 0).2.m_keyboardKeys
      = heldA.m_keyboardKeys :=
  ⟨rfl, Or.inr (by decide),
    C4_keyDown_keyUp_restores_slots barrierKeyTypes heldA 0x62 0 rfl (Or.inr (by decide))⟩

/-! ## Mouse buttons -/

theorem testBit_byte_high (x i : Nat) (hx : x < 256) (hi : 8 ≤ i) : x.testBit i = false := by
  apply Nat.testBit_lt_two_pow
  have : 2 ^ 8 ≤ 2 ^ i := Nat.pow_le_pow_right (by decide) hi
  omega

/-- The byte `static_cast<uint8_t>(~bit)` for a byte `bit`. -/
theorem toU8_not (bit : Nat) (hb : bit < 256) :
    toU8 (-1 - (bit : Int)) = 2 ^ 8 - (bit + 1) := by
  unfold toU8; omega

/-- Setting a bit that was clear and clearing it again gives the byte back. -/
theorem clear_after_set (x bit : Nat) (hx : x < 256) (hb : bit < 256) (h : x &&& bit = 0) :
    (x ||| bit) &&& toU8 (-1 - (bit : Int)) = x := by
  rw [toU8_not bit hb]
  apply Nat.eq_of_testBit_eq
  intro i
  rw [Nat.testBit_and, Nat.testBit_or, Nat.testBit_two_pow_sub_succ (by omega)]
  have h1 : (x &&& bit).testBit i = false := by rw [h]; simp
  rw [Nat.testBit_and] at h1
  by_cases hi : i < 8
  · cases hxb : x.testBit i <;> cases hbb : bit.testBit i <;> simp_all
  · simp [testBit_byte_high x i hx (by omega), hi]

theorem buttonBit_lt (K : KeyTypes) (id : Nat) : buttonBit K id < 256 := by
  unfold buttonBit
  split_ifs <;> decide

/-- The state after `mouseDown` on a running session. -/
theorem mouseDown_running (K : KeyTypes) (s : UhidServer) (id : Nat)
    (hrun : s.m_running = true) :
    (mouseDown K s id).2 =
      if buttonBit K id = 0 then s
      else { s with
        m_mouseButtons := s.m_mouseButtons ||| buttonBit K id,
        written := s.written ++
          [.input2 [0x01, s.m_mouseButtons ||| buttonBit K id, 0, 0, 0, 0]] } := by
  unfold mouseDown updateMouseButtons
  simp only [hrun, Bool.not_true, Bool.false_eq_true, if_false, if_true]
  split
  · rfl
  · rw [sendMouseReport_running]
    · rfl
    · rfl

/-- The state after `mouseUp` on a running session. -/
theorem mouseUp_running (K : KeyTypes) (s : UhidServer) (id : Nat)
    (hrun : s.m_running = true) :
    (mouseUp K s id).2 =
      if buttonBit K id = 0 then s
      else { s with
        m_mouseButtons := s.m_mouseButtons &&& toU8 (-1 - (buttonBit K id : Int)),
        written := s.written ++
          [.input2 [0x01, s.m_mouseButtons &&& toU8 (-1 - (buttonBit K id : Int)),
            0, 0, 0, 0]] } := by
  unfold mouseUp updateMouseButtons
  simp only [hrun, Bool.not_true, Bool.false_eq_true, if_false]
  split
  · rfl
  · rw [sendMouseReport_running]
    · rfl
    · rfl

/-- Claim C5, as stated, fails: with the left button already held (button byte
0x01), `mouseDown(left); mouseUp(left)` leaves the button byte 0x00. -/
theorem C5_counterexample :
    ¬ ∀ (K : KeyTypes) (s : UhidServer) (b : Nat), s.m_running = true →
      (mouseUp K (mouseDown K s b).2 b).2.m_mouseButtons = s.m_mouseButtons := by
  intro h
  have h0 := h barrierKeyTypes leftHeld 1 rfl
  revert h0
  decide

/-- Claim C5, amended. On a running session whose button byte does not have
the bit of `b` set (in particular for a button the engine does not know),
`mouseDown(b)` followed by `mouseUp(b)` leaves the button byte as it was. -/
theorem C5_mouseDown_mouseUp_restores_buttons (K : KeyTypes) (s : UhidServer) (b : Nat)
    (hrun : s.m_running = true) (hbyte : s.m_mouseButtons < 256)
    (hclear : s.m_mouseButtons &&& buttonBit K b = 0) :
    (mouseUp K (mouseDown K s b).2 b).2.m_mouseButtons = s.m_mouseButtons := by
  rw [mouseDown_running K s b hrun]
  by_cases hb : buttonBit K b = 0
  · rw [if_pos hb, mouseUp_running K s b hrun, if_pos hb]
  · rw [if_neg hb, mouseUp_running, if_neg hb]
    · exact clear_after_set _ _ hbyte (buttonBit_lt K b) hclear
    · exact hrun

/-- Witness of the amended claim C5: the right button pressed and released
while the left button is held. -/
theorem C5_mouseDown_mouseUp_restores_buttons_witness :
    leftHeld.m_running = true ∧ leftHeld.m_mouseButtons < 256 ∧
    leftHeld.m_mouseButtons &&& buttonBit barrierKeyTypes 3 = 0 ∧
    (mouseUp barrierKeyTypes (mouseDown barrierKeyTypes leftHeld 3).2 3).2.m_mouseButtons
      = leftHeld.m_mouseButtons :=
  ⟨rfl, by decide, by decide,
    C5_mouseDown_mouseUp_restores_buttons barrierKeyTypes leftHeld 3 rfl (by decide) (by decide)⟩

/-! ## The slots form a set -/

theorem slotsDistinct_keyDownSlots (keys : Fin 6 → Nat) (u : Nat) (h : slotsDistinct keys) :
    slotsDistinct (keyDownSlots keys u) := by
  by_cases hp : ∃ i, keys i = u
  · rw [keyDownSlots_present keys u hp]; exact h
  · have habs : ∀ i, keys i ≠ u := fun i hi => hp ⟨i, hi⟩
    have key : ∀ k : Fin 6, (keys k = 0 ∨ ∀ j, keys j ≠ 0) →
        slotsDistinct (Function.update keys k u) := by
      intro k _ a b hab ha
      by_cases hak : a = k
      · subst hak
        have hbk : b ≠ a := fun e => hab e.symm
        rw [Function.update_same, Function.update_noteq hbk]
        exact fun e => habs b e.symm
      · rw [Function.update_noteq hak] at ha ⊢
        by_cases hbk : b = k
        · subst hbk
          rw [Function.update_same]
          exact habs a
        · rw [Function.update_noteq hbk]
          exact h a b hab ha
    rcases keyDownSlots_absent keys u habs with ⟨i, hi, _, hd⟩ | ⟨hfull, hd⟩
    · rw [hd]; exact key i (Or.inl hi)
    · rw [hd]; exact key 5 (Or.inr hfull)

theorem slotsDistinct_keyUpSlots (keys : Fin 6 → Nat) (u : Nat) (h : slotsDistinct keys) :
    slotsDistinct (keyUpSlots keys u) := by
  intro a b hab ha
  unfold keyUpSlots at ha ⊢
  by_cases hau : keys a = u
  · simp [hau] at ha
  · rw [if_neg hau] at ha ⊢
    by_cases hbu : keys b = u
    · rw [if_pos hbu]; exact ha
    · rw [if_neg hbu]; exact h a b hab ha

/-- The slots after `keyDown`: as before, or after the two loops. -/
theorem keyDown_keys (K : KeyTypes) (s : UhidServer) (id mask : Nat) :
    (keyDown K s id mask).2.m_keyboardKeys = s.m_keyboardKeys ∨
    (keyDown K s id mask).2.m_keyboardKeys
      = keyDownSlots s.m_keyboardKeys (map_key K id).usage := by
  cases hrun : s.m_running
  · rw [keyDown_not_running K s id mask hrun]; exact Or.inl rfl
  · by_cases hmapped : (map_key K id).mapped
    · obtain ⟨keys, hk, hkeys⟩ := keyDown_mapped K s id mask hrun hmapped
      rw [hk]
      by_cases hm : (map_key K id).isModifier = true
      · rw [if_pos hm] at hkeys; exact Or.inl hkeys
      · rw [if_neg hm] at hkeys; exact Or.inr hkeys
    · rw [(key_unmapped K s id mask hrun hmapped).1]; exact Or.inl rfl

/-- The slots after `keyUp`: as before, or after the clearing loop. -/
theorem keyUp_keys (K : KeyTypes) (s : UhidServer) (id mask : Nat) :
    (keyUp K s id mask).2.m_keyboardKeys = s.m_keyboardKeys ∨
    (keyUp K s id mask).2.m_keyboardKeys
      = keyUpSlots s.m_keyboardKeys (map_key K id).usage := by
  cases hrun : s.m_running
  · rw [keyUp_not_running K s id mask hrun]; exact Or.inl rfl
  · by_cases hmapped : (map_key K id).mapped
    · obtain ⟨mods, keys, hk, _, hkeys⟩ := keyUp_mapped K s id mask hrun hmapped
      rw [hk]
      by_cases hm : (map_key K id).isModifier = true
      · rw [if_pos hm] at hkeys; exact Or.inl hkeys
      · rw [if_neg hm] at hkeys; exact Or.inr hkeys
    · rw [(key_unmapped K s id mask hrun hmapped).2]; exact Or.inl rfl

theorem slotsDistinct_keyDown (K : KeyTypes) (s : UhidServer) (id mask : Nat)
    (h : slotsDistinct s.m_keyboardKeys) :
    slotsDistinct (keyDown K s id mask).2.m_keyboardKeys := by
  rcases keyDown_keys K s id mask with e | e
  · rw [e]; exact h
  · rw [e]; exact slotsDistinct_keyDownSlots _ _ h

theorem slotsDistinct_keyUp (K : KeyTypes) (s : UhidServer) (id mask : Nat)
    (h : slotsDistinct s.m_keyboardKeys) :
    slotsDistinct (keyUp K s id mask).2.m_keyboardKeys := by
  rcases keyUp_keys K s id mask with e | e
  · rw [e]; exact h
  · rw [e]; exact slotsDistinct_keyUpSlots _ _ h

theorem slotsDistinct_keyRepeatLoop (K : KeyTypes) (id mask : Nat) (n : Nat) :
    ∀ s : UhidServer, slotsDistinct s.m_keyboardKeys →
      slotsDistinct (keyRepeatLoop K id mask n s).m_keyboardKeys := by
  induction n with
  | zero => intro s h; exact h
  | succ n ih =>
    intro s h
    exact ih _ (slotsDistinct_keyUp K _ id mask (slotsDistinct_keyDown K s id mask h))

/-- The state after `keyRepeat`: the loop has run exactly when the session is
running, the count is positive and the key is a mapped non-modifier key. -/
theorem keyRepeat_snd (K : KeyTypes) (s : UhidServer) (id mask : Nat) (count : Int) :
    (keyRepeat K s id mask count).2 =
      if s.m_running = true ∧ 0 < count ∧ (map_key K id).plainKey then
        keyRepeatLoop K id mask count.toNat s
      else s := by
  unfold keyRepeat KeyMapResult.plainKey
  by_cases h1 : (!s.m_running) = true ∨ count ≤ 0
  · rw [if_pos h1, if_neg]
    rintro ⟨hr, hc, _⟩
    rcases h1 with h | h
    · simp [hr] at h
    · omega
  · rw [if_neg h1]
    have hr : s.m_running = true := by
      cases hb : s.m_running
      · exact absurd (Or.inl (by simp [hb])) h1
      · rfl
    have hc : 0 < count := by
      by_contra hc; exact h1 (Or.inr (by omega))
    dsimp only
    by_cases h2 : (map_key K id).isModifier = true ∨ (map_key K id).usage = 0
    · rw [if_pos h2, if_neg]
      rintro ⟨_, _, hm, hu⟩
      rcases h2 with h | h
      · rw [hm] at h; exact absurd h (by decide)
      · exact hu h
    · rw [if_neg h2, if_pos]
      refine ⟨hr, hc, ?_, fun hu => h2 (Or.inr hu)⟩
      cases hb : (map_key K id).isModifier
      · rfl
      · exact absurd (Or.inl hb) h2

theorem slotsDistinct_keyRepeat (K : KeyTypes) (s : UhidServer) (id mask : Nat) (count : Int)
    (h : slotsDistinct s.m_keyboardKeys) :
    slotsDistinct (keyRepeat K s id mask count).2.m_keyboardKeys := by
  rw [keyRepeat_snd]
  split
  · exact slotsDistinct_keyRepeatLoop K id mask _ s h
  · exact h

/-- After `clearInputState` every slot is empty, and so are the button and
modifier bytes. -/
theorem clearInputState_fields (s : UhidServer) :
    (clearInputState s).m_keyboardKeys = (fun _ => 0) ∧
    (clearInputState s).m_keyboardModifiers = 0 ∧ (clearInputState s).m_mouseButtons = 0 ∧
    (clearInputState s).m_running = s.m_running := by
  cases hrun : s.m_running <;>
    simp [clearInputState, hrun, sendKeyboardReport, sendMouseReport, uhid_write]

/-- The occupied-slot count depends on the slots only. -/
theorem occupied_congr (s t : UhidServer) (h : t.m_keyboardKeys = s.m_keyboardKeys) :
    t.occupied = s.occupied := by
  unfold UhidServer.occupied UhidServer.slots
  rw [h]

/-- Claim C6. In every state the keyboard operations (`keyDown`, `keyUp`,
`keyRepeat`, `clearInputState`) reach from a cleared session, the non-zero
slots are pairwise distinct; and there `keyDown` of a key whose usage is
already in a slot leaves the slots, and so the number of occupied slots,
unchanged. -/
theorem C6_slots_form_a_set (K : KeyTypes) (s : UhidServer) (hreach : KeyboardReachable K s) :
    slotsDistinct s.m_keyboardKeys ∧
    ∀ id mask, (∃ i, s.m_keyboardKeys i = (map_key K id).usage) →
      (keyDown K s id mask).2.m_keyboardKeys = s.m_keyboardKeys ∧
      (keyDown K s id mask).2.occupied = s.occupied := by
  constructor
  · induction hreach with
    | init s => rw [(clearInputState_fields s).1]; intro i j _ h; exact absurd rfl h
    | down s id mask _ ih => exact slotsDistinct_keyDown K s id mask ih
    | up s id mask _ ih => exact slotsDistinct_keyUp K s id mask ih
    | rep s id mask count _ ih => exact slotsDistinct_keyRepeat K s id mask count ih
    | clear s _ _ => rw [(clearInputState_fields s).1]; intro i j _ h; exact absurd rfl h
  · intro id mask hp
    have e : (keyDown K s id mask).2.m_keyboardKeys = s.m_keyboardKeys := by
      rcases keyDown_keys K s id mask with e | e
      · exact e
      · rw [e, keyDownSlots_present _ _ hp]
    exact ⟨e, occupied_congr _ _ e⟩

/-- Witness of claim C6: 'a' pressed on a cleared running session, then
pressed again. -/
theorem C6_slots_form_a_set_witness :
    KeyboardReachable barrierKeyTypes
      (keyDown barrierKeyTypes (clearInputState freshRunning) 0x61 0).2 ∧
    slotsDistinct (keyDown barrierKeyTypes (clearInputState freshRunning) 0x61 0).2.m_keyboardKeys ∧
    ∀ id mask, (∃ i, (keyDown barrierKeyTypes (clearInputState freshRunning) 0x61
        0).2.m_keyboardKeys i = (map_key barrierKeyTypes id).usage) →
      (keyDown barrierKeyTypes (keyDown barrierKeyTypes (clearInputState freshRunning) 0x61 0).2
        id mask).2.m_keyboardKeys
        = (keyDown barrierKeyTypes (clearInputState freshRunning) 0x61 0).2.m_keyboardKeys ∧
      (keyDown barrierKeyTypes (keyDown barrierKeyTypes (clearInputState freshRunning) 0x61 0).2
        id mask).2.occupied
        = (keyDown barrierKeyTypes (clearInputState freshRunning) 0x61 0).2.occupied :=
  ⟨.down _ _ _ (.init _),
    C6_slots_form_a_set barrierKeyTypes _ (.down _ _ _ (.init _))⟩

/-! ## Presses and releases of one key -/

theorem keyDownSlots_empty (u : Nat) (hu : u ≠ 0) :
    keyDownSlots (fun _ => 0) u = Function.update (fun _ => 0) (0 : Fin 6) u := by
  rcases keyDownSlots_absent (fun _ => 0) u (fun _ h => hu h.symm) with ⟨i, _, hlt, hd⟩ | ⟨hfull, _⟩
  · have hi : i = 0 := by
      by_contra hne
      exact hlt 0 (Fin.pos_iff_ne_zero.mpr hne) rfl
    rw [hd, hi]
  · exact absurd rfl (hfull 0)

theorem keyUpSlots_single (u : Nat) :
    keyUpSlots (Function.update (fun _ => 0) (0 : Fin 6) u) u = fun _ => 0 := by
  funext j
  by_cases hj : j = 0
  · subst hj; simp [keyUpSlots]
  · simp [keyUpSlots, Function.update_noteq hj]

theorem keyUpSlots_empty (u : Nat) : keyUpSlots (fun _ => 0) u = fun _ : Fin 6 => 0 := by
  funext j
  simp [keyUpSlots]

theorem occupied_empty (s : UhidServer) (h : s.m_keyboardKeys = fun _ => 0) : s.occupied = 0 := by
  unfold UhidServer.occupied UhidServer.slots
  rw [h]
  rfl

theorem occupied_single (s : UhidServer) (u : Nat) (hu : u ≠ 0)
    (h : s.m_keyboardKeys = Function.update (fun _ => 0) (0 : Fin 6) u) : s.occupied = 1 := by
  unfold UhidServer.occupied UhidServer.slots
  have h6 : List.finRange 6 = [0, 1, 2, 3, 4, 5] := by rfl
  rw [h, h6]
  simp [Function.update, hu]

theorem pressedAfter_concat (p : List KeyCall) (c : KeyCall) :
    pressedAfter (p ++ [c]) = match c with
      | .down _ => 1
      | .up _ => 0 := by
  unfold pressedAfter
  rw [List.getLast?_append, List.getLast?_singleton]
  cases c <;> rfl

/-- After any calls on one mapped non-modifier key from empty slots, the slots
are empty, or slot 0 alone holds the usage, according to the last call. -/
theorem runKeyCalls_slots (K : KeyTypes) (s : UhidServer) (id : Nat)
    (hrun : s.m_running = true) (hempty : ∀ i, s.m_keyboardKeys i = 0)
    (hp : (map_key K id).plainKey) (p : List KeyCall) :
    (runKeyCalls K id s p).m_running = true ∧
    ((pressedAfter p = 0 ∧ (runKeyCalls K id s p).m_keyboardKeys = fun _ => 0) ∨
     (pressedAfter p = 1 ∧ (runKeyCalls K id s p).m_keyboardKeys
        = Function.update (fun _ => 0) (0 : Fin 6) (map_key K id).usage)) := by
  induction p using List.reverseRecOn with
  | nil => exact ⟨hrun, Or.inl ⟨rfl, funext hempty⟩⟩
  | append_singleton p c ih =>
    obtain ⟨hr, hk⟩ := ih
    have hstep : runKeyCalls K id s (p ++ [c]) = runKeyCall K id (runKeyCalls K id s p) c := by
      simp [runKeyCalls, List.foldl_append]
    rw [hstep, pressedAfter_concat]
    cases c with
    | down mask =>
      refine ⟨(keyDown_keyUp_m_running K _ id mask).1.trans hr, Or.inr ⟨rfl, ?_⟩⟩
      simp only [runKeyCall]
      rw [keyDown_plain K _ id mask hr hp]
      rcases hk with ⟨_, hk⟩ | ⟨_, hk⟩
      · simp only [hk]; exact keyDownSlots_empty _ hp.2
      · simp only [hk]
        exact keyDownSlots_present _ _ ⟨0, by simp⟩
    | up mask =>
      refine ⟨(keyDown_keyUp_m_running K _ id mask).2.trans hr, Or.inl ⟨rfl, ?_⟩⟩
      simp only [runKeyCall]
      rw [keyUp_plain K _ id mask hr hp]
      rcases hk with ⟨_, hk⟩ | ⟨_, hk⟩
      · simp only [hk]; exact keyUpSlots_empty _
      · simp only [hk]; exact keyUpSlots_single _

/-- Claim C7, as stated for every key that is not a modifier, fails for a key
without a usage: the key 0xE9 (the character e-acute) is not a modifier and
has no usage, `keyDown` drops it, and no slot is occupied after the press. -/
theorem C7_counterexample :
    ¬ ∀ (K : KeyTypes) (s : UhidServer) (id : Nat) (calls : List KeyCall),
      s.m_running = true → (∀ i, s.m_keyboardKeys i = 0) →
      (map_key K id).isModifier = false →
      ∀ p, p <+: calls → (runKeyCalls K id s p).occupied = pressedAfter p := by
  intro h
  have h0 := h barrierKeyTypes freshRunning 0xE9 [.down 0] rfl (fun _ => rfl) (by decide)
    [.down 0] (List.prefix_refl _)
  revert h0
  decide

/-- Claim C7, amended. For calls of `keyDown`/`keyUp`, with any masks, on one
mapped non-modifier key, starting on a running session with all slots empty:
after every prefix of the calls the number of non-zero slots is the number of
keys held, 1 if the last call of the prefix was `keyDown` and 0 otherwise. -/
theorem C7_occupied_slots_single_key (K : KeyTypes) (s : UhidServer) (id : Nat)
    (calls : List KeyCall) (hrun : s.m_running = true)
    (hempty : ∀ i, s.m_keyboardKeys i = 0) (hp : (map_key K id).plainKey) :
    ∀ p, p <+: calls → (runKeyCalls K id s p).occupied = pressedAfter p := by
  intro p _
  obtain ⟨_, hk⟩ := runKeyCalls_slots K s id hrun hempty hp p
  rcases hk with ⟨h0, hk⟩ | ⟨h1, hk⟩
  · rw [h0]; exact occupied_empty _ hk
  · rw [h1]; exact occupied_single _ _ hp.2 hk

/-- Witness of the amended claim C7: press, press, release, press of 'a' with changing
masks on the fresh running session. -/
theorem C7_occupied_slots_single_key_witness :
    freshRunning.m_running = true ∧ (∀ i, freshRunning.m_keyboardKeys i = 0) ∧
    (map_key barrierKeyTypes 0x61).plainKey ∧
    ∀ p, p <+: [KeyCall.down 0, .down 1, .up 0, .down 2] →
      (runKeyCalls barrierKeyTypes 0x61 freshRunning p).occupied = pressedAfter p :=
  ⟨rfl, fun _ => rfl, by decide,
    C7_occupied_slots_single_key barrierKeyTypes freshRunning 0x61 _ rfl (fun _ => rfl)
      (by decide)⟩

/-- The run behind the witness of C7: the occupied-slot counts after each of
the four calls are 1, 1, 0, 1. -/
theorem runKeyCalls_a_counts :
    ([[KeyCall.down 0], [.down 0, .down 1], [.down 0, .down 1, .up 0],
      [.down 0, .down 1, .up 0, .down 2]].map
        (fun p => (runKeyCalls barrierKeyTypes 0x61 freshRunning p).occupied)) = [1, 1, 0, 1] := by
  decide

/-! ## Where a pressed key goes -/

/-- Claim C8. On a running session, for a mapped non-modifier key whose usage
`u` is in no slot, `keyDown` writes exactly one keyboard report; when all six
slots are occupied it puts `u` into slot 5 and leaves slots 0..4 unchanged;
when some slot is empty it puts `u` into the lowest empty slot and leaves
every other slot unchanged. -/
theorem C8_keyDown_slot_placement (K : KeyTypes) (s : UhidServer) (id mask : Nat)
    (hrun : s.m_running = true) (hp : (map_key K id).plainKey)
    (habs : ∀ i, s.m_keyboardKeys i ≠ (map_key K id).usage) :
    (∃ ev, (keyDown K s id mask).2.written = s.written ++ [ev] ∧ ev.isKeyboardReport) ∧
    ((∀ i, s.m_keyboardKeys i ≠ 0) →
      (keyDown K s id mask).2.m_keyboardKeys 5 = (map_key K id).usage ∧
      ∀ j, j ≠ 5 → (keyDown K s id mask).2.m_keyboardKeys j = s.m_keyboardKeys j) ∧
    ((∃ i, s.m_keyboardKeys i = 0) →
      ∃ i, s.m_keyboardKeys i = 0 ∧ (∀ j, j < i → s.m_keyboardKeys j ≠ 0) ∧
        (keyDown K s id mask).2.m_keyboardKeys i = (map_key K id).usage ∧
        ∀ j, j ≠ i → (keyDown K s id mask).2.m_keyboardKeys j = s.m_keyboardKeys j) := by
  have hk := keyDown_plain K s id mask hrun hp
  refine ⟨⟨.input2 [0x02, _, 0x00, _, _, _, _, _, _], by rw [hk], trivial⟩, ?_, ?_⟩
  · intro hfull
    rw [hk]
    rcases keyDownSlots_absent _ _ habs with ⟨i, hi, _, _⟩ | ⟨_, hd⟩
    · exact absurd hi (hfull i)
    · simp only [hd]
      exact ⟨Function.update_same _ _ _, fun j hj => Function.update_noteq hj _ _⟩
  · rintro ⟨i0, hi0⟩
    rw [hk]
    rcases keyDownSlots_absent _ _ habs with ⟨i, hi, hlt, hd⟩ | ⟨hfull, _⟩
    · simp only [hd]
      exact ⟨i, hi, hlt, Function.update_same _ _ _, fun j hj => Function.update_noteq hj _ _⟩
    · exact absurd hi0 (hfull i0)

/-- Witness of claim C8: 'g' pressed while 'a' to 'f' fill the six slots. -/
theorem C8_keyDown_slot_placement_witness :
    sixHeld.m_running = true ∧ (map_key barrierKeyTypes 0x67).plainKey ∧
    (∀ i, sixHeld.m_keyboardKeys i ≠ (map_key barrierKeyTypes 0x67).usage) ∧
    (∃ ev, (keyDown barrierKeyTypes sixHeld 0x67 0).2.written = sixHeld.written ++ [ev] ∧
      ev.isKeyboardReport) ∧
    ((∀ i, sixHeld.m_keyboardKeys i ≠ 0) →
      (keyDown barrierKeyTypes sixHeld 0x67 0).2.m_keyboardKeys 5
        = (map_key barrierKeyTypes 0x67).usage ∧
      ∀ j, j ≠ 5 →
        (keyDown barrierKeyTypes sixHeld 0x67 0).2.m_keyboardKeys j = sixHeld.m_keyboardKeys j) ∧
    ((∃ i, sixHeld.m_keyboardKeys i = 0) →
      ∃ i, sixHeld.m_keyboardKeys i = 0 ∧ (∀ j, j < i → sixHeld.m_keyboardKeys j ≠ 0) ∧
        (keyDown barrierKeyTypes sixHeld 0x67 0).2.m_keyboardKeys i
          = (map_key barrierKeyTypes 0x67).usage ∧
        ∀ j, j ≠ i →
          (keyDown barrierKeyTypes sixHeld 0x67 0).2.m_keyboardKeys j
            = sixHeld.m_keyboardKeys j) :=
  ⟨rfl, by decide, by decide,
    C8_keyDown_slot_placement barrierKeyTypes sixHeld 0x67 0 rfl (by decide) (by decide)⟩

/-- The runs behind the witness of C8: a seventh key replaces the sixth slot,
and a key pressed into partly filled slots takes the lowest empty one. -/
theorem keyDown_seventh_key :
    sixHeld.slots = [0x04, 0x05, 0x06, 0x07, 0x08, 0x09] ∧
    (keyDown barrierKeyTypes sixHeld 0x67 0).2.slots = [0x04, 0x05, 0x06, 0x07, 0x08, 0x0a] ∧
    (keyDown barrierKeyTypes (keyUp barrierKeyTypes sixHeld 0x62 0).2 0x67 0).2.slots
      = [0x04, 0x0a, 0x06, 0x07, 0x08, 0x09] := by
  decide

/-! ## Release of a key -/

theorem map_ascii_switch_modifier (out : KeyMapResult) (c : Nat) :
    (map_ascii_switch out c).modifierBit = out.modifierBit ∧
    (map_ascii_switch out c).isModifier = out.isModifier := by
  unfold map_ascii_switch
  split <;> exact ⟨rfl, rfl⟩

/-- The ASCII mapping never yields a modifier. -/
theorem map_ascii_modifier (id : Nat) :
    (map_ascii id).modifierBit = 0 ∧ (map_ascii id).isModifier = false := by
  unfold map_ascii
  simp only
  split_ifs <;> first | exact ⟨rfl, rfl⟩ | exact map_ascii_switch_modifier _ _

theorem ite_byte (c : Prop) [Decidable c] (a b : Nat) (ha : a < 256) (hb : b < 256) :
    (if c then a else b) < 256 := by
  split <;> assumption

theorem map_key_switch_modifierBit (K : KeyTypes) (out : KeyMapResult) (id : Nat)
    (h : out.modifierBit < 256) : (map_key_switch K out id).modifierBit < 256 := by
  unfold map_key_switch
  simp only [apply_ite KeyMapResult.modifierBit]
  repeat' (first | exact h | (show (_ : Nat) < 256; decide) | apply ite_byte)

/-- The modifier bit of a mapping is a byte. -/
theorem map_key_modifierBit_lt (K : KeyTypes) (id : Nat) : (map_key K id).modifierBit < 256 := by
  have h0 : (map_ascii id).modifierBit < 256 := by rw [(map_ascii_modifier id).1]; decide
  unfold map_key
  simp only
  split_ifs <;> first | exact h0 | exact map_key_switch_modifierBit K _ id h0

/-- Bit by bit, `D &&& ~bit` is `D` without the bits of `bit`. -/
theorem testBit_clear (d bit i : Nat) (hd : d < 256) (hb : bit < 256) :
    (d &&& toU8 (-1 - (bit : Int))).testBit i = (d.testBit i && !bit.testBit i) := by
  rw [toU8_not bit hb, Nat.testBit_and, Nat.testBit_two_pow_sub_succ (by omega)]
  by_cases hi : i < 8
  · simp [hi]
  · simp [testBit_byte_high d i hd (by omega)]

/-- Claim C9. On a running session `keyUp(k, M)` for a mapped key writes
exactly one keyboard report, the report of the state it leaves. For a modifier
key the slots are unchanged and the modifier byte is `D(M)` with the key's bit
cleared; for a non-modifier key the modifier byte is `D(M)`, every slot equal
to the key's usage becomes zero and the other slots are unchanged. The
scenario `keyDown(shiftL, shift); keyDown('!', shift); keyUp('!', shift);
keyUp(shiftL, 0)` on the fresh session writes four reports, the last with the
modifier byte `00` and all slots zero. -/
theorem C9_keyUp_post_state (K : KeyTypes) (s : UhidServer) (id mask : Nat)
    (hrun : s.m_running = true) (hmapped : (map_key K id).mapped) :
    (∃ ev, (keyUp K s id mask).2.written = s.written ++ [ev] ∧ ev.isKeyboardReport ∧
      ev.byte 1 = (keyUp K s id mask).2.m_keyboardModifiers ∧
      ev.slotBytes = (keyUp K s id mask).2.slots) ∧
    ((map_key K id).isModifier = true →
      (keyUp K s id mask).2.m_keyboardKeys = s.m_keyboardKeys ∧
      ∀ i, (keyUp K s id mask).2.m_keyboardModifiers.testBit i
        = ((modifier_from_mask K mask).testBit i && !(map_key K id).modifierBit.testBit i)) ∧
    ((map_key K id).isModifier = false →
      (keyUp K s id mask).2.m_keyboardModifiers = modifier_from_mask K mask ∧
      ∀ i, (keyUp K s id mask).2.m_keyboardKeys i
        = if s.m_keyboardKeys i = (map_key K id).usage then 0 else s.m_keyboardKeys i) ∧
    shiftBangScenario.written =
      [.input2 [0x02, 0x02, 0, 0, 0, 0, 0, 0, 0], .input2 [0x02, 0x02, 0, 0x1e, 0, 0, 0, 0, 0],
       .input2 [0x02, 0x02, 0, 0, 0, 0, 0, 0, 0], .input2 [0x02, 0x00, 0, 0, 0, 0, 0, 0, 0]] := by
  obtain ⟨mods, keys, hk, hmods, hkeys⟩ := keyUp_mapped K s id mask hrun hmapped
  refine ⟨⟨.input2 [0x02, mods, 0x00, keys 0, keys 1, keys 2, keys 3, keys 4, keys 5],
    by rw [hk], trivial, by rw [hk]; rfl, by rw [hk]; rfl⟩, ?_, ?_, by decide⟩
  · intro hm
    rw [hk]
    rw [if_pos hm] at hmods hkeys
    refine ⟨hkeys, fun i => ?_⟩
    show mods.testBit i = _
    rw [hmods]
    exact testBit_clear _ _ i (lt_trans (modifier_from_mask_lt K mask) (by decide))
      (map_key_modifierBit_lt K id)
  · intro hm
    have hm' : ¬ (map_key K id).isModifier = true := by rw [hm]; decide
    rw [hk]
    rw [if_neg hm'] at hmods hkeys
    refine ⟨hmods, fun i => ?_⟩
    show keys i = _
    rw [hkeys]
    rfl

/-- Witness of claim C9: release of '!' with the shift mask, pressed while 'a'
is held. -/
theorem C9_keyUp_post_state_witness :
    (keyDown barrierKeyTypes heldA 0x21 1).2.m_running = true ∧
    (map_key barrierKeyTypes 0x21).mapped ∧
    (keyUp barrierKeyTypes (keyDown barrierKeyTypes heldA 0x21 1).2 0x21 1).2.slots
      = [0x04, 0, 0, 0, 0, 0] ∧
    (keyUp barrierKeyTypes (keyDown barrierKeyTypes heldA 0x21 1).2 0x21
      1).2.m_keyboardModifiers = 0x02 ∧
    shiftBangScenario.written.length = 4 :=
  ⟨rfl, by decide, by decide,
    by rw [((C9_keyUp_post_state barrierKeyTypes (keyDown barrierKeyTypes heldA 0x21 1).2 0x21 1
      rfl (by decide)).2.2.1 (by decide)).1]; decide,
    by rw [(C9_keyUp_post_state barrierKeyTypes (keyDown barrierKeyTypes heldA 0x21 1).2 0x21 1
      rfl (by decide)).2.2.2]; rfl⟩

/-! ## Key repeat -/

theorem keyDownSlots_mem (keys : Fin 6 → Nat) (u : Nat) : ∃ i, keyDownSlots keys u i = u := by
  by_cases hp : ∃ i, keys i = u
  · rw [keyDownSlots_present keys u hp]; exact hp
  · have habs : ∀ i, keys i ≠ u := fun i hi => hp ⟨i, hi⟩
    rcases keyDownSlots_absent keys u habs with ⟨i, _, _, hd⟩ | ⟨_, hd⟩
    · exact ⟨i, by rw [hd, Function.update_same]⟩
    · exact ⟨5, by rw [hd, Function.update_same]⟩

theorem keyUpSlots_ne (keys : Fin 6 → Nat) (u : Nat) (hu : u ≠ 0) (i : Fin 6) :
    keyUpSlots keys u i ≠ u := by
  unfold keyUpSlots
  split
  · exact fun h => hu h.symm
  · assumption

theorem unpair_length (ps : List (UhidEvent × UhidEvent)) :
    (unpair ps).length = 2 * ps.length := by
  induction ps with
  | nil => rfl
  | cons p ps ih => simp only [unpair, List.length_cons, ih]; omega

/-- One press/release pair of a mapped non-modifier key: two keyboard
reports, the first with the usage in a slot, the second without it. -/
theorem keyDown_keyUp_pair (K : KeyTypes) (s : UhidServer) (id mask : Nat)
    (hrun : s.m_running = true) (hp : (map_key K id).plainKey) :
    ∃ e1 e2 : UhidEvent,
      (keyUp K (keyDown K s id mask).2 id mask).2.written = s.written ++ [e1, e2] ∧
      e1.isKeyboardReport ∧ (map_key K id).usage ∈ e1.slotBytes ∧
      e2.isKeyboardReport ∧ (map_key K id).usage ∉ e2.slotBytes ∧
      (keyUp K (keyDown K s id mask).2 id mask).2.m_running = true ∧
      ∀ i, (keyUp K (keyDown K s id mask).2 id mask).2.m_keyboardKeys i ≠ (map_key K id).usage := by
  have hrun1 : (keyDown K s id mask).2.m_running = true :=
    (keyDown_keyUp_m_running K s id mask).1.trans hrun
  have h2 := keyUp_plain K _ id mask hrun1 hp
  have h1 := keyDown_plain K s id mask hrun hp
  refine ⟨.input2 [0x02, modifier_from_mask K mask ||| (map_key K id).requiredModifiers, 0x00,
      keyDownSlots s.m_keyboardKeys (map_key K id).usage 0,
      keyDownSlots s.m_keyboardKeys (map_key K id).usage 1,
      keyDownSlots s.m_keyboardKeys (map_key K id).usage 2,
      keyDownSlots s.m_keyboardKeys (map_key K id).usage 3,
      keyDownSlots s.m_keyboardKeys (map_key K id).usage 4,
      keyDownSlots s.m_keyboardKeys (map_key K id).usage 5],
    .input2 [0x02, modifier_from_mask K mask, 0x00,
      keyUpSlots (keyDownSlots s.m_keyboardKeys (map_key K id).usage) (map_key K id).usage 0,
      keyUpSlots (keyDownSlots s.m_keyboardKeys (map_key K id).usage) (map_key K id).usage 1,
      keyUpSlots (keyDownSlots s.m_keyboardKeys (map_key K id).usage) (map_key K id).usage 2,
      keyUpSlots (keyDownSlots s.m_keyboardKeys (map_key K id).usage) (map_key K id).usage 3,
      keyUpSlots (keyDownSlots s.m_keyboardKeys (map_key K id).usage) (map_key K id).usage 4,
      keyUpSlots (keyDownSlots s.m_keyboardKeys (map_key K id).usage) (map_key K id).usage 5],
    ?_, trivial, ?_, trivial, ?_, ?_, ?_⟩
  · rw [h2, h1]
    simp only [List.append_assoc, List.singleton_append]
  · obtain ⟨i, hi⟩ := keyDownSlots_mem s.m_keyboardKeys (map_key K id).usage
    show (map_key K id).usage ∈
      (List.finRange 6).map (keyDownSlots s.m_keyboardKeys (map_key K id).usage)
    exact List.mem_map.mpr ⟨i, List.mem_finRange i, hi⟩
  · show (map_key K id).usage ∉
      (List.finRange 6).map (keyUpSlots (keyDownSlots s.m_keyboardKeys (map_key K id).usage)
        (map_key K id).usage)
    intro hmem
    obtain ⟨i, _, hi⟩ := List.mem_map.mp hmem
    exact keyUpSlots_ne _ _ hp.2 i hi
  · exact (keyDown_keyUp_m_running K _ id mask).2.trans hrun1
  · intro i
    rw [h2]
    exact keyUpSlots_ne _ _ hp.2 i

theorem keyRepeatLoop_iterate (K : KeyTypes) (id mask : Nat) (n : Nat) : ∀ s : UhidServer,
    keyRepeatLoop K id mask n s
      = Nat.iterate (fun t => (keyUp K (keyDown K t id mask).2 id mask).2) n s := by
  induction n with
  | zero => intro s; rfl
  | succ n ih => intro s; exact ih _

/-- The loop of `keyRepeat` writes `n` press/release pairs of reports. -/
theorem keyRepeatLoop_written (K : KeyTypes) (id mask : Nat)
    (hp : (map_key K id).plainKey) (n : Nat) : ∀ s : UhidServer, s.m_running = true →
    ∃ pairs : List (UhidEvent × UhidEvent), pairs.length = n ∧
      (keyRepeatLoop K id mask n s).written = s.written ++ unpair pairs ∧
      (∀ p ∈ pairs, p.1.isKeyboardReport ∧ (map_key K id).usage ∈ p.1.slotBytes ∧
        p.2.isKeyboardReport ∧ (map_key K id).usage ∉ p.2.slotBytes) ∧
      (0 < n → ∀ i, (keyRepeatLoop K id mask n s).m_keyboardKeys i ≠ (map_key K id).usage) := by
  induction n with
  | zero => intro s _; exact ⟨[], rfl, by simp [keyRepeatLoop, unpair], by simp, by simp⟩
  | succ n ih =>
    intro s hrun
    obtain ⟨e1, e2, hw, a1, a2, a3, a4, hr, hne⟩ := keyDown_keyUp_pair K s id mask hrun hp
    obtain ⟨pairs, hl, hw', hall, hfin⟩ := ih _ hr
    refine ⟨(e1, e2) :: pairs, by simp [hl], ?_, ?_, ?_⟩
    · show (keyRepeatLoop K id mask n _).written = _
      rw [hw', hw]
      simp [unpair]
    · intro p hmem
      rcases List.mem_cons.mp hmem with h | h
      · subst h; exact ⟨a1, a2, a3, a4⟩
      · exact hall p h
    · intro _
      show ∀ i, (keyRepeatLoop K id mask n _).m_keyboardKeys i ≠ _
      cases n with
      | zero => exact hne
      | succ m => exact hfin (by omega)

/-- Claim C10. On a running session: when `count <= 0`, or the key is a
modifier, or the key is unmapped, `keyRepeat` leaves the whole state, the
written records included, unchanged; otherwise its state is that of `count`
times `keyDown(k, M); keyUp(k, M)`, it writes `2 * count` keyboard reports,
alternately with and without the key's usage in the slots, and the usage is in
no slot afterwards. -/
theorem C10_keyRepeat (K : KeyTypes) (s : UhidServer) (id mask : Nat) (count : Int)
    (hrun : s.m_running = true) :
    ((count ≤ 0 ∨ (map_key K id).isModifier = true ∨ ¬ (map_key K id).mapped) →
      (keyRepeat K s id mask count).2 = s) ∧
    (0 < count → (map_key K id).plainKey →
      (keyRepeat K s id mask count).2
        = Nat.iterate (fun t => (keyUp K (keyDown K t id mask).2 id mask).2) count.toNat s ∧
      (∃ pairs : List (UhidEvent × UhidEvent), pairs.length = count.toNat ∧
        (keyRepeat K s id mask count).2.written = s.written ++ unpair pairs ∧
        (unpair pairs).length = 2 * count.toNat ∧
        ∀ p ∈ pairs, p.1.isKeyboardReport ∧ (map_key K id).usage ∈ p.1.slotBytes ∧
          p.2.isKeyboardReport ∧ (map_key K id).usage ∉ p.2.slotBytes) ∧
      ∀ i, (keyRepeat K s id mask count).2.m_keyboardKeys i ≠ (map_key K id).usage) := by
  constructor
  · intro h
    rw [keyRepeat_snd, if_neg]
    rintro ⟨_, hc, hm, hu⟩
    rcases h with h | h | h
    · omega
    · rw [hm] at h; exact absurd h (by decide)
    · exact h (Or.inr hu)
  · intro hc hp
    have e : (keyRepeat K s id mask count).2 = keyRepeatLoop K id mask count.toNat s := by
      rw [keyRepeat_snd, if_pos ⟨hrun, hc, hp⟩]
    obtain ⟨pairs, hl, hw, hall, hfin⟩ := keyRepeatLoop_written K id mask hp count.toNat s hrun
    rw [e]
    refine ⟨keyRepeatLoop_iterate K id mask _ s, ⟨pairs, hl, hw, ?_, hall⟩, hfin (by omega)⟩
    rw [unpair_length, hl]

/-- Witness of claim C10: 'a' repeated twice on the fresh running session. -/
theorem C10_keyRepeat_witness :
    freshRunning.m_running = true ∧ (0 : Int) < 2 ∧ (map_key barrierKeyTypes 0x61).plainKey ∧
    (keyRepeat barrierKeyTypes freshRunning 0x61 0 2).2
      = Nat.iterate (fun t => (keyUp barrierKeyTypes (keyDown barrierKeyTypes t 0x61 0).2 0x61
          0).2) (2 : Int).toNat freshRunning ∧
    ∀ i, (keyRepeat barrierKeyTypes freshRunning 0x61 0 2).2.m_keyboardKeys i
      ≠ (map_key barrierKeyTypes 0x61).usage :=
  ⟨rfl, by decide, by decide,
    ((C10_keyRepeat barrierKeyTypes freshRunning 0x61 0 2 rfl).2 (by decide) (by decide)).1,
    ((C10_keyRepeat barrierKeyTypes freshRunning 0x61 0 2 rfl).2 (by decide) (by decide)).2.2⟩

/-- The runs behind the witness of C10: two repeats of 'a' write four reports,
with and without the usage 0x04 in turn; a count of zero, a negative count, a
modifier key and an unmapped key write nothing. -/
theorem keyRepeat_runs :
    (keyRepeat barrierKeyTypes freshRunning 0x61 0 2).2.written =
      [.input2 [2, 0, 0, 4, 0, 0, 0, 0, 0], .input2 [2, 0, 0, 0, 0, 0, 0, 0, 0],
       .input2 [2, 0, 0, 4, 0, 0, 0, 0, 0], .input2 [2, 0, 0, 0, 0, 0, 0, 0, 0]] ∧
    (keyRepeat barrierKeyTypes freshRunning 0x61 0 0).2.written = [] ∧
    (keyRepeat barrierKeyTypes freshRunning 0x61 0 (-3)).2.written = [] ∧
    (keyRepeat barrierKeyTypes freshRunning barrierKeyTypes.kKeyShift_L 0 2).2.written = [] ∧
    (keyRepeat barrierKeyTypes freshRunning 0x7f 0 2).2.written = [] := by
  decide

/-! ## Small relative moves -/

theorem mouseRelativeMove_eq_loop (fuel : Nat) (s : UhidServer) (dx dy : Int)
    (hrun : s.m_running = true) :
    mouseRelativeMove fuel s dx dy = sendRelativeMotionLoop fuel s dx dy := by
  simp [mouseRelativeMove, sendRelativeMotion, hrun]

/-- A move of nothing writes nothing. -/
theorem sendRelativeMotionLoop_zero (fuel : Nat) (s : UhidServer) :
    sendRelativeMotionLoop (fuel + 1) s 0 0 = some (true, s) := by
  simp [sendRelativeMotionLoop]

/-- A non-zero move within a signed byte on both axes is one report. -/
theorem sendRelativeMotionLoop_small (fuel : Nat) (s : UhidServer) (dx dy : Int)
    (hx : -127 ≤ dx ∧ dx ≤ 127) (hy : -127 ≤ dy ∧ dy ≤ 127) (hne : dx ≠ 0 ∨ dy ≠ 0)
    (hrun : s.m_running = true) (hw : s.writesSucceed) :
    sendRelativeMotionLoop (fuel + 2) s dx dy = some (true, { s with written := s.written ++
      [.input2 [0x01, s.m_mouseButtons, toU8 dx, toU8 dy, 0, 0]] }) := by
  have ex : max (-127) (min 127 dx) = dx := by omega
  have ey : max (-127) (min 127 dy) = dy := by omega
  have hs := sendMouseReport_ok s dx dy 0 0 hrun hw
  rw [show fuel + 2 = (fuel + 1) + 1 from rfl, sendRelativeMotionLoop]
  simp only []
  rw [if_pos hne, ex, ey, toS8_of_small dx (by omega) (by omega),
    toS8_of_small dy (by omega) (by omega), hs]
  simp only [Bool.not_true, Bool.false_eq_true, if_false, sub_self]
  rw [sendRelativeMotionLoop_zero]
  rfl

/-- Claim C11, as stated for all deltas within a signed byte, fails at
(0, 0): the loop does not run and no report is written. -/
theorem C11_counterexample :
    ¬ ∀ (s : UhidServer) (dx dy : Int), s.m_running = true → s.writesSucceed →
      -127 ≤ dx ∧ dx ≤ 127 → -127 ≤ dy ∧ dy ≤ 127 →
      ∃ (fuel : Nat) (ev : UhidEvent) (s1 : UhidServer),
        mouseRelativeMove fuel s dx dy = some (true, s1) ∧ s1.written = s.written ++ [ev] := by
  intro h
  obtain ⟨fuel, ev, s1, h1, h2⟩ := h freshRunning 0 0 rfl (fun _ => le_refl _)
    (by decide) (by decide)
  rw [mouseRelativeMove_eq_loop _ _ _ _ rfl] at h1
  cases fuel with
  | zero => simp [sendRelativeMotionLoop] at h1
  | succ n =>
    rw [sendRelativeMotionLoop_zero] at h1
    have e : s1 = freshRunning := by
      have := Option.some.inj h1
      exact (Prod.mk.inj this).2.symm
    rw [e] at h2
    simp [freshRunning] at h2

/-- Claim C11, amended. On a running session with successful writes, for
deltas with `|dx| <= 127` and `|dy| <= 127`: when they are not both zero,
`mouseRelativeMove(dx, dy)` writes exactly one mouse report, whose x byte is
`dx` and whose y byte is `dy` as signed 8-bit values, wheel and pan zero; and
`mouseRelativeMove(0, 0)` returns `true`, writes no report and leaves the
state as it is. -/
theorem C11_small_relative_move_one_report (s : UhidServer) (dx dy : Int)
    (hx : -127 ≤ dx ∧ dx ≤ 127) (hy : -127 ≤ dy ∧ dy ≤ 127)
    (hrun : s.m_running = true) (hw : s.writesSucceed) :
    (dx ≠ 0 ∨ dy ≠ 0 →
      (∃ fuel, mouseRelativeMove fuel s dx dy = some (true, { s with written := s.written ++
        [.input2 [0x01, s.m_mouseButtons, toU8 dx, toU8 dy, 0, 0]] })) ∧
      (∀ fuel r, mouseRelativeMove fuel s dx dy = some r →
        r = (true, { s with written := s.written ++
          [.input2 [0x01, s.m_mouseButtons, toU8 dx, toU8 dy, 0, 0]] })) ∧
      fromU8 (toU8 dx) = dx ∧ fromU8 (toU8 dy) = dy) ∧
    ((∃ fuel, mouseRelativeMove fuel s 0 0 = some (true, s)) ∧
      (∀ fuel r, mouseRelativeMove fuel s 0 0 = some r → r = (true, s) ∧
        r.2.written = s.written)) := by
  constructor
  · intro hne
    have h := sendRelativeMotionLoop_small 0 s dx dy hx hy hne hrun hw
    refine ⟨⟨2, ?_⟩, ?_, fromU8_toU8 dx (by omega) (by omega),
      fromU8_toU8 dy (by omega) (by omega)⟩
    · rw [mouseRelativeMove_eq_loop _ _ _ _ hrun]; exact h
    · intro fuel r hr
      rw [mouseRelativeMove_eq_loop _ _ _ _ hrun] at hr
      exact sendRelativeMotionLoop_det _ _ s dx dy _ _ hr h
  · have h := sendRelativeMotionLoop_zero 0 s
    refine ⟨⟨1, ?_⟩, ?_⟩
    · rw [mouseRelativeMove_eq_loop _ _ _ _ hrun]; exact h
    · intro fuel r hr
      rw [mouseRelativeMove_eq_loop _ _ _ _ hrun] at hr
      have e := sendRelativeMotionLoop_det _ _ s 0 0 _ _ hr h
      rw [e]
      exact ⟨rfl, rfl⟩

/-- Witness of the amended claim C11 at the deltas (-5, 127), and at (0, 0). -/
theorem C11_small_relative_move_one_report_witness :
    ((-127 : Int) ≤ -5 ∧ (-5 : Int) ≤ 127) ∧ ((-127 : Int) ≤ 127 ∧ (127 : Int) ≤ 127) ∧
    ((-5 : Int) ≠ 0 ∨ (127 : Int) ≠ 0) ∧
    freshRunning.m_running = true ∧ freshRunning.writesSucceed ∧
    ((∃ fuel, mouseRelativeMove fuel freshRunning (-5) 127
      = some (true, { freshRunning with written := freshRunning.written ++
          [.input2 [0x01, freshRunning.m_mouseButtons, toU8 (-5), toU8 127, 0, 0]] })) ∧
    (∀ fuel r, mouseRelativeMove fuel freshRunning (-5) 127 = some r →
      r = (true, { freshRunning with written := freshRunning.written ++
        [.input2 [0x01, freshRunning.m_mouseButtons, toU8 (-5), toU8 127, 0, 0]] })) ∧
    fromU8 (toU8 (-5)) = -5 ∧ fromU8 (toU8 127) = 127) ∧
    ((∃ fuel, mouseRelativeMove fuel freshRunning 0 0 = some (true, freshRunning)) ∧
      (∀ fuel r, mouseRelativeMove fuel freshRunning 0 0 = some r →
        r = (true, freshRunning) ∧ r.2.written = freshRunning.written)) :=
  ⟨by decide, by decide, Or.inl (by decide), rfl, fun _ => le_refl _,
    (C11_small_relative_move_one_report freshRunning (-5) 127 (by decide) (by decide)
      rfl (fun _ => le_refl _)).1 (Or.inl (by decide)),
    (C11_small_relative_move_one_report freshRunning 0 0 (by decide) (by decide)
      rfl (fun _ => le_refl _)).2⟩

/-- The run behind the witness of C11: one report with the bytes 0xfb (-5) and
0x7f (127); and the move (0, 0) writes nothing. -/
theorem relative_move_small_runs :
    (mouseRelativeMove 2 freshRunning (-5) 127).map (fun r => (r.1, r.2.written))
      = some (true, [.input2 [1, 0, 0xfb, 0x7f, 0, 0]]) ∧
    (mouseRelativeMove 2 freshRunning 0 0).map (fun r => (r.1, r.2.written))
      = some (true, []) := by
  decide

/-! ## The wheel loop -/

/-- The step count of the code is the one the specification words. -/
theorem wheelStepsOf_eq_spec (d : Int) : wheelStepsOf d = wheelStepsSpec d := by
  unfold wheelStepsOf wheelStepsSpec
  by_cases h0 : d = 0
  · simp [h0]
  · simp only [ne_eq, h0, not_false_eq_true, if_true, if_false]
    by_cases hq : d.tdiv 120 = 0
    · simp only [hq, if_true]
      by_cases hp : d > 0
      · rw [if_pos hp, Int.sign_eq_one_of_pos hp]
      · rw [if_neg hp, Int.sign_eq_neg_one_of_neg (by omega)]
    · simp only [hq, if_false]

theorem mouseWheel_eq_loop (fuel : Nat) (s : UhidServer) (xDelta yDelta : Int)
    (hrun : s.m_running = true) :
    mouseWheel fuel s xDelta yDelta
      = sendWheelMotionLoop fuel s (wheelStepsOf yDelta) (wheelStepsOf xDelta) := by
  simp [mouseWheel, sendWheelMotion, hrun]

/-- More fuel does not change a result the wheel loop has reached. -/
theorem sendWheelMotionLoop_mono (f : Nat) : ∀ (s : UhidServer) (w p : Int)
    (r : Bool × UhidServer), sendWheelMotionLoop f s w p = some r →
    ∀ k, sendWheelMotionLoop (f + k) s w p = some r := by
  induction f with
  | zero => intro s w p r h; simp [sendWheelMotionLoop] at h
  | succ f ih =>
    intro s w p r h k
    have hk : f + 1 + k = (f + k) + 1 := by omega
    rw [hk]
    simp only [sendWheelMotionLoop] at h ⊢
    split at h
    · rename_i hc
      rw [if_pos hc]
      split at h
      · rename_i hb
        rw [if_pos hb]; exact h
      · rename_i hb
        rw [if_neg hb]; exact ih _ _ _ _ h k
    · rename_i hc
      rw [if_neg hc]; exact h

/-- Two runs of the wheel loop that both finish agree. -/
theorem sendWheelMotionLoop_det (f g : Nat) (s : UhidServer) (w p : Int)
    (r r' : Bool × UhidServer) (h : sendWheelMotionLoop f s w p = some r)
    (h' : sendWheelMotionLoop g s w p = some r') : r = r' := by
  have a := sendWheelMotionLoop_mono f s w p r h g
  have b := sendWheelMotionLoop_mono g s w p r' h' f
  rw [Nat.add_comm] at b
  rw [a] at b
  exact Option.some.inj b

/-- The mouse report of one wheel step. -/
theorem wheel_report_fields (b : Nat) (w p : Int) (hw : -127 ≤ w ∧ w ≤ 127)
    (hp : -127 ≤ p ∧ p ≤ 127) :
    (UhidEvent.input2 [0x01, b, toU8 0, toU8 0, toU8 w, toU8 p]).isMouseReport ∧
    (UhidEvent.input2 [0x01, b, toU8 0, toU8 0, toU8 w, toU8 p]).byte 2 = 0 ∧
    (UhidEvent.input2 [0x01, b, toU8 0, toU8 0, toU8 w, toU8 p]).byte 3 = 0 ∧
    (UhidEvent.input2 [0x01, b, toU8 0, toU8 0, toU8 w, toU8 p]).stepWheel = w ∧
    (UhidEvent.input2 [0x01, b, toU8 0, toU8 0, toU8 w, toU8 p]).stepPan = p ∧
    (UhidEvent.input2 [0x01, b, toU8 0, toU8 0, toU8 w, toU8 p]).byte 4 = toU8 w ∧
    (UhidEvent.input2 [0x01, b, toU8 0, toU8 0, toU8 w, toU8 p]).byte 5 = toU8 p := by
  refine ⟨trivial, ?_, ?_, ?_, ?_, rfl, rfl⟩
  · simp [UhidEvent.byte, toU8]
  · simp [UhidEvent.byte, toU8]
  · simp only [UhidEvent.stepWheel, UhidEvent.byte, List.getD_cons_succ, List.getD_cons_zero]
    exact fromU8_toU8 _ (by omega) (by omega)
  · simp only [UhidEvent.stepPan, UhidEvent.byte, List.getD_cons_succ, List.getD_cons_zero]
    exact fromU8_toU8 _ (by omega) (by omega)

/-- With enough fuel, a running session and successful writes, the wheel loop
ends with `true`, having appended one mouse report per step; the wheel and pan
steps add up to the step counts and each is within a signed byte. -/
theorem sendWheelMotionLoop_spec (f : Nat) : ∀ (s : UhidServer) (w p : Int),
    s.m_running = true → s.writesSucceed → w.natAbs + p.natAbs < f →
    ∃ evs : List UhidEvent,
      sendWheelMotionLoop f s w p = some (true, { s with written := s.written ++ evs }) ∧
      (evs.map UhidEvent.stepWheel).sum = w ∧ (evs.map UhidEvent.stepPan).sum = p ∧
      ∀ ev ∈ evs, ev.isMouseReport ∧ ev.byte 2 = 0 ∧ ev.byte 3 = 0 ∧
        -127 ≤ ev.stepWheel ∧ ev.stepWheel ≤ 127 ∧ -127 ≤ ev.stepPan ∧ ev.stepPan ≤ 127 ∧
        ev.byte 4 = toU8 ev.stepWheel ∧ ev.byte 5 = toU8 ev.stepPan := by
  induction f with
  | zero => intro s w p _ _ h; omega
  | succ f ih =>
    intro s w p hrun hw hf
    by_cases hc : w ≠ 0 ∨ p ≠ 0
    · obtain ⟨x1, x2, x3, x4⟩ := clamp_bounds w
      obtain ⟨y1, y2, y3, y4⟩ := clamp_bounds p
      have hlt : (w - max (-127) (min 127 w)).natAbs + (p - max (-127) (min 127 p)).natAbs < f := by
        rcases hc with h | h
        · have := x4 h; omega
        · have := y4 h; omega
      have hs := sendMouseReport_ok s 0 0 (toS8 (max (-127) (min 127 w)))
        (toS8 (max (-127) (min 127 p))) hrun hw
      rw [toS8_of_small _ (by omega) (by omega), toS8_of_small _ (by omega) (by omega)] at hs
      obtain ⟨evs, h1, h2, h3, h4⟩ := ih
        { s with written := s.written ++
          [.input2 [0x01, s.m_mouseButtons, toU8 0, toU8 0, toU8 (max (-127) (min 127 w)),
            toU8 (max (-127) (min 127 p))]] }
        (w - max (-127) (min 127 w)) (p - max (-127) (min 127 p)) hrun hw hlt
      obtain ⟨f1, f2, f3, f4, f5, f6, f7⟩ := wheel_report_fields s.m_mouseButtons
        (max (-127) (min 127 w)) (max (-127) (min 127 p)) ⟨x1, x2⟩ ⟨y1, y2⟩
      refine ⟨UhidEvent.input2 [0x01, s.m_mouseButtons, toU8 0, toU8 0,
        toU8 (max (-127) (min 127 w)), toU8 (max (-127) (min 127 p))] :: evs, ?_, ?_, ?_, ?_⟩
      · simp only [sendWheelMotionLoop]
        rw [if_pos hc, toS8_of_small _ (by omega) (by omega), toS8_of_small _ (by omega) (by omega),
          hs]
        simp only [Bool.not_true, Bool.false_eq_true, if_false]
        rw [h1]
        simp [List.append_assoc]
      · simp only [List.map_cons, List.sum_cons, h2, f4]; omega
      · simp only [List.map_cons, List.sum_cons, h3, f5]; omega
      · intro ev hev
        rcases List.mem_cons.mp hev with h | h
        · subst h
          refine ⟨f1, f2, f3, ?_, ?_, ?_, ?_, ?_, ?_⟩
          · rw [f4]; exact x1
          · rw [f4]; exact x2
          · rw [f5]; exact y1
          · rw [f5]; exact y2
          · rw [f4]; exact f6
          · rw [f5]; exact f7
        · exact h4 ev h
    · refine ⟨[], ?_, ?_, ?_, ?_⟩
      · simp only [sendWheelMotionLoop]
        rw [if_neg hc]; simp
      · simp; omega
      · simp; omega
      · simp

/-- Claim C12. On a running session with successful writes
`mouseWheel(xDelta, yDelta)` with signed 32-bit deltas returns (given enough
loop iterations, and with the same outcome whenever it returns) `true` after
appending mouse reports with zero x and y bytes whose wheel bytes add up to
`W(yDelta)` and whose pan bytes add up to `W(xDelta)`, each wheel and pan step
in [-127, 127]; `W` is the step count of the code, which is the one the
specification words: `W(0) = 0`, else `d / 120` truncated towards zero, or the
sign of `d` when that quotient is zero. -/
theorem C12_wheel_steps_sum (s : UhidServer) (xDelta yDelta : Int)
    (_hx : -2147483648 ≤ xDelta ∧ xDelta ≤ 2147483647)
    (_hy : -2147483648 ≤ yDelta ∧ yDelta ≤ 2147483647)
    (hrun : s.m_running = true) (hw : s.writesSucceed) :
    ∃ evs : List UhidEvent,
      (∃ fuel, mouseWheel fuel s xDelta yDelta
        = some (true, { s with written := s.written ++ evs })) ∧
      (∀ fuel r, mouseWheel fuel s xDelta yDelta = some r →
        r = (true, { s with written := s.written ++ evs })) ∧
      (evs.map UhidEvent.stepWheel).sum = wheelStepsSpec yDelta ∧
      (evs.map UhidEvent.stepPan).sum = wheelStepsSpec xDelta ∧
      ∀ ev ∈ evs, ev.isMouseReport ∧ ev.byte 2 = 0 ∧ ev.byte 3 = 0 ∧
        -127 ≤ ev.stepWheel ∧ ev.stepWheel ≤ 127 ∧ -127 ≤ ev.stepPan ∧ ev.stepPan ≤ 127 ∧
        ev.byte 4 = toU8 ev.stepWheel ∧ ev.byte 5 = toU8 ev.stepPan := by
  obtain ⟨evs, h1, h2, h3, h4⟩ := sendWheelMotionLoop_spec
    ((wheelStepsOf yDelta).natAbs + (wheelStepsOf xDelta).natAbs + 1) s
    (wheelStepsOf yDelta) (wheelStepsOf xDelta) hrun hw (by omega)
  refine ⟨evs, ⟨_, (mouseWheel_eq_loop _ s xDelta yDelta hrun).trans h1⟩, ?_,
    by rw [h2, wheelStepsOf_eq_spec], by rw [h3, wheelStepsOf_eq_spec], h4⟩
  intro fuel r hr
  rw [mouseWheel_eq_loop _ s xDelta yDelta hrun] at hr
  exact sendWheelMotionLoop_det _ _ s _ _ _ _ hr h1

/-- Witness of claim C12 at the deltas (0, 240) on a fresh running session. -/
theorem C12_wheel_steps_sum_witness :
    ((-2147483648 : Int) ≤ 0 ∧ (0 : Int) ≤ 2147483647) ∧
    ((-2147483648 : Int) ≤ 240 ∧ (240 : Int) ≤ 2147483647) ∧
    freshRunning.m_running = true ∧ freshRunning.writesSucceed ∧
    wheelStepsSpec 240 = 2 ∧
    ∃ evs : List UhidEvent,
      (∃ fuel, mouseWheel fuel freshRunning 0 240
        = some (true, { freshRunning with written := freshRunning.written ++ evs })) ∧
      (∀ fuel r, mouseWheel fuel freshRunning 0 240 = some r →
        r = (true, { freshRunning with written := freshRunning.written ++ evs })) ∧
      (evs.map UhidEvent.stepWheel).sum = wheelStepsSpec 240 ∧
      (evs.map UhidEvent.stepPan).sum = wheelStepsSpec 0 ∧
      ∀ ev ∈ evs, ev.isMouseReport ∧ ev.byte 2 = 0 ∧ ev.byte 3 = 0 ∧
        -127 ≤ ev.stepWheel ∧ ev.stepWheel ≤ 127 ∧ -127 ≤ ev.stepPan ∧ ev.stepPan ≤ 127 ∧
        ev.byte 4 = toU8 ev.stepWheel ∧ ev.byte 5 = toU8 ev.stepPan :=
  ⟨by decide, by decide, rfl, fun _ => le_refl _, by decide,
    C12_wheel_steps_sum freshRunning 0 240 (by decide) (by decide) rfl (fun _ => le_refl _)⟩

/-- The runs behind the witness of C12: `mouseWheel(0, 240)` writes one report
with the wheel byte 2; a delta of 120 * 300 takes three reports (127, 127,
46); a pan delta of -50 is one step of -1 (byte 0xff). -/
theorem mouseWheel_runs :
    (mouseWheel 2 freshRunning 0 240).map (fun r => (r.1, r.2.written))
      = some (true, [.input2 [1, 0, 0, 0, 2, 0]]) ∧
    (mouseWheel 4 freshRunning 0 36000).map (fun r => (r.1, r.2.written))
      = some (true, [.input2 [1, 0, 0, 0, 127, 0], .input2 [1, 0, 0, 0, 127, 0],
          .input2 [1, 0, 0, 0, 46, 0]]) ∧
    (mouseWheel 2 freshRunning (-50) 0).map (fun r => (r.1, r.2.written))
      = some (true, [.input2 [1, 0, 0, 0, 0, 0xff]]) := by
  decide

/-! ## Small wheel deltas -/

theorem sendWheelMotionLoop_zero (fuel : Nat) (s : UhidServer) :
    sendWheelMotionLoop (fuel + 1) s 0 0 = some (true, s) := by
  simp [sendWheelMotionLoop]

/-- A non-zero step count within a signed byte on both fields is one report. -/
theorem sendWheelMotionLoop_small (fuel : Nat) (s : UhidServer) (w p : Int)
    (hwb : -127 ≤ w ∧ w ≤ 127) (hpb : -127 ≤ p ∧ p ≤ 127) (hne : w ≠ 0 ∨ p ≠ 0)
    (hrun : s.m_running = true) (hw : s.writesSucceed) :
    sendWheelMotionLoop (fuel + 2) s w p = some (true, { s with written := s.written ++
      [.input2 [0x01, s.m_mouseButtons, 0, 0, toU8 w, toU8 p]] }) := by
  have ex : max (-127) (min 127 w) = w := by omega
  have ey : max (-127) (min 127 p) = p := by omega
  have hs := sendMouseReport_ok s 0 0 w p hrun hw
  rw [show fuel + 2 = (fuel + 1) + 1 from rfl, sendWheelMotionLoop]
  simp only []
  rw [if_pos hne, ex, ey, toS8_of_small w (by omega) (by omega),
    toS8_of_small p (by omega) (by omega), hs]
  simp only [Bool.not_true, Bool.false_eq_true, if_false, sub_self]
  rw [sendWheelMotionLoop_zero]
  rfl

/-- A non-zero delta of less than one notch is one step in its direction. -/
theorem wheelStepsOf_small (d : Int) (hne : d ≠ 0) (habs : -120 < d ∧ d < 120) :
    wheelStepsOf d = Int.sign d ∧ (0 < d → Int.sign d = 1) ∧ (d < 0 → Int.sign d = -1) := by
  have hq : d.tdiv 120 = 0 := by
    by_cases hp : 0 ≤ d
    · exact Int.tdiv_eq_zero_of_lt hp habs.2
    · have h1 : (-d).tdiv 120 = 0 := Int.tdiv_eq_zero_of_lt (by omega) (by omega)
      rw [Int.neg_tdiv] at h1
      omega
  refine ⟨?_, fun h => Int.sign_eq_one_of_pos h, fun h => Int.sign_eq_neg_one_of_neg h⟩
  rw [wheelStepsOf_eq_spec]
  simp [wheelStepsSpec, hne, hq]

/-- Claim C13. For `yDelta != 0` with `|yDelta| < 120`, on a running session
with successful writes `mouseWheel(0, yDelta)` writes exactly one mouse
report; its wheel byte is the sign of `yDelta` (+1 or -1) as a signed byte,
and its x, y and pan bytes are zero. -/
theorem C13_small_wheel_one_report (s : UhidServer) (yDelta : Int)
    (hne : yDelta ≠ 0) (habs : -120 < yDelta ∧ yDelta < 120)
    (hrun : s.m_running = true) (hw : s.writesSucceed) :
    (∃ fuel, mouseWheel fuel s 0 yDelta = some (true, { s with written := s.written ++
      [.input2 [0x01, s.m_mouseButtons, 0, 0, toU8 (Int.sign yDelta), 0]] })) ∧
    (∀ fuel r, mouseWheel fuel s 0 yDelta = some r →
      r = (true, { s with written := s.written ++
        [.input2 [0x01, s.m_mouseButtons, 0, 0, toU8 (Int.sign yDelta), 0]] })) ∧
    fromU8 (toU8 (Int.sign yDelta)) = Int.sign yDelta ∧
    (0 < yDelta → Int.sign yDelta = 1) ∧ (yDelta < 0 → Int.sign yDelta = -1) := by
  obtain ⟨hws, hpos, hneg⟩ := wheelStepsOf_small yDelta hne habs
  have hb : -127 ≤ Int.sign yDelta ∧ Int.sign yDelta ≤ 127 := by
    by_cases hp : 0 < yDelta
    · rw [hpos hp]; decide
    · rw [hneg (by omega)]; decide
  have hz : wheelStepsOf 0 = 0 := by decide
  have hnz : Int.sign yDelta ≠ 0 ∨ (0 : Int) ≠ 0 := by
    by_cases hp : 0 < yDelta
    · rw [hpos hp]; exact Or.inl (by decide)
    · rw [hneg (by omega)]; exact Or.inl (by decide)
  have h := sendWheelMotionLoop_small 0 s (Int.sign yDelta) 0 hb (by decide) hnz hrun hw
  have hl : ∀ fuel, mouseWheel fuel s 0 yDelta
      = sendWheelMotionLoop fuel s (Int.sign yDelta) 0 := by
    intro fuel
    rw [mouseWheel_eq_loop fuel s 0 yDelta hrun, hws, hz]
  refine ⟨⟨2, (hl 2).trans h⟩, ?_, fromU8_toU8 _ (by omega) (by omega), hpos, hneg⟩
  intro fuel r hr
  rw [hl] at hr
  exact sendWheelMotionLoop_det _ _ s _ _ _ _ hr h

/-- Witness of claim C13 at the delta -119. -/
theorem C13_small_wheel_one_report_witness :
    (-119 : Int) ≠ 0 ∧ ((-120 : Int) < -119 ∧ (-119 : Int) < 120) ∧
    freshRunning.m_running = true ∧ freshRunning.writesSucceed ∧
    (∃ fuel, mouseWheel fuel freshRunning 0 (-119)
      = some (true, { freshRunning with written := freshRunning.written ++
          [.input2 [0x01, freshRunning.m_mouseButtons, 0, 0, toU8 (Int.sign (-119)), 0]] })) ∧
    (∀ fuel r, mouseWheel fuel freshRunning 0 (-119) = some r →
      r = (true, { freshRunning with written := freshRunning.written ++
        [.input2 [0x01, freshRunning.m_mouseButtons, 0, 0, toU8 (Int.sign (-119)), 0]] })) ∧
    fromU8 (toU8 (Int.sign (-119))) = Int.sign (-119) ∧
    ((0 : Int) < -119 → Int.sign (-119) = 1) ∧ ((-119 : Int) < 0 → Int.sign (-119) = -1) :=
  ⟨by decide, by decide, rfl, fun _ => le_refl _,
    C13_small_wheel_one_report freshRunning (-119) (by decide) (by decide) rfl
      (fun _ => le_refl _)⟩

/-- The runs behind the witness of C13: deltas of -119 and of 1 each write one
report, with the wheel bytes 0xff (-1) and 0x01. -/
theorem mouseWheel_small_runs :
    (mouseWheel 2 freshRunning 0 (-119)).map (fun r => (r.1, r.2.written))
      = some (true, [.input2 [1, 0, 0, 0, 0xff, 0]]) ∧
    (mouseWheel 2 freshRunning 0 1).map (fun r => (r.1, r.2.written))
      = some (true, [.input2 [1, 0, 0, 0, 1, 0]]) := by
  decide

/-! ## Enter and leave -/

/-- The state after `clearInputState` on a running session: every input field
reset, and a neutral keyboard report followed by a neutral mouse report
written. -/
theorem clearInputState_running (s : UhidServer) (hrun : s.m_running = true) :
    clearInputState s = { s with
      m_hasLastAbsolute := false, m_lastAbsX := 0, m_lastAbsY := 0,
      m_mouseButtons := 0, m_keyboardModifiers := 0, m_keyboardKeys := fun _ => 0,
      written := s.written ++
        [.input2 [0x02, 0, 0, 0, 0, 0, 0, 0, 0], .input2 [0x01, 0, 0, 0, 0, 0]] } := by
  unfold clearInputState
  simp only [hrun, if_true]
  rw [sendMouseReport_running, sendKeyboardReport_running, keyboardReport_eq]
  · simp only [List.append_assoc, List.singleton_append]
    rfl
  · rfl
  · rw [sendKeyboardReport_running]
    rfl

/-- The state after `clearInputState` on a session that is not running: the
input fields reset, nothing written. -/
theorem clearInputState_not_running (s : UhidServer) (hrun : s.m_running = false) :
    clearInputState s = { s with
      m_hasLastAbsolute := false, m_lastAbsX := 0, m_lastAbsY := 0,
      m_mouseButtons := 0, m_keyboardModifiers := 0, m_keyboardKeys := fun _ => 0 } := by
  unfold clearInputState
  simp [hrun]

/-- The first absolute sample after a reset is stored and writes nothing. -/
theorem mouseMoveAbsolute_first (fuel : Nat) (s : UhidServer) (x y : Int)
    (hrun : s.m_running = true) (hfirst : s.m_hasLastAbsolute = false) :
    mouseMoveAbsolute fuel s x y
      = some (true, { s with m_lastAbsX := x, m_lastAbsY := y, m_hasLastAbsolute := true }) := by
  simp [mouseMoveAbsolute, hrun, hfirst]

/-- A later absolute sample is sent as the delta to the stored point. -/
theorem mouseMoveAbsolute_later (fuel : Nat) (s : UhidServer) (x y : Int)
    (hrun : s.m_running = true) (hlater : s.m_hasLastAbsolute = true) :
    mouseMoveAbsolute fuel s x y
      = sendRelativeMotionLoop fuel { s with m_lastAbsX := x, m_lastAbsY := y }
          (wrap32 (x - s.m_lastAbsX)) (wrap32 (y - s.m_lastAbsY)) := by
  simp [mouseMoveAbsolute, sendRelativeMotion, hrun, hlater]

/-- The state after the backend's `enter(x, y)` on a running session. -/
theorem enter_running (fuel : Nat) (s : UhidServer) (x y : Int) (hrun : s.m_running = true) :
    UhidInputBackend.enter fuel s x y = some { s with
      m_hasLastAbsolute := true, m_lastAbsX := x, m_lastAbsY := y,
      m_mouseButtons := 0, m_keyboardModifiers := 0, m_keyboardKeys := fun _ => 0,
      written := s.written ++
        [.input2 [0x02, 0, 0, 0, 0, 0, 0, 0, 0], .input2 [0x01, 0, 0, 0, 0, 0]] } := by
  unfold UhidInputBackend.enter
  simp only []
  rw [clearInputState_running s hrun, mouseMoveAbsolute_first]
  · rfl
  · exact hrun
  · rfl

/-- Claim C14. On a running session the backend's `enter(x, y)`, and likewise
`leave()`, leaves the button byte, the modifier byte and all six slots zero
and writes exactly two reports, in this order: the neutral keyboard report
`02 00 00 00 00 00 00 00 00` and the neutral mouse report `01 00 00 00 00 00`;
`enter` returns for every bound on its loop iterations. -/
theorem C14_enter_leave_reset (s : UhidServer) (x y : Int) (hrun : s.m_running = true) :
    (∀ fuel, ∃ s1, UhidInputBackend.enter fuel s x y = some s1 ∧
      s1.m_mouseButtons = 0 ∧ s1.m_keyboardModifiers = 0 ∧ (∀ i, s1.m_keyboardKeys i = 0) ∧
      s1.written = s.written ++
        [.input2 [0x02, 0, 0, 0, 0, 0, 0, 0, 0], .input2 [0x01, 0, 0, 0, 0, 0]]) ∧
    (UhidInputBackend.leave s).m_mouseButtons = 0 ∧
    (UhidInputBackend.leave s).m_keyboardModifiers = 0 ∧
    (∀ i, (UhidInputBackend.leave s).m_keyboardKeys i = 0) ∧
    (UhidInputBackend.leave s).written = s.written ++
      [.input2 [0x02, 0, 0, 0, 0, 0, 0, 0, 0], .input2 [0x01, 0, 0, 0, 0, 0]] := by
  refine ⟨fun fuel => ⟨_, enter_running fuel s x y hrun, rfl, rfl, fun _ => rfl, rfl⟩, ?_⟩
  unfold UhidInputBackend.leave
  rw [clearInputState_running s hrun]
  exact ⟨rfl, rfl, fun _ => rfl, rfl⟩

/-- Witness of claim C14: `enter(100, 200)` and `leave()` while six keys are
held. -/
theorem C14_enter_leave_reset_witness :
    sixHeld.m_running = true ∧
    (∀ fuel, ∃ s1, UhidInputBackend.enter fuel sixHeld 100 200 = some s1 ∧
      s1.m_mouseButtons = 0 ∧ s1.m_keyboardModifiers = 0 ∧ (∀ i, s1.m_keyboardKeys i = 0) ∧
      s1.written = sixHeld.written ++
        [.input2 [0x02, 0, 0, 0, 0, 0, 0, 0, 0], .input2 [0x01, 0, 0, 0, 0, 0]]) ∧
    (UhidInputBackend.leave sixHeld).m_mouseButtons = 0 ∧
    (UhidInputBackend.leave sixHeld).m_keyboardModifiers = 0 ∧
    (∀ i, (UhidInputBackend.leave sixHeld).m_keyboardKeys i = 0) ∧
    (UhidInputBackend.leave sixHeld).written = sixHeld.written ++
      [.input2 [0x02, 0, 0, 0, 0, 0, 0, 0, 0], .input2 [0x01, 0, 0, 0, 0, 0]] :=
  ⟨rfl, C14_enter_leave_reset sixHeld 100 200 rfl⟩

/-! ## The baseline of absolute moves -/

/-- Claim C15, as stated, fails: `enter(0, 0)` itself stores the baseline
(0, 0), so the next `mouseMove(10, 10)` writes the mouse report
`01 00 0a 0a 00 00`. -/
theorem C15_counterexample :
    ¬ ∀ (s : UhidServer) (x y x' y' : Int) (fuel : Nat), s.m_running = true →
      ∀ s1 s2 : UhidServer, UhidInputBackend.enter fuel s x y = some s1 →
        UhidInputBackend.mouseMove fuel s1 x' y' = some s2 → s2.written = s1.written := by
  intro h
  have h1 := h freshRunning 0 0 10 10 2 rfl _
    { freshRunning with
      m_hasLastAbsolute := true, m_lastAbsX := 10, m_lastAbsY := 10,
      written := [.input2 [0x02, 0, 0, 0, 0, 0, 0, 0, 0], .input2 [0x01, 0, 0, 0, 0, 0],
        .input2 [0x01, 0, 10, 10, 0, 0]] }
    (enter_running 2 freshRunning 0 0 rfl) (by rfl)
  revert h1
  decide

/-- Claim C15, amended. On a running session the absolute move inside
`enter(x, y)` writes no mouse motion: it only stores the baseline `(x, y)`,
and `enter` writes the two neutral reports alone. A following
`mouseMove(x', y')` is sent as the delta from `(x, y)`, so it writes nothing
when `(x', y') = (x, y)`. After `leave()` the first `mouseMove` writes nothing
for any coordinates. -/
theorem C15_enter_captures_baseline (s : UhidServer) (x y : Int) (hrun : s.m_running = true) :
    (∀ fuel, ∃ s1, UhidInputBackend.enter fuel s x y = some s1 ∧
      s1.m_hasLastAbsolute = true ∧ s1.m_lastAbsX = x ∧ s1.m_lastAbsY = y ∧
      s1.written = s.written ++
        [.input2 [0x02, 0, 0, 0, 0, 0, 0, 0, 0], .input2 [0x01, 0, 0, 0, 0, 0]] ∧
      (∀ fuel1 x' y', UhidInputBackend.mouseMove fuel1 s1 x' y'
        = (sendRelativeMotionLoop fuel1 { s1 with m_lastAbsX := x', m_lastAbsY := y' }
            (wrap32 (x' - x)) (wrap32 (y' - y))).map (fun r => r.2)) ∧
      (∀ fuel1, UhidInputBackend.mouseMove (fuel1 + 1) s1 x y = some s1)) ∧
    (∀ fuel x' y', ∃ s2, UhidInputBackend.mouseMove fuel (UhidInputBackend.leave s) x' y'
        = some s2 ∧ s2.written = (UhidInputBackend.leave s).written ∧
      s2.m_hasLastAbsolute = true ∧ s2.m_lastAbsX = x' ∧ s2.m_lastAbsY = y') := by
  constructor
  · intro fuel
    refine ⟨_, enter_running fuel s x y hrun, rfl, rfl, rfl, rfl, ?_, ?_⟩
    · intro fuel1 x' y'
      unfold UhidInputBackend.mouseMove
      rw [mouseMoveAbsolute_later]
      · exact hrun
      · rfl
    · intro fuel1
      unfold UhidInputBackend.mouseMove
      rw [mouseMoveAbsolute_later]
      · simp only [sub_self]
        rw [show wrap32 0 = 0 from by decide, sendRelativeMotionLoop_zero]
        rfl
      · exact hrun
      · rfl
  · intro fuel x' y'
    unfold UhidInputBackend.mouseMove UhidInputBackend.leave
    rw [clearInputState_running s hrun, mouseMoveAbsolute_first]
    · exact ⟨_, rfl, rfl, rfl, rfl, rfl⟩
    · exact hrun
    · rfl

/-- Witness of the amended claim C15 on the fresh running session. -/
theorem C15_enter_captures_baseline_witness :
    freshRunning.m_running = true ∧
    (∀ fuel, ∃ s1, UhidInputBackend.enter fuel freshRunning 3 4 = some s1 ∧
      s1.m_hasLastAbsolute = true ∧ s1.m_lastAbsX = 3 ∧ s1.m_lastAbsY = 4 ∧
      s1.written = freshRunning.written ++
        [.input2 [0x02, 0, 0, 0, 0, 0, 0, 0, 0], .input2 [0x01, 0, 0, 0, 0, 0]] ∧
      (∀ fuel1 x' y', UhidInputBackend.mouseMove fuel1 s1 x' y'
        = (sendRelativeMotionLoop fuel1 { s1 with m_lastAbsX := x', m_lastAbsY := y' }
            (wrap32 (x' - 3)) (wrap32 (y' - 4))).map (fun r => r.2)) ∧
      (∀ fuel1, UhidInputBackend.mouseMove (fuel1 + 1) s1 3 4 = some s1)) ∧
    (∀ fuel x' y', ∃ s2,
      UhidInputBackend.mouseMove fuel (UhidInputBackend.leave freshRunning) x' y' = some s2 ∧
      s2.written = (UhidInputBackend.leave freshRunning).written ∧
      s2.m_hasLastAbsolute = true ∧ s2.m_lastAbsX = x' ∧ s2.m_lastAbsY = y') :=
  ⟨rfl, C15_enter_captures_baseline freshRunning 3 4 rfl⟩

/-- The runs behind C15 on the fresh running session: after `enter(0, 0)` a
move to (10, 10) writes a third report with the steps (10, 10); a move to
(0, 0) writes nothing; after `leave()` a move to (10, 10) writes nothing. -/
theorem enter_then_mouseMove_runs :
    ((UhidInputBackend.enter 2 freshRunning 0 0).bind
        (fun s1 => UhidInputBackend.mouseMove 2 s1 10 10)).map (fun s2 => s2.written)
      = some [.input2 [2, 0, 0, 0, 0, 0, 0, 0, 0], .input2 [1, 0, 0, 0, 0, 0],
          .input2 [1, 0, 10, 10, 0, 0]] ∧
    ((UhidInputBackend.enter 2 freshRunning 0 0).bind
        (fun s1 => UhidInputBackend.mouseMove 2 s1 0 0)).map (fun s2 => s2.written)
      = some [.input2 [2, 0, 0, 0, 0, 0, 0, 0, 0], .input2 [1, 0, 0, 0, 0, 0]] ∧
    (UhidInputBackend.mouseMove 2 (UhidInputBackend.leave freshRunning) 10 10).map
        (fun s2 => s2.written)
      = some [.input2 [2, 0, 0, 0, 0, 0, 0, 0, 0], .input2 [1, 0, 0, 0, 0, 0]] := by
  decide

/-! ## Operations on a session that is not running -/

/-- Claim C16. When the session is not running, each of `keyDown`, `keyUp`,
`keyRepeat`, `mouseDown`, `mouseUp`, `mouseMoveAbsolute`, `mouseRelativeMove`
and `mouseWheel`, for all arguments, returns `false` and leaves the whole
state as it was: no record written, slots, modifier byte, button byte and the
absolute baseline with its flag unchanged. The three operations with a loop
return at once, whatever the bound on their iterations. -/
theorem C16_not_running_no_effect (K : KeyTypes) (s : UhidServer)
    (hrun : s.m_running = false) :
    (∀ id mask, keyDown K s id mask = (false, s)) ∧
    (∀ id mask, keyUp K s id mask = (false, s)) ∧
    (∀ id mask count, keyRepeat K s id mask count = (false, s)) ∧
    (∀ id, mouseDown K s id = (false, s)) ∧
    (∀ id, mouseUp K s id = (false, s)) ∧
    (∀ fuel x y, mouseMoveAbsolute fuel s x y = some (false, s)) ∧
    (∀ fuel dx dy, mouseRelativeMove fuel s dx dy = some (false, s)) ∧
    (∀ fuel xDelta yDelta, mouseWheel fuel s xDelta yDelta = some (false, s)) := by
  refine ⟨?_, ?_, ?_, ?_, ?_, ?_, ?_, ?_⟩
  · intro id mask; exact keyDown_not_running K s id mask hrun
  · intro id mask; exact keyUp_not_running K s id mask hrun
  · intro id mask count; simp [keyRepeat, hrun]
  · intro id; simp [mouseDown, hrun]
  · intro id; simp [mouseUp, hrun]
  · intro fuel x y; simp [mouseMoveAbsolute, hrun]
  · intro fuel dx dy; simp [mouseRelativeMove, hrun]
  · intro fuel xDelta yDelta; simp [mouseWheel, sendWheelMotion, hrun]

/-- Witness of claim C16 on a stopped session that still holds input state. -/
theorem C16_not_running_no_effect_witness :
    stoppedSession.m_running = false ∧
    keyDown barrierKeyTypes stoppedSession 0x62 1 = (false, stoppedSession) ∧
    keyRepeat barrierKeyTypes stoppedSession 0x62 1 3 = (false, stoppedSession) ∧
    mouseUp barrierKeyTypes stoppedSession 1 = (false, stoppedSession) ∧
    mouseMoveAbsolute 0 stoppedSession 100 200 = some (false, stoppedSession) ∧
    mouseWheel 0 stoppedSession 0 240 = some (false, stoppedSession) :=
  ⟨rfl,
    (C16_not_running_no_effect barrierKeyTypes stoppedSession rfl).1 0x62 1,
    (C16_not_running_no_effect barrierKeyTypes stoppedSession rfl).2.2.1 0x62 1 3,
    (C16_not_running_no_effect barrierKeyTypes stoppedSession rfl).2.2.2.2.1 1,
    (C16_not_running_no_effect barrierKeyTypes stoppedSession rfl).2.2.2.2.2.1 0 100 200,
    (C16_not_running_no_effect barrierKeyTypes stoppedSession rfl).2.2.2.2.2.2.2 0 0 240⟩

/-! ## Failing writes -/

/-- The result of `sendKeyboardReport` on a running session: one record
written, `true` exactly when `write` returned a non-negative value. -/
theorem sendKeyboardReport_result (s : UhidServer) (hrun : s.m_running = true) :
    sendKeyboardReport s = (decide (0 ≤ s.writeRet s.written.length),
      { s with written := s.written ++ [.input2 (keyboardReport s)] }) := by
  unfold sendKeyboardReport uhid_write
  simp only [hrun, Bool.not_true, Bool.false_eq_true, if_false]
  by_cases h : s.writeRet s.written.length < 0
  · simp [h, not_le.mpr h]
  · simp [h, not_lt.mp h]

/-- The result of `sendMouseReport` on a running session: one record written,
`true` exactly when `write` returned a non-negative value. -/
theorem sendMouseReport_result (s : UhidServer) (dx dy wheel pan : Int)
    (hrun : s.m_running = true) :
    sendMouseReport s dx dy wheel pan = (decide (0 ≤ s.writeRet s.written.length),
      { s with written := s.written ++
        [.input2 [0x01, s.m_mouseButtons, toU8 dx, toU8 dy, toU8 wheel, toU8 pan]] }) := by
  unfold sendMouseReport uhid_write
  simp only [hrun, Bool.not_true, Bool.false_eq_true, if_false]
  by_cases h : s.writeRet s.written.length < 0
  · simp [h, not_le.mpr h]
  · simp [h, not_lt.mp h]

/-- A failed write within an operation that wrote nothing is impossible. -/
theorem failedWrite_same (s t : UhidServer) (h : t.written = s.written) : ¬ failedWrite s t := by
  rintro ⟨n, h1, h2, _⟩
  rw [h] at h2
  omega

/-- A failed write within an operation that wrote one record is the failure
of that write. -/
theorem failedWrite_one (s t : UhidServer) (ev : UhidEvent)
    (h : t.written = s.written ++ [ev]) (hf : failedWrite s t) :
    s.writeRet s.written.length < 0 := by
  obtain ⟨n, h1, h2, h3⟩ := hf
  rw [h, List.length_append, List.length_singleton] at h2
  have : n = s.written.length := by omega
  rw [this] at h3
  exact h3

theorem sendKeyboardReport_failed (s t : UhidServer) (hrun : t.m_running = true)
    (hw : t.written = s.written) (hr : t.writeRet = s.writeRet)
    (hf : failedWrite s (sendKeyboardReport t).2) :
    (sendKeyboardReport t).1 = false ∧ (sendKeyboardReport t).2.m_running = true := by
  rw [sendKeyboardReport_result t hrun] at hf ⊢
  have h := failedWrite_one s _ (.input2 (keyboardReport t)) (by simp [hw]) hf
  refine ⟨?_, hrun⟩
  simp only [hr, hw]
  exact decide_eq_false (not_le.mpr h)

theorem sendMouseReport_failed (s t : UhidServer) (dx dy wheel pan : Int)
    (hrun : t.m_running = true) (hw : t.written = s.written) (hr : t.writeRet = s.writeRet)
    (hf : failedWrite s (sendMouseReport t dx dy wheel pan).2) :
    (sendMouseReport t dx dy wheel pan).1 = false ∧
    (sendMouseReport t dx dy wheel pan).2.m_running = true := by
  rw [sendMouseReport_result t dx dy wheel pan hrun] at hf ⊢
  have h := failedWrite_one s _
    (.input2 [0x01, t.m_mouseButtons, toU8 dx, toU8 dy, toU8 wheel, toU8 pan]) (by simp [hw]) hf
  refine ⟨?_, hrun⟩
  simp only [hr, hw]
  exact decide_eq_false (not_le.mpr h)

/-- A failed write makes `keyDown` and `keyUp` return `false`; the session
stays running. -/
theorem keyDown_keyUp_failed (K : KeyTypes) (s : UhidServer) (id mask : Nat)
    (hrun : s.m_running = true) :
    (failedWrite s (keyDown K s id mask).2 →
      (keyDown K s id mask).1 = false ∧ (keyDown K s id mask).2.m_running = true) ∧
    (failedWrite s (keyUp K s id mask).2 →
      (keyUp K s id mask).1 = false ∧ (keyUp K s id mask).2.m_running = true) := by
  rw [keyDown_running K s id mask hrun, keyUp_running K s id mask hrun]
  constructor
  · split
    · exact sendKeyboardReport_failed s _ hrun rfl rfl
    · split
      · intro hf; exact absurd hf (failedWrite_same _ _ rfl)
      · exact sendKeyboardReport_failed s _ hrun rfl rfl
  · split
    · exact sendKeyboardReport_failed s _ hrun rfl rfl
    · split
      · intro hf; exact absurd hf (failedWrite_same _ _ rfl)
      · exact sendKeyboardReport_failed s _ hrun rfl rfl

/-- A failed write makes `mouseDown` and `mouseUp` return `false`; the session
stays running. -/
theorem mouseDown_mouseUp_failed (K : KeyTypes) (s : UhidServer) (id : Nat)
    (hrun : s.m_running = true) :
    (failedWrite s (mouseDown K s id).2 →
      (mouseDown K s id).1 = false ∧ (mouseDown K s id).2.m_running = true) ∧
    (failedWrite s (mouseUp K s id).2 →
      (mouseUp K s id).1 = false ∧ (mouseUp K s id).2.m_running = true) := by
  unfold mouseDown mouseUp updateMouseButtons
  simp only [hrun, Bool.not_true, Bool.false_eq_true, if_false, if_true]
  constructor
  · split
    · intro hf; exact absurd hf (failedWrite_same _ _ rfl)
    · exact sendMouseReport_failed s _ 0 0 0 0 rfl rfl rfl
  · split
    · intro hf; exact absurd hf (failedWrite_same _ _ rfl)
    · exact sendMouseReport_failed s _ 0 0 0 0 rfl rfl rfl

/-- A failed write makes the loop of `sendRelativeMotion` return `false`; the session
stays running. -/
theorem sendRelativeMotionLoop_failed (f : Nat) : ∀ (t : UhidServer) (dx dy : Int)
    (r : Bool × UhidServer), t.m_running = true → sendRelativeMotionLoop f t dx dy = some r →
    r.2.m_running = true ∧ r.2.writeRet = t.writeRet ∧ (failedWrite t r.2 → r.1 = false) := by
  induction f with
  | zero => intro t dx dy r _ h; simp [sendRelativeMotionLoop] at h
  | succ f ih =>
    intro t dx dy r hrun h
    rw [sendRelativeMotionLoop] at h
    simp only [] at h
    split at h
    · rw [sendMouseReport_result t _ _ _ _ hrun] at h
      simp only [] at h
      by_cases hret : 0 ≤ t.writeRet t.written.length
      · rw [decide_eq_true hret] at h
        simp only [Bool.not_true, Bool.false_eq_true, if_false] at h
        obtain ⟨h1, h2, h3⟩ := ih _ _ _ r (by exact hrun) h
        refine ⟨h1, h2, ?_⟩
        rintro ⟨n, n1, n2, n3⟩
        apply h3
        refine ⟨n, ?_, n2, n3⟩
        have hne : n ≠ t.written.length := by
          intro e; rw [e] at n3; omega
        simp only [List.length_append, List.length_singleton]
        omega
      · rw [decide_eq_false hret] at h
        simp only [Bool.not_false, if_true] at h
        have e := Option.some.inj h
        rw [← e]
        exact ⟨hrun, rfl, fun _ => rfl⟩
    · have e := Option.some.inj h
      rw [← e]
      exact ⟨hrun, rfl, fun hf => absurd hf (failedWrite_same _ _ rfl)⟩

/-- A failed write makes the loop of `sendWheelMotion` return `false`; the session
stays running. -/
theorem sendWheelMotionLoop_failed (f : Nat) : ∀ (t : UhidServer) (w p : Int)
    (r : Bool × UhidServer), t.m_running = true → sendWheelMotionLoop f t w p = some r →
    r.2.m_running = true ∧ r.2.writeRet = t.writeRet ∧ (failedWrite t r.2 → r.1 = false) := by
  induction f with
  | zero => intro t w p r _ h; simp [sendWheelMotionLoop] at h
  | succ f ih =>
    intro t w p r hrun h
    rw [sendWheelMotionLoop] at h
    simp only [] at h
    split at h
    · rw [sendMouseReport_result t _ _ _ _ hrun] at h
      simp only [] at h
      by_cases hret : 0 ≤ t.writeRet t.written.length
      · rw [decide_eq_true hret] at h
        simp only [Bool.not_true, Bool.false_eq_true, if_false] at h
        obtain ⟨h1, h2, h3⟩ := ih _ _ _ r (by exact hrun) h
        refine ⟨h1, h2, ?_⟩
        rintro ⟨n, n1, n2, n3⟩
        apply h3
        refine ⟨n, ?_, n2, n3⟩
        have hne : n ≠ t.written.length := by
          intro e; rw [e] at n3; omega
        simp only [List.length_append, List.length_singleton]
        omega
      · rw [decide_eq_false hret] at h
        simp only [Bool.not_false, if_true] at h
        have e := Option.some.inj h
        rw [← e]
        exact ⟨hrun, rfl, fun _ => rfl⟩
    · have e := Option.some.inj h
      rw [← e]
      exact ⟨hrun, rfl, fun hf => absurd hf (failedWrite_same _ _ rfl)⟩

/-- A failed write makes `mouseRelativeMove`, `mouseMoveAbsolute` and
`mouseWheel` return `false`; the session stays running. -/
theorem mouse_motion_failed (s : UhidServer) (hrun : s.m_running = true) (fuel : Nat)
    (a b : Int) (r : Bool × UhidServer) :
    (mouseRelativeMove fuel s a b = some r → failedWrite s r.2 →
      r.1 = false ∧ r.2.m_running = true) ∧
    (mouseMoveAbsolute fuel s a b = some r → failedWrite s r.2 →
      r.1 = false ∧ r.2.m_running = true) ∧
    (mouseWheel fuel s a b = some r → failedWrite s r.2 →
      r.1 = false ∧ r.2.m_running = true) := by
  refine ⟨?_, ?_, ?_⟩
  · intro h hf
    rw [mouseRelativeMove_eq_loop _ _ _ _ hrun] at h
    obtain ⟨h1, _, h3⟩ := sendRelativeMotionLoop_failed fuel s a b r hrun h
    exact ⟨h3 hf, h1⟩
  · intro h hf
    cases hl : s.m_hasLastAbsolute
    · rw [mouseMoveAbsolute_first fuel s a b hrun hl] at h
      have e := Option.some.inj h
      rw [← e] at hf
      exact absurd hf (failedWrite_same _ _ rfl)
    · rw [mouseMoveAbsolute_later fuel s a b hrun hl] at h
      obtain ⟨h1, _, h3⟩ := sendRelativeMotionLoop_failed fuel _ _ _ r (by exact hrun) h
      exact ⟨h3 hf, h1⟩
  · intro h hf
    rw [mouseWheel_eq_loop _ _ _ _ hrun] at h
    obtain ⟨h1, _, h3⟩ := sendWheelMotionLoop_failed fuel s _ _ r hrun h
    exact ⟨h3 hf, h1⟩

/-- On a running session with a positive count `keyRepeat` returns `true`,
whatever its writes returned. -/
theorem keyRepeat_returns_true (K : KeyTypes) (s : UhidServer) (id mask : Nat) (count : Int)
    (hrun : s.m_running = true) (hc : 0 < count) : (keyRepeat K s id mask count).1 = true := by
  unfold keyRepeat
  rw [if_neg]
  · simp only []
    split <;> rfl
  · rintro (h | h)
    · simp [hrun] at h
    · omega

/-- Claim C17 at its failing input: on a running session whose writes all
return -1, `keyRepeat('a', 0, 1)` hands two keyboard reports to `write`, both
writes fail, and it returns `true`; `keyDown('a', 0)` on the same session
returns `false`. -/
theorem C17_keyRepeat_ignores_write_failure :
    failingSession.m_running = true ∧ (∀ n, failingSession.writeRet n = -1) ∧
    (keyRepeat barrierKeyTypes failingSession 0x61 0 1).2.written
      = [.input2 [2, 0, 0, 4, 0, 0, 0, 0, 0], .input2 [2, 0, 0, 0, 0, 0, 0, 0, 0]] ∧
    failedWrite failingSession (keyRepeat barrierKeyTypes failingSession 0x61 0 1).2 ∧
    (keyRepeat barrierKeyTypes failingSession 0x61 0 1).1 = true ∧
    (keyRepeat barrierKeyTypes failingSession 0x61 0 1).2.m_running = true ∧
    (keyDown barrierKeyTypes failingSession 0x61 0).1 = false :=
  ⟨rfl, fun _ => rfl, by decide, ⟨0, by decide, by decide, by decide⟩, by decide, by decide,
    by decide⟩

/-- The other seven operations do what claim C17 says: when a write attempted
by `keyDown`, `keyUp`, `mouseDown`, `mouseUp`, `mouseMoveAbsolute`,
`mouseRelativeMove` or `mouseWheel` fails, the operation returns `false`, and
the session stays running. -/
theorem write_failure_propagates (K : KeyTypes) (s : UhidServer) (hrun : s.m_running = true) :
    (∀ id mask, failedWrite s (keyDown K s id mask).2 →
      (keyDown K s id mask).1 = false ∧ (keyDown K s id mask).2.m_running = true) ∧
    (∀ id mask, failedWrite s (keyUp K s id mask).2 →
      (keyUp K s id mask).1 = false ∧ (keyUp K s id mask).2.m_running = true) ∧
    (∀ id, failedWrite s (mouseDown K s id).2 →
      (mouseDown K s id).1 = false ∧ (mouseDown K s id).2.m_running = true) ∧
    (∀ id, failedWrite s (mouseUp K s id).2 →
      (mouseUp K s id).1 = false ∧ (mouseUp K s id).2.m_running = true) ∧
    (∀ fuel x y r, mouseMoveAbsolute fuel s x y = some r → failedWrite s r.2 →
      r.1 = false ∧ r.2.m_running = true) ∧
    (∀ fuel dx dy r, mouseRelativeMove fuel s dx dy = some r → failedWrite s r.2 →
      r.1 = false ∧ r.2.m_running = true) ∧
    (∀ fuel xDelta yDelta r, mouseWheel fuel s xDelta yDelta = some r → failedWrite s r.2 →
      r.1 = false ∧ r.2.m_running = true) :=
  ⟨fun id mask => (keyDown_keyUp_failed K s id mask hrun).1,
    fun id mask => (keyDown_keyUp_failed K s id mask hrun).2,
    fun id => (mouseDown_mouseUp_failed K s id hrun).1,
    fun id => (mouseDown_mouseUp_failed K s id hrun).2,
    fun fuel x y r => (mouse_motion_failed s hrun fuel x y r).2.1,
    fun fuel dx dy r => (mouse_motion_failed s hrun fuel dx dy r).1,
    fun fuel xDelta yDelta r => (mouse_motion_failed s hrun fuel xDelta yDelta r).2.2⟩

/-! ## Short writes -/

/-- Claim C18, as stated, fails: whatever the size of the record, a `write`
that returns the partial count 9 is reported as success by `uhid_write`. -/
theorem C18_counterexample :
    ¬ ∀ (recordSize : Int) (s : UhidServer) (ev : UhidEvent), 9 < recordSize →
      s.writeRet s.written.length < recordSize → (uhid_write s ev).1 = -1 := by
  intro h
  have h0 := h 4376 shortWriteSession (.input2 (keyboardReport shortWriteSession))
    (by decide) (by decide)
  revert h0
  decide

/-- Claim C18, amended. `uhid_write` reports failure exactly when the kernel
`write` returned a negative value and success for every non-negative return
value, the full record size or a partial count alike; on a running session
`sendKeyboardReport` and `sendMouseReport` return `true` exactly when the
value was non-negative. -/
theorem C18_uhid_write_result (s : UhidServer) (ev : UhidEvent) (hrun : s.m_running = true) :
    ((uhid_write s ev).1 = 0 ↔ 0 ≤ s.writeRet s.written.length) ∧
    ((uhid_write s ev).1 = -1 ↔ s.writeRet s.written.length < 0) ∧
    ((sendKeyboardReport s).1 = true ↔ 0 ≤ s.writeRet s.written.length) ∧
    (∀ dx dy wheel pan,
      (sendMouseReport s dx dy wheel pan).1 = true ↔ 0 ≤ s.writeRet s.written.length) := by
  refine ⟨?_, ?_, ?_, ?_⟩
  · unfold uhid_write
    by_cases h : s.writeRet s.written.length < 0
    · simp [h, not_le.mpr h]
    · simp [h, not_lt.mp h]
  · unfold uhid_write
    by_cases h : s.writeRet s.written.length < 0
    · simp [h]
    · simp [h]
  · rw [sendKeyboardReport_result s hrun]
    simp
  · intro dx dy wheel pan
    rw [sendMouseReport_result s dx dy wheel pan hrun]
    simp

/-- Witness of the amended claim C18 on a session whose writes return the
partial count 9. -/
theorem C18_uhid_write_result_witness :
    shortWriteSession.m_running = true ∧
    shortWriteSession.writeRet shortWriteSession.written.length = 9 ∧
    (uhid_write shortWriteSession UhidEvent.destroy).1 = 0 ∧
    (sendKeyboardReport shortWriteSession).1 = true :=
  ⟨rfl, rfl,
    (C18_uhid_write_result shortWriteSession UhidEvent.destroy rfl).1.mpr (by decide),
    (C18_uhid_write_result shortWriteSession UhidEvent.destroy rfl).2.2.1.mpr (by decide)⟩

/-! ## The shapes of a mapping -/

set_option maxRecDepth 100000 in
/-- The ASCII mapping of the identifiers up to 0x7f: unmapped, or a
non-modifier key with a usage in [0x04, 0x38]. -/
theorem map_ascii_shape_low : ∀ id, id < 128 →
    (map_ascii id = ⟨0, 0, 0, false⟩ ∨
      ((map_ascii id).isPlainShape ∧ (map_ascii id).usage ≤ 0x38)) := by
  decide

theorem map_ascii_shape (id : Nat) :
    map_ascii id = ⟨0, 0, 0, false⟩ ∨
      ((map_ascii id).isPlainShape ∧ (map_ascii id).usage ≤ 0x38) := by
  by_cases h : id < 128
  · exact map_ascii_shape_low id h
  · left
    have : id > 0x7f := by omega
    simp [map_ascii, this]

theorem ite_isSwitchShape (c : Prop) [Decidable c] (a b : KeyMapResult)
    (ha : a.isSwitchShape) (hb : b.isSwitchShape) : (if c then a else b).isSwitchShape := by
  split <;> assumption

/-- Every case of the `switch` of `map_key` gives one of the shapes. -/
theorem map_key_switch_shape (K : KeyTypes) (id : Nat) :
    (map_key_switch K ⟨0, 0, 0, false⟩ id).isSwitchShape := by
  unfold map_key_switch
  repeat' (first | apply ite_isSwitchShape | decide)

theorem ite_isModifier (c : Prop) [Decidable c] (a b : KeyMapResult) (L : Prop)
    (ha : c → a.isModifier = true → L) (hb : b.isModifier = true → L) :
    (if c then a else b).isModifier = true → L := by
  split
  · exact ha (by assumption)
  · exact hb

/-- Only the modifier key identifiers reach a modifier case of the `switch`. -/
theorem map_key_switch_isModifier (K : KeyTypes) (id : Nat) :
    (map_key_switch K ⟨0, 0, 0, false⟩ id).isModifier = true → id ∈ K.modifierKeys := by
  unfold map_key_switch KeyTypes.modifierKeys
  repeat' (first
    | apply ite_isModifier
    | (intro hc h; first
        | exact absurd h (by decide)
        | (simp only [List.mem_cons, List.mem_singleton]; tauto))
    | (intro h; exact absurd h (by decide)))

/-- The three shapes exclude one another. -/
theorem shapes_exclusive (key : KeyMapResult) :
    ¬ (key.isPlainShape ∧ key.isModifierShape) ∧
    ¬ (key.isPlainShape ∧ key.isUnmappedShape) ∧
    ¬ (key.isModifierShape ∧ key.isUnmappedShape) := by
  refine ⟨?_, ?_, ?_⟩
  · rintro ⟨⟨h1, _⟩, ⟨h2, _⟩⟩
    rw [h1] at h2; exact absurd h2 (by decide)
  · rintro ⟨⟨_, h1, _⟩, h2⟩
    rw [h2] at h1; exact absurd h1 (by decide)
  · rintro ⟨⟨h1, _⟩, h2⟩
    rw [h2] at h1; exact absurd h1 (by decide)

/-- The modifier bit of a modifier-shaped mapping is a power of two below
256. -/
theorem modifierShape_single_bit (key : KeyMapResult) (h : key.isModifierShape) :
    ∃ i, i < 8 ∧ key.modifierBit = 2 ^ i := by
  obtain ⟨_, _, _, hb⟩ := h
  simp only [List.mem_cons, List.mem_singleton, List.mem_nil_iff, or_false] at hb
  rcases hb with h | h | h | h | h | h | h | h
  · exact ⟨0, by decide, h⟩
  · exact ⟨1, by decide, h⟩
  · exact ⟨2, by decide, h⟩
  · exact ⟨3, by decide, h⟩
  · exact ⟨4, by decide, h⟩
  · exact ⟨5, by decide, h⟩
  · exact ⟨6, by decide, h⟩
  · exact ⟨7, by decide, h⟩

/-- The mapping of an identifier the ASCII mapping does not know. -/
theorem map_key_of_ascii_unmapped (K : KeyTypes) (id : Nat)
    (h : map_ascii id = ⟨0, 0, 0, false⟩) :
    map_key K id =
      if (map_key_switch K ⟨0, 0, 0, false⟩ id).usage = 0 ∧ id ≥ K.kKeyF1 ∧ id ≤ K.kKeyF12 then
        { map_key_switch K ⟨0, 0, 0, false⟩ id with usage := (0x3a + (id - K.kKeyF1)) % 256 }
      else if (map_key_switch K ⟨0, 0, 0, false⟩ id).usage = 0 ∧ id ≥ K.kKeyF13 ∧
          id ≤ K.kKeyF24 then
        { map_key_switch K ⟨0, 0, 0, false⟩ id with usage := (0x68 + (id - K.kKeyF13)) % 256 }
      else map_key_switch K ⟨0, 0, 0, false⟩ id := by
  unfold map_key
  simp only [h]
  rw [if_neg (by decide)]

/-- The mapping of an identifier the ASCII mapping knows. -/
theorem map_key_of_ascii_mapped (K : KeyTypes) (id : Nat) (h : (map_ascii id).usage ≠ 0) :
    map_key K id = map_ascii id := by
  unfold map_key
  simp only []
  rw [if_pos (Or.inl h)]

/-- A result of the `switch` without a usage and outside the modifier keys is
the empty mapping. -/
theorem switch_empty_of_function_key (K : KeyTypes) (hK : K.functionKeysOk) (id : Nat)
    (hu : (map_key_switch K ⟨0, 0, 0, false⟩ id).usage = 0)
    (hf : (K.kKeyF1 ≤ id ∧ id ≤ K.kKeyF12) ∨ (K.kKeyF13 ≤ id ∧ id ≤ K.kKeyF24)) :
    map_key_switch K ⟨0, 0, 0, false⟩ id = ⟨0, 0, 0, false⟩ := by
  rcases map_key_switch_shape K id with h | ⟨⟨_, h4, _⟩, _⟩ | hm
  · exact h
  · rw [hu] at h4; exact absurd h4 (by decide)
  · have hmem := map_key_switch_isModifier K id hm.1
    obtain ⟨h1, h2⟩ := hK.2.2 id hmem
    rcases hf with hf | hf
    · exact absurd hf h1
    · exact absurd hf h2

/-- Claim C19. The key mapping is a total function, and for every key
identifier its result has exactly one of three shapes: (a) a non-modifier key
with a usage in [0x04, 0x73], no modifier bit and required modifiers 0x00 or
0x02; (b) a modifier key with no usage, no required modifiers and a single
modifier bit; (c) the unmapped result `{0, 0, 0, false}`. The constants of the
key header enter through `K`: F1..F12 and F13..F24 are twelve consecutive
identifiers each, and no modifier key lies among them. -/
theorem C19_map_key_shapes (K : KeyTypes) (hK : K.functionKeysOk) (id : Nat) :
    ((map_key K id).isPlainShape ∨ (map_key K id).isModifierShape ∨
      (map_key K id).isUnmappedShape) ∧
    ¬ ((map_key K id).isPlainShape ∧ (map_key K id).isModifierShape) ∧
    ¬ ((map_key K id).isPlainShape ∧ (map_key K id).isUnmappedShape) ∧
    ¬ ((map_key K id).isModifierShape ∧ (map_key K id).isUnmappedShape) ∧
    ((map_key K id).isModifierShape → ∃ i, i < 8 ∧ (map_key K id).modifierBit = 2 ^ i) := by
  refine ⟨?_, (shapes_exclusive _).1, (shapes_exclusive _).2.1, (shapes_exclusive _).2.2,
    modifierShape_single_bit _⟩
  rcases map_ascii_shape id with h0 | ⟨hp, _⟩
  · rw [map_key_of_ascii_unmapped K id h0]
    split
    · rename_i hc
      rw [switch_empty_of_function_key K hK id hc.1 (Or.inl ⟨hc.2.1, hc.2.2⟩)]
      left
      have h12 := hK.1
      have : id - K.kKeyF1 ≤ 11 := by omega
      refine ⟨rfl, ?_, ?_, rfl, Or.inl rfl⟩ <;> simp only [] <;> omega
    · split
      · rename_i hc
        rw [switch_empty_of_function_key K hK id hc.1 (Or.inr ⟨hc.2.1, hc.2.2⟩)]
        left
        have h24 := hK.2.1
        have : id - K.kKeyF13 ≤ 11 := by omega
        refine ⟨rfl, ?_, ?_, rfl, Or.inl rfl⟩ <;> simp only [] <;> omega
      · rcases map_key_switch_shape K id with h | ⟨h, _⟩ | h
        · exact Or.inr (Or.inr h)
        · exact Or.inl h
        · exact Or.inr (Or.inl h)
  · have hu : (map_ascii id).usage ≠ 0 := by
      have := hp.2.1
      omega
    rw [map_key_of_ascii_mapped K id hu]
    exact Or.inl hp

/-- Witness of claim C19: the upstream constants, and the key F24 with the
largest usage, 0x73. -/
theorem C19_map_key_shapes_witness :
    barrierKeyTypes.functionKeysOk ∧
    map_key barrierKeyTypes barrierKeyTypes.kKeyF24 = ⟨0x73, 0, 0, false⟩ ∧
    ((map_key barrierKeyTypes barrierKeyTypes.kKeyF24).isPlainShape ∨
      (map_key barrierKeyTypes barrierKeyTypes.kKeyF24).isModifierShape ∨
      (map_key barrierKeyTypes barrierKeyTypes.kKeyF24).isUnmappedShape) :=
  ⟨by decide, by decide,
    (C19_map_key_shapes barrierKeyTypes (by decide) barrierKeyTypes.kKeyF24).1⟩

/-- The mapping at a key of each shape, with the upstream constants: 'a',
'?', Return, F1, F24 (non-modifier keys), the right meta key (modifier), and
the character 0xE9 (unmapped). -/
theorem map_key_examples :
    map_key barrierKeyTypes 0x61 = ⟨0x04, 0, 0, false⟩ ∧
    map_key barrierKeyTypes 0x3f = ⟨0x38, 0x02, 0, false⟩ ∧
    map_key barrierKeyTypes barrierKeyTypes.kKeyReturn = ⟨0x28, 0, 0, false⟩ ∧
    map_key barrierKeyTypes barrierKeyTypes.kKeyF1 = ⟨0x3a, 0, 0, false⟩ ∧
    map_key barrierKeyTypes barrierKeyTypes.kKeyF24 = ⟨0x73, 0, 0, false⟩ ∧
    map_key barrierKeyTypes barrierKeyTypes.kKeyMeta_R = ⟨0, 0, 0x80, true⟩ ∧
    map_key barrierKeyTypes 0xE9 = ⟨0, 0, 0, false⟩ := by
  decide

/-! ## Unmapped keys -/

/-- Claim C20. On a running session, for a key the mapping does not know and
any mask, `keyDown` and `keyUp` each return `true` and write nothing; the
state they leave is the state before with the modifier byte replaced by the
mask-derived byte `D(M)`, so the slots, the button byte and the absolute
baseline are unchanged. -/
theorem C20_unmapped_key_frame (K : KeyTypes) (s : UhidServer) (id mask : Nat)
    (hrun : s.m_running = true) (hun : ¬ (map_key K id).mapped) :
    keyDown K s id mask = (true, { s with m_keyboardModifiers := modifier_from_mask K mask }) ∧
    keyUp K s id mask = (true, { s with m_keyboardModifiers := modifier_from_mask K mask }) ∧
    (keyDown K s id mask).2.written = s.written ∧ (keyUp K s id mask).2.written = s.written ∧
    (keyDown K s id mask).2.m_keyboardKeys = s.m_keyboardKeys ∧
    (keyUp K s id mask).2.m_keyboardKeys = s.m_keyboardKeys ∧
    (keyDown K s id mask).2.m_mouseButtons = s.m_mouseButtons ∧
    (keyUp K s id mask).2.m_mouseButtons = s.m_mouseButtons ∧
    ((keyDown K s id mask).2.m_hasLastAbsolute, (keyDown K s id mask).2.m_lastAbsX,
      (keyDown K s id mask).2.m_lastAbsY) = (s.m_hasLastAbsolute, s.m_lastAbsX, s.m_lastAbsY) ∧
    ((keyUp K s id mask).2.m_hasLastAbsolute, (keyUp K s id mask).2.m_lastAbsX,
      (keyUp K s id mask).2.m_lastAbsY) = (s.m_hasLastAbsolute, s.m_lastAbsX, s.m_lastAbsY) ∧
    (keyDown K s id mask).2.m_keyboardModifiers = modifier_from_mask K mask ∧
    (keyUp K s id mask).2.m_keyboardModifiers = modifier_from_mask K mask := by
  obtain ⟨h1, h2⟩ := key_unmapped K s id mask hrun hun
  rw [h1, h2]
  exact ⟨rfl, rfl, rfl, rfl, rfl, rfl, rfl, rfl, rfl, rfl, rfl, rfl⟩

/-- Witness of claim C20: the unmapped character 0xE9 with the shift mask,
while six keys are held. -/
theorem C20_unmapped_key_frame_witness :
    sixHeld.m_running = true ∧ ¬ (map_key barrierKeyTypes 0xE9).mapped ∧
    (keyDown barrierKeyTypes sixHeld 0xE9 1).1 = true ∧
    (keyDown barrierKeyTypes sixHeld 0xE9 1).2.written = sixHeld.written ∧
    (keyDown barrierKeyTypes sixHeld 0xE9 1).2.m_keyboardKeys = sixHeld.m_keyboardKeys ∧
    (keyDown barrierKeyTypes sixHeld 0xE9 1).2.m_keyboardModifiers
      = modifier_from_mask barrierKeyTypes 1 ∧
    (keyUp barrierKeyTypes sixHeld 0xE9 1).1 = true ∧
    (keyUp barrierKeyTypes sixHeld 0xE9 1).2.written = sixHeld.written :=
  ⟨rfl, by decide,
    by rw [(C20_unmapped_key_frame barrierKeyTypes sixHeld 0xE9 1 rfl (by decide)).1],
    (C20_unmapped_key_frame barrierKeyTypes sixHeld 0xE9 1 rfl (by decide)).2.2.1,
    (C20_unmapped_key_frame barrierKeyTypes sixHeld 0xE9 1 rfl (by decide)).2.2.2.2.1,
    (C20_unmapped_key_frame barrierKeyTypes sixHeld 0xE9 1 rfl (by decide)).2.2.2.2.2.2.2.2.2.2.1,
    by rw [(C20_unmapped_key_frame barrierKeyTypes sixHeld 0xE9 1 rfl (by decide)).2.1],
    (C20_unmapped_key_frame barrierKeyTypes sixHeld 0xE9 1 rfl (by decide)).2.2.2.1⟩

/-! ## The ASCII mapping, character by character -/

set_option maxRecDepth 100000 in
set_option synthInstance.maxHeartbeats 400000 in
set_option synthInstance.maxSize 1024 in
/-- The ASCII mapping on the identifiers below 128. -/
theorem map_ascii_printable_low : ∀ id, id < 128 →
    (isPrintable id →
      (map_ascii id).usage ≠ 0 ∧ (map_ascii id).isModifier = false ∧
      (map_ascii id).modifierBit = 0 ∧
      ((map_ascii id).requiredModifiers = 0x02 ↔ (isUpperCase id ∨ id ∈ shiftedSymbols)) ∧
      ((map_ascii id).requiredModifiers = 0x00 ∨ (map_ascii id).requiredModifiers = 0x02) ∧
      ((map_ascii id).requiredModifiers = 0x02 →
        isPrintable (usBaseChar id) ∧
        (map_ascii (usBaseChar id)).usage = (map_ascii id).usage ∧
        (map_ascii (usBaseChar id)).requiredModifiers = 0)) ∧
    (¬ isPrintable id → map_ascii id = ⟨0, 0, 0, false⟩) := by
  decide

/-- Claim C21. The ASCII mapping gives every printable character (0x20 to
0x7e) a non-zero usage with `isModifier = false`; the required modifiers are
0x02 exactly for the upper-case letters and the shifted symbols
`! @ # $ % ^ & * ( ) _ + { } | : " ~ < > ?` (and 0x00 otherwise), and then the
usage is the usage of the unshifted character of the same US-layout key, which
itself requires no modifier; an identifier outside 0x20 to 0x7e gets the empty
mapping. -/
theorem C21_map_ascii_printable (id : Nat) :
    (isPrintable id →
      (map_ascii id).usage ≠ 0 ∧ (map_ascii id).isModifier = false ∧
      (map_ascii id).modifierBit = 0 ∧
      ((map_ascii id).requiredModifiers = 0x02 ↔ (isUpperCase id ∨ id ∈ shiftedSymbols)) ∧
      ((map_ascii id).requiredModifiers = 0x00 ∨ (map_ascii id).requiredModifiers = 0x02) ∧
      ((map_ascii id).requiredModifiers = 0x02 →
        isPrintable (usBaseChar id) ∧
        (map_ascii (usBaseChar id)).usage = (map_ascii id).usage ∧
        (map_ascii (usBaseChar id)).requiredModifiers = 0)) ∧
    (¬ isPrintable id → map_ascii id = ⟨0, 0, 0, false⟩) := by
  by_cases h : id < 128
  · exact map_ascii_printable_low id h
  · refine ⟨fun hp => ?_, fun _ => ?_⟩
    · have := hp.2
      omega
    · have : id > 0x7f := by omega
      simp [map_ascii, this]

/-- Witness of claim C21 at the character '?': usage 0x38 with shift, the
usage of '/'. -/
theorem C21_map_ascii_printable_witness :
    isPrintable 0x3f ∧ map_ascii 0x3f = ⟨0x38, 0x02, 0, false⟩ ∧ usBaseChar 0x3f = 0x2f ∧
    (map_ascii (usBaseChar 0x3f)).usage = (map_ascii 0x3f).usage ∧
    (map_ascii (usBaseChar 0x3f)).requiredModifiers = 0 ∧
    map_ascii 0x7f = ⟨0, 0, 0, false⟩ :=
  ⟨by decide, by decide, by decide,
    (((C21_map_ascii_printable 0x3f).1 (by decide)).2.2.2.2.2 (by decide)).2.1,
    (((C21_map_ascii_printable 0x3f).1 (by decide)).2.2.2.2.2 (by decide)).2.2,
    (C21_map_ascii_printable 0x7f).2 (by decide)⟩

/-! ## The named keys -/

/-- The `switch` of `map_key` is the lookup in its table of cases. -/
theorem map_key_switch_eq_lookup (K : KeyTypes) (id : Nat) :
    map_key_switch K ⟨0, 0, 0, false⟩ id = lookupCase (switchCases K) id := by
  unfold map_key_switch switchCases
  simp only [lookupCase, List.mem_cons, List.mem_singleton, List.not_mem_nil, or_false]

theorem lookupCase_of_mem (id : Nat) : ∀ (cases : List (List Nat × KeyMapResult)),
    (listJoin (cases.map (fun e => e.1))).Nodup → ∀ e ∈ cases, id ∈ e.1 →
    lookupCase cases id = e.2 := by
  intro cases
  induction cases with
  | nil => intro _ e he; simp at he
  | cons c rest ih =>
    intro hnd e he hid
    simp only [List.map_cons, listJoin] at hnd
    rcases List.mem_cons.mp he with h | h
    · subst h
      simp [lookupCase, hid]
    · have hrest : (listJoin (rest.map (fun e => e.1))).Nodup := (List.nodup_append.mp hnd).2.1
      have hdisj := (List.nodup_append.mp hnd).2.2
      have hmem : ∀ (l : List (List Nat × KeyMapResult)), e ∈ l →
          id ∈ listJoin (l.map (fun e => e.1)) := by
        intro l
        induction l with
        | nil => intro h'; simp at h'
        | cons a l ih2 =>
          intro h'
          simp only [List.map_cons, listJoin, List.mem_append]
          rcases List.mem_cons.mp h' with h'' | h''
          · subst h''; exact Or.inl hid
          · exact Or.inr (ih2 h'')
      have hnot : id ∉ c.1 := fun hc => hdisj hc (hmem rest h)
      simp only [lookupCase, hnot, if_false]
      exact ih hrest e h hid

theorem mem_listJoin_of_mem (id : Nat) (e : List Nat × KeyMapResult) :
    ∀ (l : List (List Nat × KeyMapResult)), e ∈ l → id ∈ e.1 →
    id ∈ listJoin (l.map (fun e => e.1)) := by
  intro l
  induction l with
  | nil => intro h; simp at h
  | cons a l ih =>
    intro h hid
    simp only [List.map_cons, listJoin, List.mem_append]
    rcases List.mem_cons.mp h with h' | h'
    · subst h'; exact Or.inl hid
    · exact Or.inr (ih h' hid)

theorem lookupCase_of_not_mem (id : Nat) : ∀ (cases : List (List Nat × KeyMapResult)),
    id ∉ listJoin (cases.map (fun e => e.1)) → lookupCase cases id = ⟨0, 0, 0, false⟩ := by
  intro cases
  induction cases with
  | nil => intro _; rfl
  | cons c rest ih =>
    intro h
    simp only [List.map_cons, listJoin, List.mem_append, not_or] at h
    simp only [lookupCase, h.1, if_false]
    exact ih h.2

theorem map_ascii_high (id : Nat) (h : 0x7f < id) : map_ascii id = ⟨0, 0, 0, false⟩ := by
  simp [map_ascii, h]

/-- The mapping of a case label of the `switch` is what its case says. -/
theorem map_key_named (K : KeyTypes) (hK : K.namedKeysOk) :
    ∀ e ∈ switchCases K, ∀ id ∈ e.1, map_key K id = e.2 := by
  intro e he id hid
  obtain ⟨hnd, hlab, _⟩ := hK
  have hmem : id ∈ switchLabels K := mem_listJoin_of_mem id e _ he hid
  obtain ⟨h1, h2, h3⟩ := hlab id hmem
  rw [map_key_of_ascii_unmapped K id (map_ascii_high id h1), map_key_switch_eq_lookup,
    lookupCase_of_mem id _ hnd e he hid]
  rw [if_neg (fun h => h2 ⟨h.2.1, h.2.2⟩), if_neg (fun h => h3 ⟨h.2.1, h.2.2⟩)]

/-- The mapping of the function keys: the n-th identifier from F1 and from
F13. -/
theorem map_key_function (K : KeyTypes) (hK : K.namedKeysOk) (n : Nat) (hn : n < 12) :
    map_key K (K.kKeyF1 + n) = ⟨0x3a + n, 0, 0, false⟩ ∧
    map_key K (K.kKeyF13 + n) = ⟨0x68 + n, 0, 0, false⟩ := by
  obtain ⟨_, hlab, hf1, h12, hlt, h24⟩ := hK
  have hsw : ∀ id, (K.kKeyF1 ≤ id ∧ id ≤ K.kKeyF12) ∨ (K.kKeyF13 ≤ id ∧ id ≤ K.kKeyF24) →
      map_key_switch K ⟨0, 0, 0, false⟩ id = ⟨0, 0, 0, false⟩ := by
    intro id hid
    rw [map_key_switch_eq_lookup]
    apply lookupCase_of_not_mem
    intro hmem
    obtain ⟨_, h2, h3⟩ := hlab id hmem
    rcases hid with h | h
    · exact h2 h
    · exact h3 h
  constructor
  · rw [map_key_of_ascii_unmapped K _ (map_ascii_high _ (by omega)),
      hsw _ (Or.inl ⟨by omega, by omega⟩)]
    rw [if_pos ⟨rfl, by omega, by omega⟩]
    have e : (0x3a + (K.kKeyF1 + n - K.kKeyF1)) % 256 = 0x3a + n := by omega
    simp only [e]
  · rw [map_key_of_ascii_unmapped K _ (map_ascii_high _ (by omega)),
      hsw _ (Or.inr ⟨by omega, by omega⟩)]
    rw [if_neg (fun h => by have := h.2.2; omega), if_pos ⟨rfl, by omega, by omega⟩]
    have e : (0x68 + (K.kKeyF13 + n - K.kKeyF13)) % 256 = 0x68 + n := by omega
    simp only [e]

/-- Claim C22. The mapping of the named keys is the table of the
specification: Return and Keypad-Enter 0x28, Escape 0x29, Backspace 0x2a, Tab
and LeftTab 0x2b, Insert 0x49, Home 0x4a, PageUp 0x4b, Delete 0x4c, End 0x4d,
PageDown 0x4e, Right 0x4f, Left 0x50, Down 0x51, Up 0x52, CapsLock 0x39,
NumLock 0x53, ScrollLock 0x47, Print 0x46, Pause 0x48, Menu 0x65; the n-th
function key from F1 has usage 0x3a + (n-1) and the n-th from F13 usage
0x68 + (n-13); all these without required modifiers; the modifier keys are
modifiers without usage with the bits left-ctrl 0x01, left-shift 0x02,
left-alt 0x04, left-meta/super 0x08, right-ctrl 0x10, right-shift 0x20,
right-alt/alt-graph 0x40, right-meta/super 0x80. The constants of the key
header enter through `K`: pairwise distinct case labels outside the ASCII
codes and the function-key ranges, twelve consecutive identifiers from F1 and
from F13. -/
theorem C22_named_keys (K : KeyTypes) (hK : K.namedKeysOk) :
    map_key K K.kKeyReturn = ⟨0x28, 0, 0, false⟩ ∧
    map_key K K.kKeyKP_Enter = ⟨0x28, 0, 0, false⟩ ∧
    map_key K K.kKeyEscape = ⟨0x29, 0, 0, false⟩ ∧
    map_key K K.kKeyBackSpace = ⟨0x2a, 0, 0, false⟩ ∧
    map_key K K.kKeyTab = ⟨0x2b, 0, 0, false⟩ ∧
    map_key K K.kKeyLeftTab = ⟨0x2b, 0, 0, false⟩ ∧
    map_key K K.kKeyInsert = ⟨0x49, 0, 0, false⟩ ∧
    map_key K K.kKeyHome = ⟨0x4a, 0, 0, false⟩ ∧
    map_key K K.kKeyPageUp = ⟨0x4b, 0, 0, false⟩ ∧
    map_key K K.kKeyDelete = ⟨0x4c, 0, 0, false⟩ ∧
    map_key K K.kKeyEnd = ⟨0x4d, 0, 0, false⟩ ∧
    map_key K K.kKeyPageDown = ⟨0x4e, 0, 0, false⟩ ∧
    map_key K K.kKeyRight = ⟨0x4f, 0, 0, false⟩ ∧
    map_key K K.kKeyLeft = ⟨0x50, 0, 0, false⟩ ∧
    map_key K K.kKeyDown = ⟨0x51, 0, 0, false⟩ ∧
    map_key K K.kKeyUp = ⟨0x52, 0, 0, false⟩ ∧
    map_key K K.kKeyCapsLock = ⟨0x39, 0, 0, false⟩ ∧
    map_key K K.kKeyNumLock = ⟨0x53, 0, 0, false⟩ ∧
    map_key K K.kKeyScrollLock = ⟨0x47, 0, 0, false⟩ ∧
    map_key K K.kKeyPrint = ⟨0x46, 0, 0, false⟩ ∧
    map_key K K.kKeyPause = ⟨0x48, 0, 0, false⟩ ∧
    map_key K K.kKeyMenu = ⟨0x65, 0, 0, false⟩ ∧
    (∀ n, n < 12 → map_key K (K.kKeyF1 + n) = ⟨0x3a + n, 0, 0, false⟩) ∧
    (∀ n, n < 12 → map_key K (K.kKeyF13 + n) = ⟨0x68 + n, 0, 0, false⟩) ∧
    map_key K K.kKeyControl_L = ⟨0, 0, 0x01, true⟩ ∧
    map_key K K.kKeyShift_L = ⟨0, 0, 0x02, true⟩ ∧
    map_key K K.kKeyAlt_L = ⟨0, 0, 0x04, true⟩ ∧
    map_key K K.kKeyMeta_L = ⟨0, 0, 0x08, true⟩ ∧
    map_key K K.kKeySuper_L = ⟨0, 0, 0x08, true⟩ ∧
    map_key K K.kKeyControl_R = ⟨0, 0, 0x10, true⟩ ∧
    map_key K K.kKeyShift_R = ⟨0, 0, 0x20, true⟩ ∧
    map_key K K.kKeyAlt_R = ⟨0, 0, 0x40, true⟩ ∧
    map_key K K.kKeyAltGr = ⟨0, 0, 0x40, true⟩ ∧
    map_key K K.kKeyMeta_R = ⟨0, 0, 0x80, true⟩ ∧
    map_key K K.kKeySuper_R = ⟨0, 0, 0x80, true⟩ ∧
    (∀ e ∈ switchCases K, ∀ id ∈ e.1, map_key K id = e.2) := by
  have key := map_key_named K hK
  exact ⟨key ([K.kKeyReturn, K.kKeyKP_Enter], ⟨0x28, 0, 0, false⟩) (by simp [switchCases])
      K.kKeyReturn (by simp),
    key ([K.kKeyReturn, K.kKeyKP_Enter], ⟨0x28, 0, 0, false⟩) (by simp [switchCases])
      K.kKeyKP_Enter (by simp),
    key ([K.kKeyEscape], ⟨0x29, 0, 0, false⟩) (by simp [switchCases])
      K.kKeyEscape (by simp),
    key ([K.kKeyBackSpace], ⟨0x2a, 0, 0, false⟩) (by simp [switchCases])
      K.kKeyBackSpace (by simp),
    key ([K.kKeyTab, K.kKeyLeftTab], ⟨0x2b, 0, 0, false⟩) (by simp [switchCases])
      K.kKeyTab (by simp),
    key ([K.kKeyTab, K.kKeyLeftTab], ⟨0x2b, 0, 0, false⟩) (by simp [switchCases])
      K.kKeyLeftTab (by simp),
    key ([K.kKeyInsert], ⟨0x49, 0, 0, false⟩) (by simp [switchCases])
      K.kKeyInsert (by simp),
    key ([K.kKeyHome], ⟨0x4a, 0, 0, false⟩) (by simp [switchCases])
      K.kKeyHome (by simp),
    key ([K.kKeyPageUp], ⟨0x4b, 0, 0, false⟩) (by simp [switchCases])
      K.kKeyPageUp (by simp),
    key ([K.kKeyDelete], ⟨0x4c, 0, 0, false⟩) (by simp [switchCases])
      K.kKeyDelete (by simp),
    key ([K.kKeyEnd], ⟨0x4d, 0, 0, false⟩) (by simp [switchCases])
      K.kKeyEnd (by simp),
    key ([K.kKeyPageDown], ⟨0x4e, 0, 0, false⟩) (by simp [switchCases])
      K.kKeyPageDown (by simp),
    key ([K.kKeyRight], ⟨0x4f, 0, 0, false⟩) (by simp [switchCases])
      K.kKeyRight (by simp),
    key ([K.kKeyLeft], ⟨0x50, 0, 0, false⟩) (by simp [switchCases])
      K.kKeyLeft (by simp),
    key ([K.kKeyDown], ⟨0x51, 0, 0, false⟩) (by simp [switchCases])
      K.kKeyDown (by simp),
    key ([K.kKeyUp], ⟨0x52, 0, 0, false⟩) (by simp [switchCases])
      K.kKeyUp (by simp),
    key ([K.kKeyCapsLock], ⟨0x39, 0, 0, false⟩) (by simp [switchCases])
      K.kKeyCapsLock (by simp),
    key ([K.kKeyNumLock], ⟨0x53, 0, 0, false⟩) (by simp [switchCases])
      K.kKeyNumLock (by simp),
    key ([K.kKeyScrollLock], ⟨0x47, 0, 0, false⟩) (by simp [switchCases])
      K.kKeyScrollLock (by simp),
    key ([K.kKeyPrint], ⟨0x46, 0, 0, false⟩) (by simp [switchCases])
      K.kKeyPrint (by simp),
    key ([K.kKeyPause], ⟨0x48, 0, 0, false⟩) (by simp [switchCases])
      K.kKeyPause (by simp),
    key ([K.kKeyMenu], ⟨0x65, 0, 0, false⟩) (by simp [switchCases])
      K.kKeyMenu (by simp),
    fun n hn => (map_key_function K hK n hn).1,
    fun n hn => (map_key_function K hK n hn).2,
    key ([K.kKeyControl_L], ⟨0, 0, 0x01, true⟩) (by simp [switchCases])
      K.kKeyControl_L (by simp),
    key ([K.kKeyShift_L], ⟨0, 0, 0x02, true⟩) (by simp [switchCases])
      K.kKeyShift_L (by simp),
    key ([K.kKeyAlt_L], ⟨0, 0, 0x04, true⟩) (by simp [switchCases])
      K.kKeyAlt_L (by simp),
    key ([K.kKeyMeta_L, K.kKeySuper_L], ⟨0, 0, 0x08, true⟩) (by simp [switchCases])
      K.kKeyMeta_L (by simp),
    key ([K.kKeyMeta_L, K.kKeySuper_L], ⟨0, 0, 0x08, true⟩) (by simp [switchCases])
      K.kKeySuper_L (by simp),
    key ([K.kKeyControl_R], ⟨0, 0, 0x10, true⟩) (by simp [switchCases])
      K.kKeyControl_R (by simp),
    key ([K.kKeyShift_R], ⟨0, 0, 0x20, true⟩) (by simp [switchCases])
      K.kKeyShift_R (by simp),
    key ([K.kKeyAlt_R, K.kKeyAltGr], ⟨0, 0, 0x40, true⟩) (by simp [switchCases])
      K.kKeyAlt_R (by simp),
    key ([K.kKeyAlt_R, K.kKeyAltGr], ⟨0, 0, 0x40, true⟩) (by simp [switchCases])
      K.kKeyAltGr (by simp),
    key ([K.kKeyMeta_R, K.kKeySuper_R], ⟨0, 0, 0x80, true⟩) (by simp [switchCases])
      K.kKeyMeta_R (by simp),
    key ([K.kKeyMeta_R, K.kKeySuper_R], ⟨0, 0, 0x80, true⟩) (by simp [switchCases])
      K.kKeySuper_R (by simp),
    key⟩

/-- Witness of claim C22: the upstream constants meet the conditions, and
there F12 (the identifier F1 + 11) has usage 0x45 and F24 usage 0x73. -/
theorem C22_named_keys_witness :
    barrierKeyTypes.namedKeysOk ∧
    map_key barrierKeyTypes barrierKeyTypes.kKeyF12 = ⟨0x45, 0, 0, false⟩ ∧
    map_key barrierKeyTypes barrierKeyTypes.kKeyF24 = ⟨0x73, 0, 0, false⟩ ∧
    map_key barrierKeyTypes barrierKeyTypes.kKeyMenu = ⟨0x65, 0, 0, false⟩ ∧
    map_key barrierKeyTypes barrierKeyTypes.kKeyAltGr = ⟨0, 0, 0x40, true⟩ :=
  ⟨by decide,
    (C22_named_keys barrierKeyTypes (by decide)).2.2.2.2.2.2.2.2.2.2.2.2.2.2.2.2.2.2.2.2.2.2.1
      11 (by decide),
    (C22_named_keys barrierKeyTypes (by decide)).2.2.2.2.2.2.2.2.2.2.2.2.2.2.2.2.2.2.2.2.2.2.2.1
      11 (by decide),
    (C22_named_keys barrierKeyTypes (by decide)).2.2.2.2.2.2.2.2.2.2.2.2.2.2.2.2.2.2.2.2.2.1,
    (C22_named_keys barrierKeyTypes (by decide)).2.2.2.2.2.2.2.2.2.2.2.2.2.2.2.2.2.2.2.2.2.2.2.2.2.2.2.2.2.2.2.2.1⟩

/-! ## The button byte -/

/-- The bit of each button identifier. -/
theorem buttonBit_cases (K : KeyTypes) (hK : K.buttonsDistinct) (b : Nat) :
    (b = K.kButtonLeft → buttonBit K b = 0x01) ∧
    (b = K.kButtonRight → buttonBit K b = 0x02) ∧
    (b = K.kButtonMiddle → buttonBit K b = 0x04) ∧
    (b = K.kButtonExtra0 → buttonBit K b = 0x08) ∧
    (b = K.kButtonExtra1 → buttonBit K b = 0x10) ∧
    (b ∉ [K.kButtonLeft, K.kButtonRight, K.kButtonMiddle, K.kButtonExtra0, K.kButtonExtra1] →
      buttonBit K b = 0) := by
  unfold KeyTypes.buttonsDistinct at hK
  simp only [List.nodup_cons, List.mem_cons, List.mem_singleton, List.not_mem_nil, or_false,
    not_or, List.nodup_nil, and_true, not_false_eq_true] at hK
  obtain ⟨⟨h1, h2, h3, h4⟩, ⟨h5, h6, h7⟩, ⟨h8, h9⟩, h10⟩ := hK
  unfold buttonBit
  refine ⟨?_, ?_, ?_, ?_, ?_, ?_⟩
  · intro h; simp [h]
  · intro h; subst h; simp [Ne.symm h1]
  · intro h; subst h; simp [Ne.symm h2, Ne.symm h5]
  · intro h; subst h; simp [Ne.symm h3, Ne.symm h6, Ne.symm h8]
  · intro h; subst h; simp [Ne.symm h4, Ne.symm h7, Ne.symm h9, Ne.symm h10]
  · intro h
    simp only [List.mem_cons, List.mem_singleton, List.not_mem_nil, or_false, not_or] at h
    simp [h.1, h.2.1, h.2.2.1, h.2.2.2.1, h.2.2.2.2]

/-- Claim C23. On a running session, for a button identifier `b`: the bit of
left, right, middle, extra-0, extra-1 is 0x01, 0x02, 0x04, 0x08, 0x10 and
that of any other identifier is 0. For a button with a bit, `mouseDown(b)`
sets that bit in the button byte and `mouseUp(b)` clears it, the other bits
unchanged, and each writes exactly one mouse report
`[0x01, new button byte, 0, 0, 0, 0]`. For any other `b` both leave the state
unchanged, nothing written. From a button byte of zero,
`mouseDown(left); mouseUp(left)` writes two reports with the button bytes 01
and 00. -/
theorem C23_mouse_buttons (K : KeyTypes) (s : UhidServer) (b : Nat)
    (hrun : s.m_running = true) (hbyte : s.m_mouseButtons < 256) (hK : K.buttonsDistinct) :
    ((b = K.kButtonLeft → buttonBit K b = 0x01) ∧
      (b = K.kButtonRight → buttonBit K b = 0x02) ∧
      (b = K.kButtonMiddle → buttonBit K b = 0x04) ∧
      (b = K.kButtonExtra0 → buttonBit K b = 0x08) ∧
      (b = K.kButtonExtra1 → buttonBit K b = 0x10) ∧
      (b ∉ [K.kButtonLeft, K.kButtonRight, K.kButtonMiddle, K.kButtonExtra0, K.kButtonExtra1] →
        buttonBit K b = 0)) ∧
    (buttonBit K b ≠ 0 →
      (∃ newByte, (mouseDown K s b).2 = { s with
          m_mouseButtons := newByte,
          written := s.written ++ [.input2 [0x01, newByte, 0, 0, 0, 0]] } ∧
        ∀ i, newByte.testBit i = (s.m_mouseButtons.testBit i || (buttonBit K b).testBit i)) ∧
      (∃ newByte, (mouseUp K s b).2 = { s with
          m_mouseButtons := newByte,
          written := s.written ++ [.input2 [0x01, newByte, 0, 0, 0, 0]] } ∧
        ∀ i, newByte.testBit i = (s.m_mouseButtons.testBit i && !(buttonBit K b).testBit i))) ∧
    (buttonBit K b = 0 → mouseDown K s b = (true, s) ∧ mouseUp K s b = (true, s)) ∧
    (s.m_mouseButtons = 0 →
      (mouseUp K (mouseDown K s K.kButtonLeft).2 K.kButtonLeft).2.written
        = s.written ++ [.input2 [0x01, 0x01, 0, 0, 0, 0], .input2 [0x01, 0x00, 0, 0, 0, 0]]) := by
  refine ⟨buttonBit_cases K hK b, ?_, ?_, ?_⟩
  · intro hb
    constructor
    · refine ⟨s.m_mouseButtons ||| buttonBit K b, ?_, fun i => Nat.testBit_or _ _ i⟩
      rw [mouseDown_running K s b hrun, if_neg hb]
    · refine ⟨s.m_mouseButtons &&& toU8 (-1 - (buttonBit K b : Int)), ?_,
        fun i => testBit_clear _ _ i hbyte (buttonBit_lt K b)⟩
      rw [mouseUp_running K s b hrun, if_neg hb]
  · intro hb
    simp [mouseDown, mouseUp, updateMouseButtons, hrun, hb]
  · intro hz
    have hl : buttonBit K K.kButtonLeft = 1 := by simp [buttonBit]
    rw [mouseUp_running, if_neg (by rw [hl]; decide), mouseDown_running K s _ hrun,
      if_neg (by rw [hl]; decide), hl, hz]
    · simp only [List.append_assoc, List.singleton_append]
      rfl
    · rw [mouseDown_running K s _ hrun, if_neg (by rw [hl]; decide)]
      exact hrun

/-- Witness of claim C23: the middle button while the left button is held,
with the upstream button identifiers. -/
theorem C23_mouse_buttons_witness :
    leftHeld.m_running = true ∧ leftHeld.m_mouseButtons < 256 ∧
    barrierKeyTypes.buttonsDistinct ∧
    buttonBit barrierKeyTypes barrierKeyTypes.kButtonMiddle = 0x04 ∧
    (freshRunning.m_mouseButtons = 0 →
      (mouseUp barrierKeyTypes (mouseDown barrierKeyTypes freshRunning
          barrierKeyTypes.kButtonLeft).2 barrierKeyTypes.kButtonLeft).2.written
        = freshRunning.written ++
          [.input2 [0x01, 0x01, 0, 0, 0, 0], .input2 [0x01, 0x00, 0, 0, 0, 0]]) :=
  ⟨rfl, by decide, by decide,
    (C23_mouse_buttons barrierKeyTypes leftHeld barrierKeyTypes.kButtonMiddle rfl (by decide)
      (by decide)).1.2.2.1 rfl,
    (C23_mouse_buttons barrierKeyTypes freshRunning 0 rfl (by decide) (by decide)).2.2.2⟩

/-- The runs behind C23 with the upstream button identifiers: from the fresh
session `mouseDown(left); mouseUp(left)` writes the button bytes 01 and 00;
with the left button held, the middle button writes 05 and then 01; an
unknown button writes nothing. -/
theorem mouse_button_runs :
    (mouseUp barrierKeyTypes (mouseDown barrierKeyTypes freshRunning 1).2 1).2.written
      = [.input2 [1, 1, 0, 0, 0, 0], .input2 [1, 0, 0, 0, 0, 0]] ∧
    (mouseUp barrierKeyTypes (mouseDown barrierKeyTypes leftHeld 2).2 2).2.written
      = [.input2 [1, 1, 0, 0, 0, 0], .input2 [1, 5, 0, 0, 0, 0], .input2 [1, 1, 0, 0, 0, 0]] ∧
    (mouseDown barrierKeyTypes leftHeld 9).2.written = [.input2 [1, 1, 0, 0, 0, 0]] ∧
    (mouseDown barrierKeyTypes leftHeld 9).1 = true := by
  decide

/-! ## The key array and the descriptor -/

theorem ite_usage_le (c : Prop) [Decidable c] (a b : KeyMapResult) (n : Nat)
    (ha : a.usage ≤ n) (hb : b.usage ≤ n) : (if c then a else b).usage ≤ n := by
  split <;> assumption

/-- No case of the `switch` of `map_key` gives a usage above 0x65. -/
theorem map_key_switch_usage_le (K : KeyTypes) (id : Nat) :
    (map_key_switch K ⟨0, 0, 0, false⟩ id).usage ≤ 0x65 := by
  unfold map_key_switch
  repeat' (first | apply ite_usage_le | decide)

/-- Outside the range F13..F24 the usage of a mapping is within the range
[0, 0x65] of the key array, with F1..F12 twelve consecutive identifiers. -/
theorem map_key_usage_le (K : KeyTypes) (id : Nat) (hF : K.kKeyF12 = K.kKeyF1 + 11)
    (hid : ¬ (K.kKeyF13 ≤ id ∧ id ≤ K.kKeyF24)) : (map_key K id).usage ≤ 0x65 := by
  unfold map_key
  simp only []
  split
  · rcases map_ascii_shape id with h | h
    · rw [h]
      decide
    · exact le_trans h.2 (by decide)
  · have hz : map_ascii id = ⟨0, 0, 0, false⟩ := by
      rcases map_ascii_shape id with h | h
      · exact h
      · rename_i hn
        exact absurd (Or.inl (by have := h.1.2.1; omega)) hn
    rw [hz]
    split
    · rename_i h1
      show (0x3a + (id - K.kKeyF1)) % 256 ≤ 0x65
      omega
    · split
      · rename_i h2
        exact absurd ⟨h2.2.1, h2.2.2⟩ hid
      · exact map_key_switch_usage_le K id

/-- Claim C24, the input on which the key array leaves its declared range.
The Input item of the six key slots (report id 2, six fields of eight bits) is
declared with the logical maximum 0x65. On a cleared running session
`keyDown(kKeyF13, 0)` writes a keyboard report whose first slot is 0x68, and
`keyDown(kKeyF24, 0)` one whose first slot is 0x73, both above the declared
maximum (key identifiers of upstream Barrier). -/
theorem C24_function_key_exceeds_declared_range :
    (descriptorInputs.filter (fun it => it.reportId == 2 && it.reportCount == 6)).map
        (fun it => (it.reportSize, it.logicalMaximum)) = [(8, 0x65)] ∧
    (keyDown barrierKeyTypes freshRunning barrierKeyTypes.kKeyF13 0).1 = true ∧
    (keyDown barrierKeyTypes freshRunning barrierKeyTypes.kKeyF13 0).2.written
      = [.input2 [0x02, 0x00, 0x00, 0x68, 0x00, 0x00, 0x00, 0x00, 0x00]] ∧
    (keyDown barrierKeyTypes freshRunning barrierKeyTypes.kKeyF24 0).2.written
      = [.input2 [0x02, 0x00, 0x00, 0x73, 0x00, 0x00, 0x00, 0x00, 0x00]] ∧
    ¬ (0x68 ≤ 0x65) := by
  decide

/-! ## The descriptor and the length of the reports -/

/-- Claim C30. The Input items of the descriptor are, as (report id, report
size, report count): (1, 1, 5), (1, 3, 1), (1, 8, 4) for the mouse and
(2, 1, 8), (2, 8, 1), (2, 8, 6) for the keyboard. Size times count sums to 40
bits for report id 1 and to 64 bits for report id 2, so with the byte of the
report id the declared lengths are 6 and 9 bytes. The keyboard report the
engine fills in has 9 bytes and starts with 2, and the mouse report has 6
bytes and starts with 1; on a running session these are the payloads of the
`INPUT2` records of `sendKeyboardReport` and `sendMouseReport`. -/
theorem C30_report_lengths :
    descriptorInputs.map (fun it => (it.reportId, it.reportSize, it.reportCount))
      = [(1, 1, 5), (1, 3, 1), (1, 8, 4), (2, 1, 8), (2, 8, 1), (2, 8, 6)] ∧
    declaredBits 1 = 40 ∧ declaredBits 2 = 64 ∧
    1 + declaredBits 1 / 8 = 6 ∧ 1 + declaredBits 2 / 8 = 9 ∧
    (∀ s : UhidServer, s.m_running = true →
      ∃ report, (sendKeyboardReport s).2.written = s.written ++ [.input2 report] ∧
        report.length = 1 + declaredBits 2 / 8 ∧ report.head? = some 2) ∧
    (∀ (s : UhidServer) (dx dy wheel pan : Int), s.m_running = true →
      ∃ report, (sendMouseReport s dx dy wheel pan).2.written = s.written ++ [.input2 report] ∧
        report.length = 1 + declaredBits 1 / 8 ∧ report.head? = some 1) := by
  refine ⟨by decide, by decide, by decide, by decide, by decide, ?_, ?_⟩
  · intro s hrun
    refine ⟨keyboardReport s, ?_, ?_, ?_⟩
    · rw [sendKeyboardReport_running s hrun]
    · have h : 1 + declaredBits 2 / 8 = 9 := by decide
      rw [keyboardReport_eq, h]
      rfl
    · rw [keyboardReport_eq]
      rfl
  · intro s dx dy wheel pan hrun
    refine ⟨[0x01, s.m_mouseButtons, toU8 dx, toU8 dy, toU8 wheel, toU8 pan], ?_, ?_, ?_⟩
    · rw [sendMouseReport_running s dx dy wheel pan hrun]
    · have h : 1 + declaredBits 1 / 8 = 6 := by decide
      rw [h]
      rfl
    · rfl

/-- Witness of claim C30 on the session with the left button held: the mouse
report of a step (5, -3) has the six declared bytes, the keyboard report the
nine. -/
theorem C30_report_lengths_witness :
    leftHeld.m_running = true ∧
    (∃ report, (sendKeyboardReport leftHeld).2.written = leftHeld.written ++ [.input2 report] ∧
        report.length = 1 + declaredBits 2 / 8 ∧ report.head? = some 2) ∧
    (∃ report, (sendMouseReport leftHeld 5 (-3) 0 0).2.written
          = leftHeld.written ++ [.input2 report] ∧
        report.length = 1 + declaredBits 1 / 8 ∧ report.head? = some 1) :=
  ⟨rfl, C30_report_lengths.2.2.2.2.2.1 leftHeld rfl,
    C30_report_lengths.2.2.2.2.2.2 leftHeld 5 (-3) 0 0 rfl⟩

/-! ## The start wait -/

/-- Interrupted rounds and discarded events in front of the rest of a script:
the interrupted rounds cost nothing, each discarded event 50 ms, as long as
budget is left. -/
theorem wait_for_start_loop_append (rest : List SelectOutcome) :
    ∀ (pre : List SelectOutcome) (r : Int), (∀ o ∈ pre, o = .eintr ∨ o = .other) →
    50 * (pre.count .other : Int) < r →
    wait_for_start_loop (pre ++ rest) r
      = wait_for_start_loop rest (r - 50 * (pre.count .other : Int)) := by
  intro pre
  induction pre with
  | nil => intro r _ _; simp
  | cons o pre ih =>
    intro r hpre h
    have hrest : ∀ o ∈ pre, o = .eintr ∨ o = .other := fun o ho => hpre o (List.mem_cons_of_mem _ ho)
    have hpos : r > 0 := by
      have : (0 : Int) ≤ 50 * ((o :: pre).count .other : Int) := by positivity
      omega
    rcases hpre o (List.mem_cons_self _ _) with ho | ho
    · subst ho
      have hc : (SelectOutcome.eintr :: pre).count .other = pre.count .other := by
        simp [List.count_cons]
      rw [hc] at h ⊢
      rw [List.cons_append, wait_for_start_loop, if_pos hpos]
      exact ih r hrest h
    · subst ho
      have hc : (SelectOutcome.other :: pre).count .other = pre.count .other + 1 := by
        simp [List.count_cons]
      rw [hc] at h ⊢
      rw [List.cons_append, wait_for_start_loop, if_pos hpos]
      rw [ih (r - 50) hrest (by push_cast at h; omega)]
      congr 1
      push_cast
      ring

/-- Once the discarded events have used up the budget the wait fails, whatever
follows. -/
theorem wait_for_start_loop_exhausted (rest : List SelectOutcome) :
    ∀ (pre : List SelectOutcome) (r : Int), (∀ o ∈ pre, o = .eintr ∨ o = .other) →
    r ≤ 50 * (pre.count .other : Int) →
    wait_for_start_loop (pre ++ rest) r = some false := by
  intro pre
  induction pre with
  | nil =>
    intro r _ h
    have hr : ¬ r > 0 := by simpa using h
    cases rest with
    | nil => simp [wait_for_start_loop, hr]
    | cons o rest => simp [wait_for_start_loop, hr]
  | cons o pre ih =>
    intro r hpre h
    have hrest : ∀ o ∈ pre, o = .eintr ∨ o = .other := fun o ho => hpre o (List.mem_cons_of_mem _ ho)
    by_cases hpos : r > 0
    · rcases hpre o (List.mem_cons_self _ _) with ho | ho
      · subst ho
        have hc : (SelectOutcome.eintr :: pre).count .other = pre.count .other := by
          simp [List.count_cons]
        rw [hc] at h
        rw [List.cons_append, wait_for_start_loop, if_pos hpos]
        exact ih r hrest h
      · subst ho
        have hc : (SelectOutcome.other :: pre).count .other = pre.count .other + 1 := by
          simp [List.count_cons]
        rw [hc] at h
        rw [List.cons_append, wait_for_start_loop, if_pos hpos]
        exact ih (r - 50) hrest (by push_cast at h; omega)
    · cases o <;> simp [wait_for_start_loop, hpos]

/-- The wait succeeds only on a script that reaches a START through
interrupted rounds and discarded events within the budget. -/
theorem wait_for_start_loop_true (script : List SelectOutcome) : ∀ (r : Int),
    wait_for_start_loop script r = some true →
    ∃ pre rest, script = pre ++ .start :: rest ∧ (∀ o ∈ pre, o = .eintr ∨ o = .other) ∧
      50 * (pre.count .other : Int) < r := by
  induction script with
  | nil =>
    intro r h
    rw [wait_for_start_loop] at h
    split at h <;> simp at h
  | cons o script ih =>
    intro r h
    by_cases hpos : r > 0
    · cases o with
      | eintr =>
        rw [wait_for_start_loop, if_pos hpos] at h
        obtain ⟨pre, rest, h1, h2, h3⟩ := ih r h
        refine ⟨.eintr :: pre, rest, by rw [h1]; rfl, ?_, ?_⟩
        · intro o ho
          rcases List.mem_cons.mp ho with e | e
          · exact Or.inl e
          · exact h2 o e
        · simpa [List.count_cons] using h3
      | error => simp [wait_for_start_loop] at h
      | timeout => simp [wait_for_start_loop] at h
      | start => exact ⟨[], script, rfl, by simp, by simpa using hpos⟩
      | other =>
        rw [wait_for_start_loop, if_pos hpos] at h
        obtain ⟨pre, rest, h1, h2, h3⟩ := ih (r - 50) h
        refine ⟨.other :: pre, rest, by rw [h1]; rfl, ?_, ?_⟩
        · intro o ho
          rcases List.mem_cons.mp ho with e | e
          · exact Or.inr e
          · exact h2 o e
        · have hc : (SelectOutcome.other :: pre).count .other = pre.count .other + 1 := by
            simp [List.count_cons]
          rw [hc]
          push_cast
          omega
    · cases o <;> simp [wait_for_start_loop, hpos] at h

/-- The wait has an outcome on every script with sixty rounds that were not
interrupted: the loop ends within the script. -/
theorem wait_for_start_loop_total (script : List SelectOutcome) : ∀ (r : Int),
    r ≤ 50 * ((script.length : Int) - (script.count .eintr : Int)) →
    ∃ b, wait_for_start_loop script r = some b := by
  induction script with
  | nil =>
    intro r h
    have hr : ¬ r > 0 := by simpa using h
    exact ⟨false, by simp [wait_for_start_loop, hr]⟩
  | cons o script ih =>
    intro r h
    by_cases hpos : r > 0
    · cases o with
      | eintr =>
        have hc : (SelectOutcome.eintr :: script).count .eintr = script.count .eintr + 1 := by
          simp [List.count_cons]
        rw [hc] at h
        rw [wait_for_start_loop, if_pos hpos]
        exact ih r (by simp only [List.length_cons] at h; push_cast at h; omega)
      | error => exact ⟨false, by simp [wait_for_start_loop]⟩
      | timeout => exact ⟨false, by simp [wait_for_start_loop]⟩
      | start => exact ⟨true, by simp [wait_for_start_loop, hpos]⟩
      | other =>
        have hc : (SelectOutcome.other :: script).count .eintr = script.count .eintr := by
          simp [List.count_cons]
        rw [hc] at h
        rw [wait_for_start_loop, if_pos hpos]
        exact ih (r - 50) (by simp only [List.length_cons] at h; push_cast at h; omega)
    · exact ⟨false, by cases o <;> simp [wait_for_start_loop, hpos]⟩

/-- Claim C28 as stated fails: sixty unrelated events, each readable before
the timeout, followed by a START that is readable as well. Each discarded
event takes 50 ms off the budget of 3,000 ms, so the loop ends after the
sixtieth and the START is never read. -/
theorem C28_counterexample :
    wait_for_start (List.replicate 60 SelectOutcome.other ++ [SelectOutcome.start])
      = some false := by
  decide

/-- Claim C28, amended. Let `pre` be rounds that are interrupted (EINTR) or
deliver an unrelated event. With fewer than sixty unrelated events in `pre`, a
START after `pre` gives success, and a `select` timeout or another `select`
error after `pre` gives failure. With sixty unrelated events in `pre` the wait
fails whatever follows. An interrupted round is retried and costs nothing.
Success is reached in no other way. -/
theorem C28_start_wait_budget (pre rest : List SelectOutcome)
    (hpre : ∀ o ∈ pre, o = .eintr ∨ o = .other) :
    (pre.count .other < 60 → wait_for_start (pre ++ .start :: rest) = some true) ∧
    (pre.count .other < 60 → wait_for_start (pre ++ .timeout :: rest) = some false ∧
      wait_for_start (pre ++ .error :: rest) = some false) ∧
    (60 ≤ pre.count .other → wait_for_start (pre ++ rest) = some false) ∧
    wait_for_start (.eintr :: rest) = wait_for_start rest ∧
    (∀ script, wait_for_start script = some true →
      ∃ pre1 rest1, script = pre1 ++ .start :: rest1 ∧
        (∀ o ∈ pre1, o = .eintr ∨ o = .other) ∧ pre1.count .other < 60) := by
  unfold wait_for_start kStartTimeoutMs
  refine ⟨?_, ?_, ?_, ?_, ?_⟩
  · intro h
    rw [wait_for_start_loop_append _ pre 3000 hpre (by omega), wait_for_start_loop,
      if_pos (by omega)]
  · intro h
    constructor
    · rw [wait_for_start_loop_append _ pre 3000 hpre (by omega), wait_for_start_loop,
        if_pos (by omega)]
    · rw [wait_for_start_loop_append _ pre 3000 hpre (by omega), wait_for_start_loop,
        if_pos (by omega)]
  · intro h
    exact wait_for_start_loop_exhausted rest pre 3000 hpre (by omega)
  · rw [wait_for_start_loop, if_pos (by decide)]
  · intro script h
    obtain ⟨pre1, rest1, h1, h2, h3⟩ := wait_for_start_loop_true script 3000 h
    exact ⟨pre1, rest1, h1, h2, by omega⟩

/-- Witness of the amended claim C28: an interrupted round and two unrelated
events, then the START. -/
theorem C28_start_wait_budget_witness :
    (∀ o ∈ [SelectOutcome.eintr, .other, .other], o = SelectOutcome.eintr ∨ o = .other) ∧
    wait_for_start ([SelectOutcome.eintr, .other, .other] ++ .start :: [.timeout])
      = some true :=
  ⟨by decide,
    (C28_start_wait_budget [.eintr, .other, .other] [.timeout] (by decide)).1 (by decide)⟩

/-- The runs behind C28: fifty-nine unrelated events before the START give
success, sixty give failure; interrupted rounds alone use no budget; a
`select` timeout and a `select` error give failure; a script that ends while
budget is left has no outcome. -/
theorem wait_for_start_runs :
    wait_for_start (List.replicate 59 SelectOutcome.other ++ [SelectOutcome.start])
      = some true ∧
    wait_for_start (List.replicate 60 SelectOutcome.other ++ [SelectOutcome.start])
      = some false ∧
    wait_for_start (List.replicate 200 SelectOutcome.eintr ++ [SelectOutcome.start])
      = some true ∧
    wait_for_start [SelectOutcome.timeout] = some false ∧
    wait_for_start [SelectOutcome.error] = some false ∧
    wait_for_start [SelectOutcome.other, SelectOutcome.eintr] = none := by
  decide

/-! ## Start and stop of the session -/

theorem stop_not_running (s : UhidServer) (hrun : s.m_running = false) : stop s = s := by
  simp [stop, hrun]

/-- The state after `stop` on a running session: the input state cleared, the
two neutral reports and the `DESTROY` record written, the descriptor invalid. -/
theorem stop_running (s : UhidServer) (hrun : s.m_running = true) :
    stop s = { s with
      m_running := false, m_uhidFd := -1,
      m_hasLastAbsolute := false, m_lastAbsX := 0, m_lastAbsY := 0,
      m_mouseButtons := 0, m_keyboardModifiers := 0, m_keyboardKeys := fun _ => 0,
      written := s.written ++
        [.input2 [0x02, 0, 0, 0, 0, 0, 0, 0, 0], .input2 [0x01, 0, 0, 0, 0, 0], .destroy] } := by
  unfold stop
  simp only [hrun, Bool.not_true, Bool.false_eq_true, if_false]
  rw [clearInputState_running s hrun]
  simp [uhid_destroy, uhid_write]

/-- Claim C26. For every session state, `stop` after `stop` gives the state
of one `stop`, the records written included; after `stop` the session is not
running, and its descriptor is -1 when the descriptor of a session that is not
running was -1 before (as it is in every state the operations reach). On a
running session `stop` appends the two neutral reports and the `DESTROY`
record, on a session that is not running it changes nothing. -/
theorem C26_stop_idempotent (s : UhidServer) :
    stop (stop s) = stop s ∧
    (stop s).m_running = false ∧
    (s.fdOk → (stop s).m_uhidFd = -1) ∧
    (s.m_running = true → (stop s).written = s.written ++
      [.input2 [0x02, 0, 0, 0, 0, 0, 0, 0, 0], .input2 [0x01, 0, 0, 0, 0, 0], .destroy]) ∧
    (s.m_running = false → stop s = s) := by
  cases hrun : s.m_running
  · rw [stop_not_running s hrun, stop_not_running s hrun]
    exact ⟨rfl, hrun, fun h => h hrun, fun h => absurd h (by decide), fun _ => rfl⟩
  · refine ⟨?_, ?_, ?_, ?_, fun h => absurd h (by decide)⟩
    · apply stop_not_running
      rw [stop_running s hrun]
    · rw [stop_running s hrun]
    · intro _
      rw [stop_running s hrun]
    · intro _
      rw [stop_running s hrun]

/-- Witness of claim C26 on the session with the key 'a' held: one `stop`
writes the neutral reports and the `DESTROY` record after the report of the
press, a second `stop` changes nothing; and on a session that is not running,
which `stop` leaves as it is. -/
theorem C26_stop_idempotent_witness :
    heldA.fdOk ∧ heldA.m_running = true ∧
    stop (stop heldA) = stop heldA ∧ (stop heldA).m_uhidFd = -1 ∧
    (stop heldA).written = heldA.written ++
      [.input2 [0x02, 0, 0, 0, 0, 0, 0, 0, 0], .input2 [0x01, 0, 0, 0, 0, 0], .destroy] ∧
    stoppedSession.fdOk ∧ stoppedSession.m_running = false ∧
    (stop stoppedSession).m_uhidFd = -1 ∧ stop stoppedSession = stoppedSession :=
  ⟨fun h => absurd h (by decide), rfl, (C26_stop_idempotent heldA).1,
    (C26_stop_idempotent heldA).2.2.1 (fun h => absurd h (by decide)),
    (C26_stop_idempotent heldA).2.2.2.1 rfl,
    fun _ => rfl, rfl, (C26_stop_idempotent stoppedSession).2.2.1 (fun _ => rfl),
    (C26_stop_idempotent stoppedSession).2.2.2.2 rfl⟩

/-- The runs behind C26: the records of `stop` on the fresh session, and of a
second `stop`. -/
theorem stop_runs :
    (stop freshRunning).written
      = [.input2 [2, 0, 0, 0, 0, 0, 0, 0, 0], .input2 [1, 0, 0, 0, 0, 0], .destroy] ∧
    (stop (stop freshRunning)).written
      = [.input2 [2, 0, 0, 0, 0, 0, 0, 0, 0], .input2 [1, 0, 0, 0, 0, 0], .destroy] ∧
    (stop freshRunning).m_running = false ∧ (stop freshRunning).m_uhidFd = -1 ∧
    (stop (UhidServer.new (fun _ => 0))).written = [] := by
  decide

theorem uhid_create_eq (s : UhidServer) (deviceName : List Nat) :
    uhid_create s deviceName = (if s.writeRet s.written.length < 0 then -1 else 0,
      { s with written := s.written ++ [.create2 (uhid_create_name deviceName)] }) := by
  rfl

/-- The four ways through `start` on a session that is not running. -/
theorem start_not_running (env : StartEnv) (s : UhidServer) (deviceName : List Nat)
    (hrun : s.m_running = false) :
    (env.openRet < 0 → start env s deviceName = some (false, s)) ∧
    (0 ≤ env.openRet → s.writeRet s.written.length < 0 →
      start env s deviceName = some (false,
        { s with written := s.written ++ [.create2 (uhid_create_name deviceName)] })) ∧
    (0 ≤ env.openRet → 0 ≤ s.writeRet s.written.length →
      wait_for_start env.script = some false →
      start env s deviceName = some (false,
        { s with written := s.written ++
          [.create2 (uhid_create_name deviceName), .destroy] })) ∧
    (0 ≤ env.openRet → 0 ≤ s.writeRet s.written.length →
      wait_for_start env.script = some true →
      start env s deviceName = some (true,
        { s with
          m_running := true, m_uhidFd := env.openRet,
          m_hasLastAbsolute := false, m_lastAbsX := 0, m_lastAbsY := 0,
          m_mouseButtons := 0, m_keyboardModifiers := 0, m_keyboardKeys := fun _ => 0,
          written := s.written ++ [.create2 (uhid_create_name deviceName),
            .input2 [0x02, 0, 0, 0, 0, 0, 0, 0, 0], .input2 [0x01, 0, 0, 0, 0, 0]] })) ∧
    (0 ≤ env.openRet → 0 ≤ s.writeRet s.written.length →
      wait_for_start env.script = none → start env s deviceName = none) := by
  unfold start
  simp only [hrun, Bool.false_eq_true, if_false, uhid_create_eq]
  refine ⟨?_, ?_, ?_, ?_, ?_⟩
  · intro h
    rw [if_pos h]
  · intro h1 h2
    rw [if_neg (by omega), if_pos h2, if_pos (by decide)]
  · intro h1 h2 h3
    rw [if_neg (by omega), if_neg (by omega), h3]
    simp [uhid_destroy, uhid_write]
  · intro h1 h2 h3
    rw [if_neg (by omega), if_neg (by omega), h3]
    simp only []
    rw [clearInputState_running _ rfl]
    simp
  · intro h1 h2 h3
    rw [if_neg (by omega), if_neg (by omega), h3]

/-- Claim C27. On a running session `start` returns `true` and leaves the
state, the records written included, as it is. On a session that is not
running, with the invalid descriptor -1 of such a session, and a start wait
that has the outcome `w`: `start` returns, and it returns `true` exactly when
`open` gave a descriptor, the write of the `CREATE2` record was accepted and
the wait saw the START; after `false` the session is not running, its
descriptor is -1, the input state is unchanged and the records written are
none when `open` failed, the `CREATE2` record when its write failed, and the
`CREATE2` and `DESTROY` records when the wait failed, so no input report;
after `true` the session is running on the new descriptor with the input
state cleared. -/
theorem C27_start (env : StartEnv) (s : UhidServer) (deviceName : List Nat) :
    (s.m_running = true → start env s deviceName = some (true, s)) ∧
    (s.m_running = false → s.m_uhidFd = -1 →
      ∀ w, wait_for_start env.script = some w →
      ∃ r t evs, start env s deviceName = some (r, t) ∧
        (r = true ↔ 0 ≤ env.openRet ∧ 0 ≤ s.writeRet s.written.length ∧ w = true) ∧
        t.written = s.written ++ evs ∧
        (r = false →
          t = { s with written := s.written ++ evs } ∧
          t.m_running = false ∧ t.m_uhidFd = -1 ∧
          t.m_hasLastAbsolute = s.m_hasLastAbsolute ∧ t.m_lastAbsX = s.m_lastAbsX ∧
          t.m_lastAbsY = s.m_lastAbsY ∧ t.m_mouseButtons = s.m_mouseButtons ∧
          t.m_keyboardModifiers = s.m_keyboardModifiers ∧
          t.m_keyboardKeys = s.m_keyboardKeys ∧
          (∀ ev ∈ evs, ∀ data, ev ≠ .input2 data) ∧
          (env.openRet < 0 → evs = []) ∧
          (0 ≤ env.openRet → s.writeRet s.written.length < 0 →
            evs = [.create2 (uhid_create_name deviceName)]) ∧
          (0 ≤ env.openRet → 0 ≤ s.writeRet s.written.length →
            evs = [.create2 (uhid_create_name deviceName), .destroy])) ∧
        (r = true →
          t.m_running = true ∧ t.m_uhidFd = env.openRet ∧ t.m_hasLastAbsolute = false ∧
          t.m_mouseButtons = 0 ∧ t.m_keyboardModifiers = 0 ∧ t.m_keyboardKeys = (fun _ => 0) ∧
          evs = [.create2 (uhid_create_name deviceName),
            .input2 [0x02, 0, 0, 0, 0, 0, 0, 0, 0], .input2 [0x01, 0, 0, 0, 0, 0]])) := by
  constructor
  · intro hrun
    simp [start, hrun]
  · intro hrun hfd w hw
    obtain ⟨a, b, c, d, _⟩ := start_not_running env s deviceName hrun
    by_cases h1 : env.openRet < 0
    · refine ⟨false, s, [], a h1, ?_, by simp, ?_, ?_⟩
      · constructor
        · intro h; exact absurd h (by decide)
        · intro h; omega
      · intro _
        refine ⟨by simp, hrun, hfd, rfl, rfl, rfl, rfl, rfl, rfl, by simp, fun _ => rfl, ?_, ?_⟩
        · intro h; omega
        · intro h; omega
      · intro h; exact absurd h (by decide)
    · have h1 : 0 ≤ env.openRet := by omega
      by_cases h2 : s.writeRet s.written.length < 0
      · refine ⟨false, _, [.create2 (uhid_create_name deviceName)], b h1 h2, ?_, rfl, ?_, ?_⟩
        · constructor
          · intro h; exact absurd h (by decide)
          · intro h; omega
        · intro _
          refine ⟨rfl, hrun, hfd, rfl, rfl, rfl, rfl, rfl, rfl, by simp, ?_, fun _ _ => rfl, ?_⟩
          · intro h; omega
          · intro _ h; omega
        · intro h; exact absurd h (by decide)
      · have h2 : 0 ≤ s.writeRet s.written.length := by omega
        cases w with
        | false =>
          refine ⟨false, _, [.create2 (uhid_create_name deviceName), .destroy],
            c h1 h2 hw, ?_, rfl, ?_, ?_⟩
          · constructor
            · intro h; exact absurd h (by decide)
            · intro h; exact absurd h.2.2 (by decide)
          · intro _
            refine ⟨rfl, hrun, hfd, rfl, rfl, rfl, rfl, rfl, rfl, by simp, ?_, ?_,
              fun _ _ => rfl⟩
            · intro h; omega
            · intro _ h; omega
          · intro h; exact absurd h (by decide)
        | true =>
          refine ⟨true, _, _, d h1 h2 hw, ?_, rfl, ?_, ?_⟩
          · exact ⟨fun _ => ⟨h1, h2, rfl⟩, fun _ => rfl⟩
          · intro h; exact absurd h (by decide)
          · intro _
            exact ⟨rfl, rfl, rfl, rfl, rfl, rfl, rfl⟩

/-- Witness of claim C27: a new session, `open` returning the descriptor 3,
an unrelated event and then the START in the wait; and the running fresh
session, which `start` leaves as it is. -/
theorem C27_start_witness :
    (UhidServer.new (fun _ => 0)).m_running = false ∧
    (UhidServer.new (fun _ => 0)).m_uhidFd = -1 ∧
    wait_for_start [.other, .start] = some true ∧
    (freshRunning.m_running = true ∧
      start ⟨3, [.other, .start]⟩ freshRunning [] = some (true, freshRunning)) ∧
    (∃ r t, start ⟨3, [.other, .start]⟩ (UhidServer.new (fun _ => 0)) [] = some (r, t) ∧
      (r = true ↔ (0 : Int) ≤ 3 ∧ (0 : Int) ≤ 0 ∧ true = true)) :=
  ⟨rfl, rfl, by decide,
    ⟨rfl, (C27_start ⟨3, [.other, .start]⟩ freshRunning []).1 rfl⟩,
    match (C27_start ⟨3, [.other, .start]⟩ (UhidServer.new (fun _ => 0)) []).2 rfl rfl true
      (by decide) with
    | ⟨r, t, _, h1, h2, _⟩ => ⟨r, t, h1, h2⟩⟩

set_option maxRecDepth 100000 in
/-- The name in the `CREATE2` record: the default name for the empty device
name; the bytes in front of the first NUL; the first 127 bytes of a longer
name, which can end inside a character of more than one byte (here 100 times
the two bytes c3 a9); and the empty name for a device name that starts with a
NUL. -/
theorem uhid_create_name_runs :
    uhid_create_name [] = [0x42, 0x61, 0x72, 0x72, 0x69, 0x65, 0x72, 0x56, 0x69, 0x72, 0x74,
      0x75, 0x61, 0x6c, 0x20, 0x48, 0x49, 0x44] ∧
    uhid_create_name (asciiBytes "kvm") = [0x6b, 0x76, 0x6d] ∧
    uhid_create_name [0x61, 0x62, 0x00, 0x63, 0x64] = [0x61, 0x62] ∧
    (uhid_create_name (List.replicate 200 0x41)).length = 127 ∧
    (uhid_create_name (listJoin (List.replicate 100 [0xc3, 0xa9]))).length = 127 ∧
    (uhid_create_name (listJoin (List.replicate 100 [0xc3, 0xa9]))).getLast? = some 0xc3 ∧
    uhid_create_name [0x00, 0x61] = [] :=
  ⟨by decide, by decide, by decide, by decide, by decide, by decide, by decide⟩

/-- The name in the `CREATE2` record has at most 127 bytes, none of them
NUL, and is the beginning of the name it is taken from. -/
theorem uhid_create_name_spec (deviceName : List Nat) :
    (uhid_create_name deviceName).length ≤ 127 ∧
    (∀ b ∈ uhid_create_name deviceName, b ≠ 0) ∧
    (deviceName ≠ [] → uhid_create_name deviceName <+: deviceName) ∧
    (deviceName ≠ [] → deviceName.length ≤ 127 → (∀ b ∈ deviceName, b ≠ 0) →
      uhid_create_name deviceName = deviceName) := by
  unfold uhid_create_name
  simp only []
  refine ⟨?_, ?_, ?_, ?_⟩
  · rw [List.length_take]
    omega
  · intro b hb
    have h1 := List.mem_of_mem_take hb
    have h2 := List.mem_takeWhile_imp h1
    simpa using h2
  · intro hne
    have he : deviceName.isEmpty = false := by
      cases deviceName with
      | nil => exact absurd rfl hne
      | cons a l => rfl
    rw [he]
    simp only [Bool.false_eq_true, if_false]
    exact (List.take_prefix _ _).trans (List.takeWhile_prefix _)
  · intro hne hlen hall
    have he : deviceName.isEmpty = false := by
      cases deviceName with
      | nil => exact absurd rfl hne
      | cons a l => rfl
    rw [he]
    simp only [Bool.false_eq_true, if_false]
    have ht : deviceName.takeWhile (fun b => b != 0) = deviceName := by
      rw [List.takeWhile_eq_self_iff]
      intro b hb
      simpa using hall b hb
    rw [ht]
    exact List.take_of_length_le hlen

/-- With an outcome of the start wait, `start` returns. -/
theorem start_total (env : StartEnv) (s : UhidServer) (deviceName : List Nat) (w : Bool)
    (hw : wait_for_start env.script = some w) : ∃ r, start env s deviceName = some r := by
  cases hrun : s.m_running
  · obtain ⟨a, b, c, d, _⟩ := start_not_running env s deviceName hrun
    by_cases h1 : env.openRet < 0
    · exact ⟨_, a h1⟩
    · by_cases h2 : s.writeRet s.written.length < 0
      · exact ⟨_, b (by omega) h2⟩
      · cases w with
        | false => exact ⟨_, c (by omega) (by omega) hw⟩
        | true => exact ⟨_, d (by omega) (by omega) hw⟩
  · exact ⟨(true, s), by simp [start, hrun]⟩

/-- The runs behind C27 on a new session with the default device name: the
result of `start` and the records written when the START arrives, when `open`
fails, when the write of the `CREATE2` record fails, and when the wait times
out. -/
theorem start_runs :
    (start ⟨3, [.start]⟩ (UhidServer.new (fun _ => 0)) []).map
        (fun r => (r.1, r.2.m_running, r.2.m_uhidFd, r.2.written))
      = some (true, true, 3, [.create2 (asciiBytes "BarrierVirtual HID"),
          .input2 [2, 0, 0, 0, 0, 0, 0, 0, 0], .input2 [1, 0, 0, 0, 0, 0]]) ∧
    (start ⟨-1, [.start]⟩ (UhidServer.new (fun _ => 0)) []).map
        (fun r => (r.1, r.2.m_running, r.2.m_uhidFd, r.2.written))
      = some (false, false, -1, []) ∧
    (start ⟨3, [.start]⟩ (UhidServer.new (fun _ => -1)) (asciiBytes "kvm")).map
        (fun r => (r.1, r.2.m_running, r.2.m_uhidFd, r.2.written))
      = some (false, false, -1, [.create2 [0x6b, 0x76, 0x6d]]) ∧
    (start ⟨3, [.timeout]⟩ (UhidServer.new (fun _ => 0)) (asciiBytes "kvm")).map
        (fun r => (r.1, r.2.m_running, r.2.m_uhidFd, r.2.written))
      = some (false, false, -1, [.create2 [0x6b, 0x76, 0x6d], .destroy]) :=
  ⟨by decide, by decide, by decide, by decide⟩


/-! ## The backend selector -/

/-- Claim C25. With virtual input disabled the selector returns the screen
backend without constructing a virtual backend, so without opening the device
node or writing to it. With virtual input enabled it constructs one, which
starts a session under the configured name, and returns the virtual backend
when `start` returned `true` and the screen backend when `start` returned
`false`. It returns the virtual backend in no other case, and it returns
whenever the start wait has an outcome. -/
theorem C25_backend_selector (env : StartEnv) (writeRet : Nat → Int) (args : ClientArgs) :
    (args.m_uhidEnabled = false →
      createInputBackend env writeRet args = some ⟨.screen, false, []⟩) ∧
    (args.m_uhidEnabled = true → ∀ srv,
      start env (UhidServer.new writeRet) args.m_uhidName = some (true, srv) →
      createInputBackend env writeRet args = some ⟨.uhid srv, true, srv.written⟩) ∧
    (args.m_uhidEnabled = true → ∀ srv,
      start env (UhidServer.new writeRet) args.m_uhidName = some (false, srv) →
      createInputBackend env writeRet args = some ⟨.screen, true, (stop srv).written⟩) ∧
    (∀ sel, createInputBackend env writeRet args = some sel →
      (sel.backend.isUhid = true ↔ args.m_uhidEnabled = true ∧
        ∃ srv, start env (UhidServer.new writeRet) args.m_uhidName = some (true, srv)) ∧
      (sel.backend.isUhid = false ↔ sel.backend = .screen) ∧
      (sel.constructed = true ↔ args.m_uhidEnabled = true)) ∧
    (∀ w, wait_for_start env.script = some w →
      ∃ sel, createInputBackend env writeRet args = some sel) := by
  unfold createInputBackend
  cases hen : args.m_uhidEnabled
  · refine ⟨fun _ => rfl, fun h => absurd h (by decide), fun h => absurd h (by decide), ?_,
      fun _ _ => ⟨_, rfl⟩⟩
    intro sel h
    simp only [Bool.not_false, if_true, Option.some.injEq] at h
    subst h
    simp [InputBackend.isUhid]
  · simp only [Bool.not_true, Bool.false_eq_true, if_false]
    refine ⟨fun h => absurd h (by decide), ?_, ?_, ?_, ?_⟩
    · intro _ srv h
      rw [h]
      rfl
    · intro _ srv h
      rw [h]
      rfl
    · intro sel h
      cases hs : start env (UhidServer.new writeRet) args.m_uhidName with
      | none => rw [hs] at h; simp at h
      | some r =>
        obtain ⟨b, srv⟩ := r
        rw [hs] at h
        cases b with
        | false =>
          simp only [Bool.false_eq_true, if_false, Option.some.injEq] at h
          subst h
          simp [InputBackend.isUhid]
        | true =>
          simp only [if_true, Option.some.injEq] at h
          subst h
          simp [InputBackend.isUhid]
    · intro w hw
      obtain ⟨r, hr⟩ := start_total env (UhidServer.new writeRet) args.m_uhidName w hw
      rw [hr]
      simp only []
      split
      · exact ⟨_, rfl⟩
      · exact ⟨_, rfl⟩

/-- Witness of claim C25: virtual input enabled and a START in the wait give
the virtual backend; virtual input disabled gives the screen backend with
nothing constructed or written. -/
theorem C25_backend_selector_witness :
    (createInputBackend ⟨3, [.start]⟩ (fun _ => 0) ⟨false, asciiBytes "kvm"⟩).map
        (fun sel => (sel.backend.isUhid, sel.constructed, sel.written))
      = some (false, false, []) ∧
    (∃ sel, createInputBackend ⟨3, [.start]⟩ (fun _ => 0) ⟨true, asciiBytes "kvm"⟩ = some sel ∧
      sel.backend.isUhid = true) :=
  ⟨by rw [(C25_backend_selector ⟨3, [.start]⟩ (fun _ => 0) ⟨false, asciiBytes "kvm"⟩).1 rfl]; rfl,
    match (C25_backend_selector ⟨3, [.start]⟩ (fun _ => 0) ⟨true, asciiBytes "kvm"⟩).2.2.2.2 true
      (by decide) with
    | ⟨sel, h⟩ => ⟨sel, h,
        ((C25_backend_selector ⟨3, [.start]⟩ (fun _ => 0) ⟨true, asciiBytes "kvm"⟩).2.2.2.1 sel h).1.mpr
          ⟨rfl, _, ((start_not_running ⟨3, [.start]⟩ (UhidServer.new (fun _ => 0)) (asciiBytes "kvm")
            rfl).2.2.2.1 (by decide) (by decide) (by decide))⟩⟩⟩

/-- The runs behind C25: the backend chosen, whether a virtual backend was
constructed, and the records written, with virtual input disabled, with a
START in the wait, with a timeout of the wait, with a failing `open`, and with
a failing write of the `CREATE2` record. -/
theorem createInputBackend_runs :
    (createInputBackend ⟨3, [.start]⟩ (fun _ => 0) ⟨false, asciiBytes "kvm"⟩).map
        (fun sel => (sel.backend.isUhid, sel.constructed, sel.written))
      = some (false, false, []) ∧
    (createInputBackend ⟨3, [.start]⟩ (fun _ => 0) ⟨true, asciiBytes "kvm"⟩).map
        (fun sel => (sel.backend.isUhid, sel.constructed, sel.written))
      = some (true, true, [.create2 [0x6b, 0x76, 0x6d], .input2 [2, 0, 0, 0, 0, 0, 0, 0, 0],
          .input2 [1, 0, 0, 0, 0, 0]]) ∧
    (createInputBackend ⟨3, [.timeout]⟩ (fun _ => 0) ⟨true, asciiBytes "kvm"⟩).map
        (fun sel => (sel.backend.isUhid, sel.constructed, sel.written))
      = some (false, true, [.create2 [0x6b, 0x76, 0x6d], .destroy]) ∧
    (createInputBackend ⟨-1, [.start]⟩ (fun _ => 0) ⟨true, asciiBytes "kvm"⟩).map
        (fun sel => (sel.backend.isUhid, sel.constructed, sel.written))
      = some (false, true, []) ∧
    (createInputBackend ⟨3, [.start]⟩ (fun _ => -1) ⟨true, asciiBytes "kvm"⟩).map
        (fun sel => (sel.backend.isUhid, sel.constructed, sel.written))
      = some (false, true, [.create2 [0x6b, 0x76, 0x6d]]) :=
  ⟨by decide, by decide, by decide, by decide, by decide⟩

/-! ## The descriptor of a session that is not running -/

theorem sendKeyboardReport_session (s : UhidServer) :
    (sendKeyboardReport s).2.m_running = s.m_running ∧
    (sendKeyboardReport s).2.m_uhidFd = s.m_uhidFd := by
  unfold sendKeyboardReport
  split <;> exact ⟨rfl, rfl⟩

theorem sendMouseReport_session (s : UhidServer) (dx dy wheel pan : Int) :
    (sendMouseReport s dx dy wheel pan).2.m_running = s.m_running ∧
    (sendMouseReport s dx dy wheel pan).2.m_uhidFd = s.m_uhidFd := by
  unfold sendMouseReport
  split <;> exact ⟨rfl, rfl⟩

theorem clearInputState_session (s : UhidServer) :
    (clearInputState s).m_running = s.m_running ∧
    (clearInputState s).m_uhidFd = s.m_uhidFd := by
  unfold clearInputState
  simp only []
  split
  · obtain ⟨a, b⟩ := sendMouseReport_session (sendKeyboardReport { s with
      m_hasLastAbsolute := false, m_lastAbsX := 0, m_lastAbsY := 0,
      m_mouseButtons := 0, m_keyboardModifiers := 0, m_keyboardKeys := fun _ => 0 }).2 0 0 0 0
    obtain ⟨c, d⟩ := sendKeyboardReport_session { s with
      m_hasLastAbsolute := false, m_lastAbsX := 0, m_lastAbsY := 0,
      m_mouseButtons := 0, m_keyboardModifiers := 0, m_keyboardKeys := fun _ => 0 }
    exact ⟨a.trans c, b.trans d⟩
  · exact ⟨rfl, rfl⟩

theorem keyDown_session (K : KeyTypes) (s : UhidServer) (id mask : Nat) :
    (keyDown K s id mask).2.m_running = s.m_running ∧
    (keyDown K s id mask).2.m_uhidFd = s.m_uhidFd := by
  rcases Bool.eq_false_or_eq_true s.m_running with hrun | hrun
  · rw [keyDown_running K s id mask hrun]
    split
    · exact sendKeyboardReport_session _
    · split
      · exact ⟨rfl, rfl⟩
      · exact sendKeyboardReport_session _
  · rw [keyDown_not_running K s id mask hrun]
    exact ⟨rfl, rfl⟩

theorem keyUp_session (K : KeyTypes) (s : UhidServer) (id mask : Nat) :
    (keyUp K s id mask).2.m_running = s.m_running ∧
    (keyUp K s id mask).2.m_uhidFd = s.m_uhidFd := by
  rcases Bool.eq_false_or_eq_true s.m_running with hrun | hrun
  · rw [keyUp_running K s id mask hrun]
    split
    · exact sendKeyboardReport_session _
    · split
      · exact ⟨rfl, rfl⟩
      · exact sendKeyboardReport_session _
  · rw [keyUp_not_running K s id mask hrun]
    exact ⟨rfl, rfl⟩

theorem keyRepeatLoop_session (K : KeyTypes) (id mask : Nat) (n : Nat) : ∀ s : UhidServer,
    (keyRepeatLoop K id mask n s).m_running = s.m_running ∧
    (keyRepeatLoop K id mask n s).m_uhidFd = s.m_uhidFd := by
  induction n with
  | zero => intro s; exact ⟨rfl, rfl⟩
  | succ n ih =>
    intro s
    obtain ⟨a, b⟩ := ih (keyUp K (keyDown K s id mask).2 id mask).2
    obtain ⟨c, d⟩ := keyUp_session K (keyDown K s id mask).2 id mask
    obtain ⟨e, f⟩ := keyDown_session K s id mask
    exact ⟨a.trans (c.trans e), b.trans (d.trans f)⟩

theorem keyRepeat_session (K : KeyTypes) (s : UhidServer) (id mask : Nat) (count : Int) :
    (keyRepeat K s id mask count).2.m_running = s.m_running ∧
    (keyRepeat K s id mask count).2.m_uhidFd = s.m_uhidFd := by
  rw [keyRepeat_snd]
  split
  · exact keyRepeatLoop_session K id mask _ s
  · exact ⟨rfl, rfl⟩

theorem updateMouseButtons_session (K : KeyTypes) (s : UhidServer) (id : Nat) (pressed : Bool) :
    (updateMouseButtons K s id pressed).2.m_running = s.m_running ∧
    (updateMouseButtons K s id pressed).2.m_uhidFd = s.m_uhidFd := by
  unfold updateMouseButtons
  simp only []
  split
  · exact ⟨rfl, rfl⟩
  · cases pressed
    · exact sendMouseReport_session _ 0 0 0 0
    · exact sendMouseReport_session _ 0 0 0 0

theorem mouseDown_session (K : KeyTypes) (s : UhidServer) (id : Nat) :
    (mouseDown K s id).2.m_running = s.m_running ∧
    (mouseDown K s id).2.m_uhidFd = s.m_uhidFd := by
  unfold mouseDown
  split
  · exact ⟨rfl, rfl⟩
  · exact updateMouseButtons_session K s id true

theorem mouseUp_session (K : KeyTypes) (s : UhidServer) (id : Nat) :
    (mouseUp K s id).2.m_running = s.m_running ∧
    (mouseUp K s id).2.m_uhidFd = s.m_uhidFd := by
  unfold mouseUp
  split
  · exact ⟨rfl, rfl⟩
  · exact updateMouseButtons_session K s id false

/-- The loop of `sendRelativeMotion` leaves the session fields and the stored
absolute point alone. -/
theorem sendRelativeMotionLoop_session (f : Nat) : ∀ (s : UhidServer) (dx dy : Int)
    (r : Bool × UhidServer), sendRelativeMotionLoop f s dx dy = some r →
    r.2.m_running = s.m_running ∧ r.2.m_uhidFd = s.m_uhidFd ∧
    r.2.m_hasLastAbsolute = s.m_hasLastAbsolute ∧ r.2.m_lastAbsX = s.m_lastAbsX ∧
    r.2.m_lastAbsY = s.m_lastAbsY := by
  induction f with
  | zero => intro s dx dy r h; simp [sendRelativeMotionLoop] at h
  | succ f ih =>
    intro s dx dy r h
    rw [sendRelativeMotionLoop] at h
    simp only [] at h
    have hm : ∀ a b, (sendMouseReport s a b 0 0).2.m_running = s.m_running ∧
        (sendMouseReport s a b 0 0).2.m_uhidFd = s.m_uhidFd ∧
        (sendMouseReport s a b 0 0).2.m_hasLastAbsolute = s.m_hasLastAbsolute ∧
        (sendMouseReport s a b 0 0).2.m_lastAbsX = s.m_lastAbsX ∧
        (sendMouseReport s a b 0 0).2.m_lastAbsY = s.m_lastAbsY := by
      intro a b
      unfold sendMouseReport
      split <;> exact ⟨rfl, rfl, rfl, rfl, rfl⟩
    split at h
    · split at h
      · rw [← Option.some.inj h]
        exact hm _ _
      · obtain ⟨a, b, c, d, e⟩ := ih _ _ _ r h
        obtain ⟨a', b', c', d', e'⟩ := hm (toS8 (max (-127) (min 127 dx)))
          (toS8 (max (-127) (min 127 dy)))
        exact ⟨a.trans a', b.trans b', c.trans c', d.trans d', e.trans e'⟩
    · rw [← Option.some.inj h]
      exact ⟨rfl, rfl, rfl, rfl, rfl⟩

theorem sendWheelMotionLoop_session (f : Nat) : ∀ (s : UhidServer) (w p : Int)
    (r : Bool × UhidServer), sendWheelMotionLoop f s w p = some r →
    r.2.m_running = s.m_running ∧ r.2.m_uhidFd = s.m_uhidFd := by
  induction f with
  | zero => intro s w p r h; simp [sendWheelMotionLoop] at h
  | succ f ih =>
    intro s w p r h
    rw [sendWheelMotionLoop] at h
    simp only [] at h
    split at h
    · split at h
      · rw [← Option.some.inj h]
        exact sendMouseReport_session s _ _ _ _
      · obtain ⟨a, b⟩ := ih _ _ _ r h
        obtain ⟨a', b'⟩ := sendMouseReport_session s 0 0 (toS8 (max (-127) (min 127 w)))
          (toS8 (max (-127) (min 127 p)))
        exact ⟨a.trans a', b.trans b'⟩
    · rw [← Option.some.inj h]
      exact ⟨rfl, rfl⟩

theorem mouseRelativeMove_session (fuel : Nat) (s : UhidServer) (dx dy : Int)
    (r : Bool × UhidServer) (h : mouseRelativeMove fuel s dx dy = some r) :
    r.2.m_running = s.m_running ∧ r.2.m_uhidFd = s.m_uhidFd := by
  unfold mouseRelativeMove sendRelativeMotion at h
  split at h
  · rw [← Option.some.inj h]
    exact ⟨rfl, rfl⟩
  · obtain ⟨a, b, _⟩ := sendRelativeMotionLoop_session fuel s dx dy r h
    exact ⟨a, b⟩

theorem mouseWheel_session (fuel : Nat) (s : UhidServer) (xDelta yDelta : Int)
    (r : Bool × UhidServer) (h : mouseWheel fuel s xDelta yDelta = some r) :
    r.2.m_running = s.m_running ∧ r.2.m_uhidFd = s.m_uhidFd := by
  unfold mouseWheel sendWheelMotion at h
  split at h
  · rw [← Option.some.inj h]
    exact ⟨rfl, rfl⟩
  · exact sendWheelMotionLoop_session fuel s _ _ r h

/-- After an absolute move on a running session the stored point is the
argument of the call; the session fields are left alone. -/
theorem mouseMoveAbsolute_session (fuel : Nat) (s : UhidServer) (x y : Int)
    (r : Bool × UhidServer) (h : mouseMoveAbsolute fuel s x y = some r) :
    r.2.m_running = s.m_running ∧ r.2.m_uhidFd = s.m_uhidFd ∧
    (s.m_running = true →
      r.2.m_hasLastAbsolute = true ∧ r.2.m_lastAbsX = x ∧ r.2.m_lastAbsY = y) := by
  cases hrun : s.m_running
  · simp only [mouseMoveAbsolute, hrun, Bool.not_false, if_true, Option.some.injEq] at h
    rw [← h]
    exact ⟨hrun, rfl, fun h => absurd h (by decide)⟩
  · cases hlast : s.m_hasLastAbsolute
    · rw [mouseMoveAbsolute_first fuel s x y hrun hlast] at h
      rw [← Option.some.inj h]
      exact ⟨hrun, rfl, fun _ => ⟨rfl, rfl, rfl⟩⟩
    · rw [mouseMoveAbsolute_later fuel s x y hrun hlast] at h
      obtain ⟨a, b, c, d, e⟩ := sendRelativeMotionLoop_session fuel _ _ _ r h
      exact ⟨a.trans hrun, b, fun _ => ⟨c.trans hlast, d, e⟩⟩

/-- In every state the operations reach from the constructor, a session that
is not running has the descriptor -1. -/
theorem fdOk_of_reachable (K : KeyTypes) (s : UhidServer) (h : SessionReachable K s) :
    s.fdOk := by
  have same : ∀ (s t : UhidServer), s.fdOk → t.m_running = s.m_running ∧
      t.m_uhidFd = s.m_uhidFd → t.fdOk := by
    intro s t hs ht hr
    rw [ht.2]
    exact hs (ht.1.symm.trans hr)
  induction h with
  | new writeRet => intro _; rfl
  | start env s deviceName r _ hr ih =>
    cases hrun : s.m_running
    · obtain ⟨a, b, c, d, e⟩ := start_not_running env s deviceName hrun
      by_cases h1 : env.openRet < 0
      · rw [a h1] at hr
        rw [← Option.some.inj hr]
        exact ih
      · by_cases h2 : s.writeRet s.written.length < 0
        · rw [b (by omega) h2] at hr
          rw [← Option.some.inj hr]
          exact same s _ ih ⟨rfl, rfl⟩
        · cases hw : wait_for_start env.script with
          | none => rw [e (by omega) (by omega) hw] at hr; simp at hr
          | some w =>
            cases w with
            | false =>
              rw [c (by omega) (by omega) hw] at hr
              rw [← Option.some.inj hr]
              exact same s _ ih ⟨rfl, rfl⟩
            | true =>
              rw [d (by omega) (by omega) hw] at hr
              rw [← Option.some.inj hr]
              intro h
              exact absurd h (Bool.noConfusion)
    · have : start env s deviceName = some (true, s) := by simp [start, hrun]
      rw [this] at hr
      rw [← Option.some.inj hr]
      exact ih
  | stop s _ ih =>
    cases hrun : s.m_running
    · rw [stop_not_running s hrun]
      exact ih
    · rw [stop_running s hrun]
      intro _
      rfl
  | clear s _ ih => exact same s _ ih (clearInputState_session s)
  | keyDown s id mask _ ih => exact same s _ ih (keyDown_session K s id mask)
  | keyUp s id mask _ ih => exact same s _ ih (keyUp_session K s id mask)
  | keyRepeat s id mask count _ ih => exact same s _ ih (keyRepeat_session K s id mask count)
  | mouseDown s id _ ih => exact same s _ ih (mouseDown_session K s id)
  | mouseUp s id _ ih => exact same s _ ih (mouseUp_session K s id)
  | mouseMoveAbsolute fuel s x y r _ hr ih =>
    obtain ⟨a, b, _⟩ := mouseMoveAbsolute_session fuel s x y r hr
    exact same s _ ih ⟨a, b⟩
  | mouseRelativeMove fuel s dx dy r _ hr ih =>
    exact same s _ ih (mouseRelativeMove_session fuel s dx dy r hr)
  | mouseWheel fuel s xDelta yDelta r _ hr ih =>
    exact same s _ ih (mouseWheel_session fuel s xDelta yDelta r hr)

/-! ## Sequences of absolute moves -/

theorem wrap32_of_representable (d : Int) (h : -2147483648 ≤ d ∧ d ≤ 2147483647) :
    wrap32 d = d := by
  unfold wrap32
  omega

theorem mouseMoveAbsolute_mono (f : Nat) (s : UhidServer) (x y : Int) (r : Bool × UhidServer)
    (h : mouseMoveAbsolute f s x y = some r) (k : Nat) :
    mouseMoveAbsolute (f + k) s x y = some r := by
  unfold mouseMoveAbsolute sendRelativeMotion at h ⊢
  split
  · rename_i h1
    rw [if_pos h1] at h
    exact h
  · rename_i h1
    rw [if_neg h1] at h
    split
    · rename_i h2
      rw [if_pos h2] at h
      exact h
    · rename_i h2
      rw [if_neg h2] at h
      simp only [] at h ⊢
      split
      · rename_i h3
        rw [if_pos h3] at h
        exact h
      · rename_i h3
        rw [if_neg h3] at h
        exact sendRelativeMotionLoop_mono f _ _ _ r h k

theorem mouseMoveAbsoluteAll_mono (f : Nat) : ∀ (ps : List (Int × Int)) (s t : UhidServer),
    mouseMoveAbsoluteAll f s ps = some t → ∀ k, mouseMoveAbsoluteAll (f + k) s ps = some t := by
  intro ps
  induction ps with
  | nil => intro s t h k; exact h
  | cons p ps ih =>
    intro s t h k
    rw [mouseMoveAbsoluteAll] at h ⊢
    cases hm : mouseMoveAbsolute f s p.1 p.2 with
    | none => rw [hm] at h; simp at h
    | some r =>
      rw [hm] at h
      rw [mouseMoveAbsolute_mono f s p.1 p.2 r hm k]
      exact ih r.2 t h k

/-- Two runs of a sequence of absolute moves that both finish agree. -/
theorem mouseMoveAbsoluteAll_det (f g : Nat) (ps : List (Int × Int)) (s t u : UhidServer)
    (h : mouseMoveAbsoluteAll f s ps = some t) (h1 : mouseMoveAbsoluteAll g s ps = some u) :
    t = u := by
  have a := mouseMoveAbsoluteAll_mono f ps s t h g
  have b := mouseMoveAbsoluteAll_mono g ps s u h1 f
  rw [Nat.add_comm] at b
  rw [a] at b
  exact Option.some.inj b

/-- Absolute moves from a stored point on: the reports written carry steps
that add up to the way from the stored point to the last point. -/
theorem mouseMoveAbsoluteAll_later : ∀ (ps : List (Int × Int)) (s : UhidServer),
    s.m_running = true → s.writesSucceed → s.m_hasLastAbsolute = true →
    List.Chain stepRepresentable (s.m_lastAbsX, s.m_lastAbsY) ps →
    ∃ (fuel : Nat) (evs : List UhidEvent),
      mouseMoveAbsoluteAll fuel s ps = some { s with
        m_lastAbsX := (lastPoint (s.m_lastAbsX, s.m_lastAbsY) ps).1,
        m_lastAbsY := (lastPoint (s.m_lastAbsX, s.m_lastAbsY) ps).2,
        written := s.written ++ evs } ∧
      (evs.map UhidEvent.stepX).sum = (lastPoint (s.m_lastAbsX, s.m_lastAbsY) ps).1 - s.m_lastAbsX ∧
      (evs.map UhidEvent.stepY).sum = (lastPoint (s.m_lastAbsX, s.m_lastAbsY) ps).2 - s.m_lastAbsY ∧
      ∀ ev ∈ evs, ev.isMouseReport := by
  intro ps
  induction ps with
  | nil =>
    intro s _ _ _ _
    exact ⟨0, [], by simp [mouseMoveAbsoluteAll, lastPoint], by simp [lastPoint], by simp [lastPoint], by simp⟩
  | cons p ps ih =>
    intro s hrun hw hlast hch
    obtain ⟨hstep, hrest⟩ := List.chain_cons.mp hch
    obtain ⟨evs1, h1, sx1, sy1, hall1⟩ := sendRelativeMotionLoop_spec
      ((p.1 - s.m_lastAbsX).natAbs + (p.2 - s.m_lastAbsY).natAbs + 1)
      { s with m_lastAbsX := p.1, m_lastAbsY := p.2 } (p.1 - s.m_lastAbsX) (p.2 - s.m_lastAbsY)
      hrun hw (by omega)
    obtain ⟨f2, evs2, h2, sx2, sy2, hall2⟩ := ih
      { s with m_lastAbsX := p.1, m_lastAbsY := p.2, written := s.written ++ evs1 }
      hrun hw hlast hrest
    refine ⟨((p.1 - s.m_lastAbsX).natAbs + (p.2 - s.m_lastAbsY).natAbs + 1) + f2,
      evs1 ++ evs2, ?_, ?_, ?_, ?_⟩
    · rw [mouseMoveAbsoluteAll, mouseMoveAbsolute_later _ s p.1 p.2 hrun hlast,
        wrap32_of_representable _ hstep.1, wrap32_of_representable _ hstep.2,
        sendRelativeMotionLoop_mono _ _ _ _ _ h1 f2]
      simp only []
      rw [Nat.add_comm, mouseMoveAbsoluteAll_mono f2 _ _ _ h2]
      simp [lastPoint, List.append_assoc]
    · simp only [List.map_append, List.sum_append, sx1, sx2, lastPoint]
      ring
    · simp only [List.map_append, List.sum_append, sy1, sy2, lastPoint]
      ring
    · intro ev hev
      rcases List.mem_append.mp hev with h | h
      · exact (hall1 ev h).1
      · exact hall2 ev h

/-- Claim C29. On a running session without a stored absolute point and
with successful writes, for absolute moves to the points `p0, p1, ..., pn`
whose consecutive coordinate differences are `SInt32` values: the first call
returns `true`, writes nothing and stores `p0`; the whole sequence ends (given
enough loop iterations, and with the same state whenever it ends) with the
stored point `pn` and with mouse reports appended whose x steps add up to
`xn - x0` and whose y steps add up to `yn - y0`. After every absolute move on
a running session the stored point is the argument of the call. -/
theorem C29_absolute_moves_telescope (s : UhidServer) (p0 : Int × Int)
    (ps : List (Int × Int)) (hrun : s.m_running = true) (hw : s.writesSucceed)
    (hfirst : s.m_hasLastAbsolute = false) (hrep : List.Chain stepRepresentable p0 ps) :
    (∀ fuel, mouseMoveAbsolute fuel s p0.1 p0.2 = some (true,
      { s with m_lastAbsX := p0.1, m_lastAbsY := p0.2, m_hasLastAbsolute := true })) ∧
    (∃ evs : List UhidEvent,
      (∃ fuel, mouseMoveAbsoluteAll fuel s (p0 :: ps) = some { s with
        m_hasLastAbsolute := true, m_lastAbsX := (lastPoint p0 ps).1,
        m_lastAbsY := (lastPoint p0 ps).2, written := s.written ++ evs }) ∧
      (∀ fuel t, mouseMoveAbsoluteAll fuel s (p0 :: ps) = some t → t = { s with
        m_hasLastAbsolute := true, m_lastAbsX := (lastPoint p0 ps).1,
        m_lastAbsY := (lastPoint p0 ps).2, written := s.written ++ evs }) ∧
      (evs.map UhidEvent.stepX).sum = (lastPoint p0 ps).1 - p0.1 ∧
      (evs.map UhidEvent.stepY).sum = (lastPoint p0 ps).2 - p0.2 ∧
      ∀ ev ∈ evs, ev.isMouseReport) ∧
    (∀ (t : UhidServer) (fuel : Nat) (x y : Int) (r : Bool × UhidServer),
      t.m_running = true → mouseMoveAbsolute fuel t x y = some r →
      r.2.m_hasLastAbsolute = true ∧ r.2.m_lastAbsX = x ∧ r.2.m_lastAbsY = y) := by
  refine ⟨fun fuel => mouseMoveAbsolute_first fuel s p0.1 p0.2 hrun hfirst, ?_, ?_⟩
  · obtain ⟨fuel, evs, h, sx, sy, hall⟩ := mouseMoveAbsoluteAll_later ps
      { s with m_lastAbsX := p0.1, m_lastAbsY := p0.2, m_hasLastAbsolute := true }
      hrun hw rfl hrep
    have hrun1 : mouseMoveAbsoluteAll fuel s (p0 :: ps) = some { s with
        m_hasLastAbsolute := true, m_lastAbsX := (lastPoint p0 ps).1,
        m_lastAbsY := (lastPoint p0 ps).2, written := s.written ++ evs } := by
      rw [mouseMoveAbsoluteAll, mouseMoveAbsolute_first fuel s p0.1 p0.2 hrun hfirst]
      exact h
    refine ⟨evs, ⟨fuel, hrun1⟩, ?_, sx, sy, hall⟩
    intro fuel1 t ht
    exact mouseMoveAbsoluteAll_det _ _ _ s _ _ ht hrun1
  · intro t fuel x y r ht hr
    exact (mouseMoveAbsolute_session fuel t x y r hr).2.2 ht

/-- Witness of claim C29 on the fresh running session: the points (10, 10),
(210, -290), (0, 0). -/
theorem C29_absolute_moves_telescope_witness :
    freshRunning.m_running = true ∧ freshRunning.writesSucceed ∧
    freshRunning.m_hasLastAbsolute = false ∧
    List.Chain stepRepresentable (10, 10) [(210, -290), (0, 0)] ∧
    (∃ evs : List UhidEvent,
      (∃ fuel, mouseMoveAbsoluteAll fuel freshRunning [(10, 10), (210, -290), (0, 0)]
        = some { freshRunning with
          m_hasLastAbsolute := true, m_lastAbsX := 0, m_lastAbsY := 0,
          written := freshRunning.written ++ evs }) ∧
      (evs.map UhidEvent.stepX).sum = 0 - 10 ∧ (evs.map UhidEvent.stepY).sum = 0 - 10) :=
  ⟨rfl, fun _ => le_refl _, rfl,
    List.Chain.cons (by decide) (List.Chain.cons (by decide) List.Chain.nil),
    match (C29_absolute_moves_telescope freshRunning (10, 10) [(210, -290), (0, 0)] rfl
      (fun _ => le_refl _) rfl
      (List.Chain.cons (by decide) (List.Chain.cons (by decide) List.Chain.nil))).2.1 with
    | ⟨evs, h1, _, h3, h4, _⟩ => ⟨evs, h1, h3, h4⟩⟩

/-- The run behind C29 on the fresh running session: the moves to (10, 10),
(210, -290) and (0, 0) write the steps (127, -127), (73, -127), (0, -46) and
then (-127, 127), (-83, 127), (0, 36); the x steps add up to -10 and the y
steps to -10. -/
theorem absolute_moves_run :
    (mouseMoveAbsoluteAll 4 freshRunning [(10, 10), (210, -290), (0, 0)]).map
        (fun t => (t.m_lastAbsX, t.m_lastAbsY, t.written.map (fun ev => (ev.stepX, ev.stepY))))
      = some (0, 0, [(127, -127), (73, -127), (0, -46), (-127, 127), (-83, 127), (0, 36)]) ∧
    (mouseMoveAbsoluteAll 4 freshRunning [(10, 10)]).map (fun t => t.written) = some [] := by
  decide

/-! ## The number of reports of a relative move -/

/-- The count `ceilDiv127 n` is the ceiling of `n / 127`: the least `c` with
`n ≤ 127 * c`, and the ceiling of the quotient as a rational number. -/
theorem ceilDiv127_spec (n : Nat) :
    n ≤ 127 * ceilDiv127 n ∧ (∀ c, n ≤ 127 * c → ceilDiv127 n ≤ c) ∧
    ⌈(n : ℚ) / 127⌉₊ = ceilDiv127 n := by
  have h1 : n ≤ 127 * ceilDiv127 n := by unfold ceilDiv127; omega
  have h2 : ∀ c, n ≤ 127 * c → ceilDiv127 n ≤ c := by
    intro c hc; unfold ceilDiv127; omega
  refine ⟨h1, h2, le_antisymm ?_ ?_⟩
  · rw [Nat.ceil_le, div_le_iff₀ (by norm_num)]
    have : (n : ℚ) ≤ ((127 * ceilDiv127 n : Nat) : ℚ) := by exact_mod_cast h1
    push_cast at this
    linarith
  · apply h2
    have h := Nat.le_ceil ((n : ℚ) / 127)
    rw [div_le_iff₀ (by norm_num)] at h
    have : (n : ℚ) ≤ ((127 * ⌈(n : ℚ) / 127⌉₊ : Nat) : ℚ) := by
      push_cast
      linarith
    exact_mod_cast this

/-- One iteration of the loop takes one off the count of each axis that is
not exhausted. -/
theorem ceilDiv127_step (d : Int) :
    ceilDiv127 (d - max (-127) (min 127 d)).natAbs = ceilDiv127 d.natAbs - 1 ∧
    (d ≠ 0 → 0 < ceilDiv127 d.natAbs) ∧ (d = 0 → ceilDiv127 d.natAbs = 0) := by
  unfold ceilDiv127
  omega

theorem reportCountSpec_step (dx dy : Int) (hc : dx ≠ 0 ∨ dy ≠ 0) :
    reportCountSpec dx dy
      = reportCountSpec (dx - max (-127) (min 127 dx)) (dy - max (-127) (min 127 dy)) + 1 := by
  obtain ⟨a1, a2, a3⟩ := ceilDiv127_step dx
  obtain ⟨b1, b2, b3⟩ := ceilDiv127_step dy
  unfold reportCountSpec
  rw [a1, b1]
  rcases hc with h | h
  · have := a2 h; omega
  · have := b2 h; omega

theorem reportCountSpec_zero (dx dy : Int) (hc : ¬ (dx ≠ 0 ∨ dy ≠ 0)) :
    reportCountSpec dx dy = 0 := by
  have hx : dx = 0 := by omega
  have hy : dy = 0 := by omega
  subst hx hy
  rfl

/-- The loop of `sendRelativeMotion` ends in every state, whatever the writes
return, within `reportCountSpec dx dy` iterations and the final test. -/
theorem sendRelativeMotionLoop_total (f : Nat) : ∀ (s : UhidServer) (dx dy : Int),
    reportCountSpec dx dy < f → ∃ r, sendRelativeMotionLoop f s dx dy = some r := by
  induction f with
  | zero => intro s dx dy h; omega
  | succ f ih =>
    intro s dx dy hf
    rw [sendRelativeMotionLoop]
    simp only []
    by_cases hc : dx ≠ 0 ∨ dy ≠ 0
    · rw [if_pos hc]
      split
      · exact ⟨_, rfl⟩
      · apply ih
        rw [reportCountSpec_step dx dy hc] at hf
        omega
    · rw [if_neg hc]
      exact ⟨_, rfl⟩

/-- With successful writes the loop needs all of its iterations: with fuel
for no more than `reportCountSpec dx dy` tests it has not ended. -/
theorem sendRelativeMotionLoop_none (f : Nat) : ∀ (s : UhidServer) (dx dy : Int),
    s.m_running = true → s.writesSucceed → f ≤ reportCountSpec dx dy →
    sendRelativeMotionLoop f s dx dy = none := by
  induction f with
  | zero => intro s dx dy _ _ _; rfl
  | succ f ih =>
    intro s dx dy hrun hw hf
    have hc : dx ≠ 0 ∨ dy ≠ 0 := by
      by_contra hn
      rw [reportCountSpec_zero dx dy hn] at hf
      omega
    rw [sendRelativeMotionLoop]
    simp only []
    rw [if_pos hc, sendMouseReport_ok s _ _ 0 0 hrun hw]
    simp only [Bool.not_true, Bool.false_eq_true, if_false]
    refine ih _ _ _ ?_ ?_ ?_
    · exact hrun
    · exact hw
    · rw [reportCountSpec_step dx dy hc] at hf
      omega

/-- With successful writes the loop writes `reportCountSpec dx dy` reports;
the report number `i` carries a non-zero x step exactly when `i` is below the
count of the x axis, and likewise for y. -/
theorem sendRelativeMotionLoop_count (f : Nat) : ∀ (s : UhidServer) (dx dy : Int),
    s.m_running = true → s.writesSucceed → reportCountSpec dx dy < f →
    ∃ evs : List UhidEvent,
      sendRelativeMotionLoop f s dx dy = some (true, { s with written := s.written ++ evs }) ∧
      evs.length = reportCountSpec dx dy ∧
      ∀ i ev, evs[i]? = some ev →
        ev.isMouseReport ∧
        (ev.stepX ≠ 0 ↔ i < ceilDiv127 dx.natAbs) ∧
        (ev.stepY ≠ 0 ↔ i < ceilDiv127 dy.natAbs) := by
  induction f with
  | zero => intro s dx dy _ _ h; omega
  | succ f ih =>
    intro s dx dy hrun hw hf
    by_cases hc : dx ≠ 0 ∨ dy ≠ 0
    · obtain ⟨x1, x2, _, _⟩ := clamp_bounds dx
      obtain ⟨y1, y2, _, _⟩ := clamp_bounds dy
      obtain ⟨a1, a2, a3⟩ := ceilDiv127_step dx
      obtain ⟨b1, b2, b3⟩ := ceilDiv127_step dy
      have hstep := reportCountSpec_step dx dy hc
      have hs := sendMouseReport_ok s (toS8 (max (-127) (min 127 dx)))
        (toS8 (max (-127) (min 127 dy))) 0 0 hrun hw
      rw [toS8_of_small _ (by omega) (by omega), toS8_of_small _ (by omega) (by omega)] at hs
      obtain ⟨evs, h1, h2, h3⟩ := ih
        { s with written := s.written ++
          [.input2 [0x01, s.m_mouseButtons, toU8 (max (-127) (min 127 dx)),
            toU8 (max (-127) (min 127 dy)), toU8 0, toU8 0]] }
        (dx - max (-127) (min 127 dx)) (dy - max (-127) (min 127 dy)) hrun hw (by omega)
      refine ⟨UhidEvent.input2 [0x01, s.m_mouseButtons, toU8 (max (-127) (min 127 dx)),
            toU8 (max (-127) (min 127 dy)), toU8 0, toU8 0] :: evs, ?_, ?_, ?_⟩
      · simp only [sendRelativeMotionLoop]
        rw [if_pos hc, toS8_of_small _ (by omega) (by omega), toS8_of_small _ (by omega) (by omega),
          hs]
        simp only [Bool.not_true, Bool.false_eq_true, if_false]
        rw [h1]
        simp [List.append_assoc]
      · rw [List.length_cons, h2, hstep]
      · intro i ev hev
        cases i with
        | zero =>
          simp only [List.getElem?_cons_zero, Option.some.injEq] at hev
          subst hev
          have hx : fromU8 (toU8 (max (-127) (min 127 dx))) = max (-127) (min 127 dx) :=
            fromU8_toU8 _ (by omega) (by omega)
          have hy : fromU8 (toU8 (max (-127) (min 127 dy))) = max (-127) (min 127 dy) :=
            fromU8_toU8 _ (by omega) (by omega)
          refine ⟨trivial, ?_, ?_⟩ <;>
            simp only [UhidEvent.stepX, UhidEvent.stepY, UhidEvent.byte, List.getD_cons_succ,
              List.getD_cons_zero, hx, hy]
          · constructor
            · intro h
              exact a2 (by omega)
            · intro h
              have : dx ≠ 0 := fun e => by have := a3 e; omega
              omega
          · constructor
            · intro h
              exact b2 (by omega)
            · intro h
              have : dy ≠ 0 := fun e => by have := b3 e; omega
              omega
        | succ i =>
          simp only [List.getElem?_cons_succ] at hev
          obtain ⟨c1, c2, c3⟩ := h3 i ev hev
          rw [a1] at c2
          rw [b1] at c3
          refine ⟨c1, c2.trans ?_, c3.trans ?_⟩ <;> omega
    · refine ⟨[], ?_, ?_, ?_⟩
      · simp only [sendRelativeMotionLoop]
        rw [if_neg hc]; simp
      · rw [reportCountSpec_zero dx dy hc]
        rfl
      · intro i ev hev
        simp at hev

theorem sendRelativeMotion_eq_loop (fuel : Nat) (s : UhidServer) (dx dy : Int)
    (hrun : s.m_running = true) :
    sendRelativeMotion fuel s dx dy = sendRelativeMotionLoop fuel s dx dy := by
  simp [sendRelativeMotion, hrun]

/-- Claim C31. For signed 32-bit deltas the loop of `sendRelativeMotion` ends
in every state and whatever the writes return: `reportCountSpec dx dy`
iterations and the final test are enough. On a running session with
successful writes it ends with `true` after exactly that many iterations,
having appended `reportCountSpec dx dy = max(ceil(|dx| / 127), ceil(|dy| / 127))`
mouse reports; the report number `i` (from 0) carries a non-zero x step when
`i < ceil(|dx| / 127)` and the x step 0 from then on, and likewise for y.
`ceilDiv127 n` is the ceiling of `n / 127`. -/
theorem C31_relative_motion_report_count (s : UhidServer) (dx dy : Int)
    (_hdx : -2147483648 ≤ dx ∧ dx ≤ 2147483647) (_hdy : -2147483648 ≤ dy ∧ dy ≤ 2147483647) :
    (∀ fuel, reportCountSpec dx dy < fuel → ∃ r, sendRelativeMotion fuel s dx dy = some r) ∧
    (s.m_running = true → s.writesSucceed →
      ∃ evs : List UhidEvent,
        (∀ fuel, sendRelativeMotion fuel s dx dy =
          if reportCountSpec dx dy < fuel
          then some (true, { s with written := s.written ++ evs }) else none) ∧
        evs.length = reportCountSpec dx dy ∧
        ∀ i ev, evs[i]? = some ev →
          ev.isMouseReport ∧
          (ev.stepX ≠ 0 ↔ i < ceilDiv127 dx.natAbs) ∧
          (ev.stepY ≠ 0 ↔ i < ceilDiv127 dy.natAbs)) ∧
    (∀ n : Nat, n ≤ 127 * ceilDiv127 n ∧ (∀ c, n ≤ 127 * c → ceilDiv127 n ≤ c) ∧
      ⌈(n : ℚ) / 127⌉₊ = ceilDiv127 n) := by
  refine ⟨?_, ?_, ceilDiv127_spec⟩
  · intro fuel hf
    rcases Bool.eq_false_or_eq_true s.m_running with hrun | hrun
    · rw [sendRelativeMotion_eq_loop fuel s dx dy hrun]
      exact sendRelativeMotionLoop_total fuel s dx dy hf
    · exact ⟨(false, s), by simp [sendRelativeMotion, hrun]⟩
  · intro hrun hw
    obtain ⟨evs, h1, h2, h3⟩ := sendRelativeMotionLoop_count (reportCountSpec dx dy + 1) s dx dy
      hrun hw (by omega)
    refine ⟨evs, ?_, h2, h3⟩
    intro fuel
    rw [sendRelativeMotion_eq_loop fuel s dx dy hrun]
    by_cases hf : reportCountSpec dx dy < fuel
    · rw [if_pos hf]
      have hk : fuel = reportCountSpec dx dy + 1 + (fuel - (reportCountSpec dx dy + 1)) := by
        omega
      rw [hk]
      exact sendRelativeMotionLoop_mono _ s dx dy _ h1 _
    · rw [if_neg hf]
      exact sendRelativeMotionLoop_none fuel s dx dy hrun hw (by omega)

/-- Witness of claim C31 at the deltas (200, -300) on the fresh running
session: three reports, the loop ending at its fourth test. -/
theorem C31_relative_motion_report_count_witness :
    ((-2147483648 : Int) ≤ 200 ∧ (200 : Int) ≤ 2147483647) ∧
    ((-2147483648 : Int) ≤ -300 ∧ (-300 : Int) ≤ 2147483647) ∧
    freshRunning.m_running = true ∧ freshRunning.writesSucceed ∧
    reportCountSpec 200 (-300) = 3 ∧
    ∃ evs : List UhidEvent,
      (∀ fuel, sendRelativeMotion fuel freshRunning 200 (-300) =
        if reportCountSpec 200 (-300) < fuel
        then some (true, { freshRunning with written := freshRunning.written ++ evs })
        else none) ∧
      evs.length = 3 :=
  ⟨by decide, by decide, rfl, fun _ => le_refl _, by decide,
    match (C31_relative_motion_report_count freshRunning 200 (-300) (by decide) (by decide)).2.1
      rfl (fun _ => le_refl _) with
    | ⟨evs, h1, h2, _⟩ => ⟨evs, h1, h2.trans (by decide)⟩⟩

/-- The runs behind C31 on the fresh running session: (0, 0) writes nothing;
(200, -300) writes the steps (127, -127), (73, -127), (0, -46), the x axis
carrying 0 once it is exhausted, and the loop has not ended after three
iterations; the counts of (127, 0), (128, 0), (-254, 255) and of the largest
deltas. -/
theorem sendRelativeMotion_runs :
    (sendRelativeMotion 1 freshRunning 0 0).map (fun r => (r.1, r.2.written))
      = some (true, []) ∧
    (sendRelativeMotion 4 freshRunning 200 (-300)).map
        (fun r => (r.1, r.2.written.map (fun ev => (ev.stepX, ev.stepY))))
      = some (true, [(127, -127), (73, -127), (0, -46)]) ∧
    (sendRelativeMotion 3 freshRunning 200 (-300)).isNone = true ∧
    reportCountSpec 0 0 = 0 ∧ reportCountSpec 200 (-300) = 3 ∧
    reportCountSpec 127 0 = 1 ∧ reportCountSpec 128 0 = 2 ∧ reportCountSpec (-254) 255 = 3 ∧
    reportCountSpec (-2147483648) 2147483647 = 16909321 :=
  ⟨by decide, by decide, by decide, by decide, by decide, by decide, by decide, by decide,
    by decide⟩

end Uhid
